import Mathlib

/-!
A shallow embedding of `pgx-utils/src/sql_entity_graph/pgx_sql.rs`: the SQL
entity dependency-graph builder (`PgxSql::build`), its helper passes, and the
linearizer used by `PgxSql::to_sql`.

Modelling conventions:
* Rust `HashMap<Entity, NodeIndex>` values are modelled as association lists
  `List (Entity × NodeIndex)` in insertion order; Rust hash-map iteration order
  is arbitrary, the list order is one deterministic refinement of it.
* `petgraph::stable_graph::StableGraph` (append-only here, no removals) is a
  node list plus an edge list; `add_node` returns the next sequential index.
* Rust `TypeId` is modelled as `Nat`; `id_matches` is equality on it.
* `eyre::Result` and the `.expect` panics inside the connector passes are both
  modelled in `Except BuildError`, with distinct constructors so that panics
  and ordinary errors stay distinguishable.
* `entities.sort()` at the top of `build` permutes the input using an `Ord`
  instance defined outside this file's source; the model consumes the entity
  list as given (theorems quantify over arbitrary lists, so they apply to the
  sorted list as well).
-/

namespace PgxSqlModel

/-- `SqlGraphRelationship` from the source. -/
inductive SqlGraphRelationship
  | requiredBy
  | requiredByArg
  | requiredByReturn
deriving DecidableEq, Repr

/-- `ControlFile` (only the fields the graph builder itself touches). -/
structure ControlFile where
  relocatable : Bool
  schema : Option String
  default_version : String
deriving DecidableEq, Repr

/-- `PositioningRef` from `positioning_ref.rs`: a full module path or a name. -/
inductive PositioningRef
  | fullPath (path : String)
  | name (name : String)
deriving DecidableEq, Repr

/-- `SqlDeclared`: the kind+name key of an entity declared by `extension_sql!`. -/
inductive SqlDeclared
  | declType (name : String)
  | declEnum (name : String)
  | declFunction (name : String)
deriving DecidableEq, Repr

/-- A type usage appearing in a function argument or return position. -/
structure UsedTypeEntity where
  ty_id : Nat
  full_path : String
  ty_source : String
deriving DecidableEq, Repr

/-- `PgExternArgumentEntity`: one function argument with its used type. -/
structure PgExternArgumentEntity where
  used_ty : UsedTypeEntity
deriving DecidableEq, Repr

/-- `PgExternReturnEntity`: a function return shape. -/
inductive PgExternReturnEntity
  | noneRet
  | trigger
  | type (ty : UsedTypeEntity)
  | setOf (ty : UsedTypeEntity)
  | iterated (tys : List UsedTypeEntity)
deriving DecidableEq, Repr

/-- `ExternArgs` attributes carried by a function entity (variants other than
`Requires` and `Schema` are ignored by `connect_externs`, collapsed to `other`). -/
inductive ExternArgs
  | requiresRefs (refs : List PositioningRef)
  | schema (name : String)
  | other
deriving DecidableEq, Repr

/-- `PgExternEntity`: a `#[pg_extern]` function. -/
structure PgExternEntity where
  name : String
  unaliased_name : String
  module_path : String
  full_path : String
  extern_attrs : List ExternArgs
  fn_args : List PgExternArgumentEntity
  fn_return : PgExternReturnEntity
deriving DecidableEq, Repr

/-- `SchemaEntity`. -/
structure SchemaEntity where
  name : String
  module_path : String
deriving DecidableEq, Repr

/-- `ExtensionSqlEntity`: a free-form SQL fragment with anchors and requires. -/
structure ExtensionSqlEntity where
  name : String
  module_path : String
  bootstrap : Bool
  finalize : Bool
  requires : List PositioningRef
  creates : List SqlDeclared
deriving DecidableEq, Repr

/-- Modelled from the spec: `ExtensionSqlEntity::has_sql_declared_entity` lives
in `extension_sql/entity.rs`, which is not part of the given sources; the spec
says an extension-SQL fragment "declares the same type/enum name", so matching
is equality on the declared kind+name. -/
def ExtensionSqlEntity.has_sql_declared_entity (e : ExtensionSqlEntity)
    (ident : SqlDeclared) : Bool :=
  e.creates.any (fun c => c == ident)

/-- `PostgresTypeEntity`. -/
structure PostgresTypeEntity where
  name : String
  module_path : String
  full_path : String
  id : Nat
deriving DecidableEq, Repr

/-- `PostgresTypeEntity::id_matches`. -/
def PostgresTypeEntity.id_matches (t : PostgresTypeEntity) (ty_id : Nat) : Bool :=
  t.id == ty_id

/-- `PostgresEnumEntity`. -/
structure PostgresEnumEntity where
  name : String
  module_path : String
  full_path : String
  id : Nat
deriving DecidableEq, Repr

/-- `PostgresEnumEntity::id_matches`. -/
def PostgresEnumEntity.id_matches (t : PostgresEnumEntity) (ty_id : Nat) : Bool :=
  t.id == ty_id

/-- Executable model of `char::to_lowercase` on the ASCII identifiers the
naming conventions use. -/
def char_to_lower (c : Char) : Char :=
  if 'A' ≤ c ∧ c ≤ 'Z' then Char.ofNat (c.toNat + 32) else c

/-- Executable model of `str::to_lowercase`. -/
def str_to_lower (s : String) : String := ⟨s.data.map char_to_lower⟩

/-- Executable model of `str::ends_with`. -/
def str_ends_with (s t : String) : Bool := t.data.isSuffixOf s.data

/-- Executable model of `str::split("::")` (the only separator the source
uses), by recursion on the character list: `acc` is the segment being read. -/
def split_double_colon : List Char → List Char → List (List Char)
  | [], acc => [acc]
  | ':' :: ':' :: cs, acc => acc :: split_double_colon cs []
  | c :: cs, acc => split_double_colon cs (acc ++ [c])

/-- The segments of a `::`-separated path. -/
def path_segments (path : String) : List String :=
  (split_double_colon path.data []).map (fun cs => (⟨cs⟩ : String))

/-- Executable model of joining segments back with `"::"`. -/
def intercalate_double_colon : List String → String
  | [] => ""
  | [s] => s
  | s :: rest => s ++ "::" ++ intercalate_double_colon rest

/-- `PostgresOrdEntity`. -/
structure PostgresOrdEntity where
  name : String
  module_path : String
  full_path : String
  id : Nat
deriving DecidableEq, Repr

/-- Modelled from the spec: the comparison-function naming convention
(`cmp`, `lt`, `le`, `eq`, `gt`, `ge`) of `PostgresOrdEntity`; the method bodies
live in `postgres_ord/entity.rs`, outside the given sources. -/
def PostgresOrdEntity.cmp_fn_name (t : PostgresOrdEntity) : String :=
  str_to_lower (t.name ++ "_cmp")

/-- Modelled from the spec: see `PostgresOrdEntity.cmp_fn_name`. -/
def PostgresOrdEntity.lt_fn_name (t : PostgresOrdEntity) : String :=
  str_to_lower (t.name ++ "_lt")

/-- Modelled from the spec: see `PostgresOrdEntity.cmp_fn_name`. -/
def PostgresOrdEntity.le_fn_name (t : PostgresOrdEntity) : String :=
  str_to_lower (t.name ++ "_le")

/-- Modelled from the spec: see `PostgresOrdEntity.cmp_fn_name`. -/
def PostgresOrdEntity.eq_fn_name (t : PostgresOrdEntity) : String :=
  str_to_lower (t.name ++ "_eq")

/-- Modelled from the spec: see `PostgresOrdEntity.cmp_fn_name`. -/
def PostgresOrdEntity.gt_fn_name (t : PostgresOrdEntity) : String :=
  str_to_lower (t.name ++ "_gt")

/-- Modelled from the spec: see `PostgresOrdEntity.cmp_fn_name`. -/
def PostgresOrdEntity.ge_fn_name (t : PostgresOrdEntity) : String :=
  str_to_lower (t.name ++ "_ge")

/-- `PostgresHashEntity`. -/
structure PostgresHashEntity where
  name : String
  module_path : String
  full_path : String
  id : Nat
deriving DecidableEq, Repr

/-- Modelled from the spec: the single hash-function naming convention of
`PostgresHashEntity` (`fn_name`); the method body lives in
`postgres_hash/entity.rs`, outside the given sources. -/
def PostgresHashEntity.fn_name (t : PostgresHashEntity) : String :=
  str_to_lower (t.name ++ "_hash")

/-- `PgAggregateEntity` (the fields `connect_aggregate` reads). -/
structure PgAggregateEntity where
  name : String
  module_path : String
  full_path : String
  ty_id : Nat
  args : List PgExternArgumentEntity
  direct_args : Option (List PgExternArgumentEntity)
  mstype : Option UsedTypeEntity
  sfunc : String
  finalfunc : Option String
  combinefunc : Option String
  serialfunc : Option String
  deserialfunc : Option String
  msfunc : Option String
  minvfunc : Option String
  mfinalfunc : Option String
  sortop : Option String
deriving DecidableEq, Repr

/-- `PgTriggerEntity`. -/
structure PgTriggerEntity where
  function_name : String
  module_path : String
deriving DecidableEq, Repr

/-- `SqlGraphEntity`: the tagged union of all graph node payloads. -/
inductive SqlGraphEntity
  | extensionRoot (control : ControlFile)
  | schema (item : SchemaEntity)
  | customSql (item : ExtensionSqlEntity)
  | function (item : PgExternEntity)
  | type (item : PostgresTypeEntity)
  | builtinType (path : String)
  | enum (item : PostgresEnumEntity)
  | ord (item : PostgresOrdEntity)
  | hash (item : PostgresHashEntity)
  | aggregate (item : PgAggregateEntity)
  | trigger (item : PgTriggerEntity)
deriving DecidableEq, Repr

/-- Node indices of the (append-only) stable graph. -/
abbrev NodeIndex := Nat

/-- One directed edge: source, destination, relationship. -/
abbrev Edge := NodeIndex × NodeIndex × SqlGraphRelationship

/-- `StableGraph<SqlGraphEntity, SqlGraphRelationship>` restricted to the
append-only operations the builder uses. -/
structure Graph where
  nodes : List SqlGraphEntity
  edges : List Edge
deriving DecidableEq, Repr

/-- `StableGraph::add_node`: appends a node, returning its index. -/
def Graph.add_node (g : Graph) (e : SqlGraphEntity) : Graph × NodeIndex :=
  ({ g with nodes := g.nodes ++ [e] }, g.nodes.length)

/-- `StableGraph::add_edge`. -/
def Graph.add_edge (g : Graph) (a b : NodeIndex) (rel : SqlGraphRelationship) : Graph :=
  { g with edges := g.edges ++ [(a, b, rel)] }

/-- The fatal outcomes of `PgxSql::build`: `eyre!` errors, the
`control.expect("No control file found")` panic, and the
"Could not fetch Builtin Type" `.expect` panics, each as a constructor. -/
inductive BuildError
  | noControlFile
  | multipleBootstraps (found : String)
  | multipleFinalizes (found : String)
  | requiresNotFound (ident : String) (target : PositioningRef)
  | schemaNotFound (declared : String)
  | externNotFound (full_path : String)
  | builtinTypeNotFound (full_path : String)
deriving DecidableEq, Repr

end PgxSqlModel

namespace PgxSqlModel

/-- `build_base_edges`: root before node, bootstrap before node, node before finalize. -/
def build_base_edges (g : Graph) (index root : NodeIndex)
    (bootstrap finalize : Option NodeIndex) : Graph :=
  let g := g.add_edge root index .requiredBy
  let g := match bootstrap with
    | some b => g.add_edge b index .requiredBy
    | none => g
  match finalize with
  | some f => g.add_edge index f .requiredBy
  | none => g

/-- First loop of `initialize_extension_sqls`: create nodes, detect the unique
bootstrap/finalize anchors, failing on a duplicate of either. -/
def initialize_extension_sqls_nodes :
    Graph → Option NodeIndex → Option NodeIndex →
    List (ExtensionSqlEntity × NodeIndex) → List ExtensionSqlEntity →
    Except BuildError
      (Graph × Option NodeIndex × Option NodeIndex × List (ExtensionSqlEntity × NodeIndex))
  | g, bootstrap, finalize, mapped, [] => .ok (g, bootstrap, finalize, mapped)
  | g, bootstrap, finalize, mapped, item :: rest =>
    let p := g.add_node (.customSql item)
    let mapped' := mapped ++ [(item, p.2)]
    if item.bootstrap && bootstrap.isSome then
      .error (.multipleBootstraps item.name)
    else
      let bootstrap' := if item.bootstrap then some p.2 else bootstrap
      if item.finalize && finalize.isSome then
        .error (.multipleFinalizes item.name)
      else
        let finalize' := if item.finalize then some p.2 else finalize
        initialize_extension_sqls_nodes p.1 bootstrap' finalize' mapped' rest

/-- Second loop of `initialize_extension_sqls`: root edge for every fragment,
bootstrap/finalize edges for every fragment not itself so marked. -/
def extension_sql_base_edges (root : NodeIndex)
    (bootstrap finalize : Option NodeIndex) :
    Graph → List (ExtensionSqlEntity × NodeIndex) → Graph
  | g, [] => g
  | g, (item, index) :: rest =>
    let g := g.add_edge root index .requiredBy
    let g := if !item.bootstrap then
        match bootstrap with
        | some b => g.add_edge b index .requiredBy
        | none => g
      else g
    let g := if !item.finalize then
        match finalize with
        | some f => g.add_edge index f .requiredBy
        | none => g
      else g
    extension_sql_base_edges root bootstrap finalize g rest

/-- `initialize_extension_sqls`. -/
def initialize_extension_sqls (g : Graph) (root : NodeIndex)
    (extension_sqls : List ExtensionSqlEntity) :
    Except BuildError
      (Graph × List (ExtensionSqlEntity × NodeIndex) × Option NodeIndex × Option NodeIndex) :=
  match initialize_extension_sqls_nodes g none none [] extension_sqls with
  | .error e => .error e
  | .ok (g, bootstrap, finalize, mapped) =>
    .ok (extension_sql_base_edges root bootstrap finalize g mapped, mapped, bootstrap, finalize)

/-- `find_positioning_ref_target`: the best-effort resolver for a
`PositioningRef`, searching types, enums, externs, schemas, triggers (for a
full path) or extension-SQL fragments by exact name. -/
def find_positioning_ref_target (positioning_ref : PositioningRef)
    (types : List (PostgresTypeEntity × NodeIndex))
    (enums : List (PostgresEnumEntity × NodeIndex))
    (externs : List (PgExternEntity × NodeIndex))
    (schemas : List (SchemaEntity × NodeIndex))
    (extension_sqls : List (ExtensionSqlEntity × NodeIndex))
    (triggers : List (PgTriggerEntity × NodeIndex)) : Option NodeIndex :=
  match positioning_ref with
  | .fullPath path =>
    let segments := path_segments path
    let last_segment := segments.getLastD ""
    let module_path := intercalate_double_colon segments.dropLast
    match types.find? (fun other =>
        other.1.name == last_segment && str_ends_with other.1.module_path module_path) with
    | some other => some other.2
    | none =>
    match enums.find? (fun other =>
        other.1.name == last_segment && str_ends_with other.1.module_path module_path) with
    | some other => some other.2
    | none =>
    match externs.find? (fun other =>
        other.1.unaliased_name == last_segment && str_ends_with other.1.module_path module_path) with
    | some other => some other.2
    | none =>
    match schemas.find? (fun other => str_ends_with other.1.module_path path) with
    | some other => some other.2
    | none =>
    match triggers.find? (fun other =>
        other.1.function_name == last_segment && str_ends_with other.1.module_path module_path) with
    | some other => some other.2
    | none => none
  | .name name =>
    match extension_sqls.find? (fun other => other.1.name == name) with
    | some other => some other.2
    | none => none

/-- `make_schema_connection`: schema before entity when the module paths are
exactly equal; first matching schema only. -/
def make_schema_connection (g : Graph) (index : NodeIndex) (module_path : String)
    (schemas : List (SchemaEntity × NodeIndex)) : Graph × Bool :=
  match schemas.find? (fun s => module_path == s.1.module_path) with
  | some s => (g.add_edge s.2 index .requiredBy, true)
  | none => (g, false)

/-- `make_extern_connection`: function before entity, matched by exact full
path; fatal if no function matches. -/
def make_extern_connection (g : Graph) (index : NodeIndex) (full_path : String)
    (externs : List (PgExternEntity × NodeIndex)) : Except BuildError Graph :=
  match externs.find? (fun e => full_path == e.1.full_path) with
  | some e => .ok (g.add_edge e.2 index .requiredBy)
  | none => .error (.externNotFound full_path)

/-- `make_type_or_enum_connection`: first matching type (if any) and first
matching enum (if any) each get an edge before the entity. -/
def make_type_or_enum_connection (g : Graph) (index : NodeIndex) (ty_id : Nat)
    (types : List (PostgresTypeEntity × NodeIndex))
    (enums : List (PostgresEnumEntity × NodeIndex)) : Graph × Bool :=
  let tp := match types.find? (fun t => t.1.id_matches ty_id) with
    | some t => (g.add_edge t.2 index .requiredBy, true)
    | none => (g, false)
  match enums.find? (fun t => t.1.id_matches ty_id) with
  | some t => (tp.1.add_edge t.2 index .requiredBy, true)
  | none => tp

/-- The `requires` loops of `connect_extension_sqls` and `connect_externs`:
every positioning ref must resolve, and the target precedes the requiring
entity. -/
def connect_requires_list (ident : String) (index : NodeIndex)
    (types : List (PostgresTypeEntity × NodeIndex))
    (enums : List (PostgresEnumEntity × NodeIndex))
    (externs : List (PgExternEntity × NodeIndex))
    (schemas : List (SchemaEntity × NodeIndex))
    (extension_sqls : List (ExtensionSqlEntity × NodeIndex))
    (triggers : List (PgTriggerEntity × NodeIndex)) :
    Graph → List PositioningRef → Except BuildError Graph
  | g, [] => .ok g
  | g, r :: rest =>
    match find_positioning_ref_target r types enums externs schemas extension_sqls triggers with
    | some target =>
      connect_requires_list ident index types enums externs schemas extension_sqls triggers
        (g.add_edge target index .requiredBy) rest
    | none => .error (.requiresNotFound ident r)

/-- `connect_extension_sqls` (iterating the fragment map). -/
def connect_extension_sqls_aux
    (schemas : List (SchemaEntity × NodeIndex))
    (types : List (PostgresTypeEntity × NodeIndex))
    (enums : List (PostgresEnumEntity × NodeIndex))
    (externs : List (PgExternEntity × NodeIndex))
    (triggers : List (PgTriggerEntity × NodeIndex))
    (all_extension_sqls : List (ExtensionSqlEntity × NodeIndex)) :
    Graph → List (ExtensionSqlEntity × NodeIndex) → Except BuildError Graph
  | g, [] => .ok g
  | g, (item, index) :: rest =>
    let g := (make_schema_connection g index item.module_path schemas).1
    match connect_requires_list item.name index types enums externs schemas all_extension_sqls
        triggers g item.requires with
    | .error e => .error e
    | .ok g => connect_extension_sqls_aux schemas types enums externs triggers
        all_extension_sqls g rest

/-- `connect_extension_sqls`. -/
def connect_extension_sqls (g : Graph)
    (extension_sqls : List (ExtensionSqlEntity × NodeIndex))
    (schemas : List (SchemaEntity × NodeIndex))
    (types : List (PostgresTypeEntity × NodeIndex))
    (enums : List (PostgresEnumEntity × NodeIndex))
    (externs : List (PgExternEntity × NodeIndex))
    (triggers : List (PgTriggerEntity × NodeIndex)) : Except BuildError Graph :=
  connect_extension_sqls_aux schemas types enums externs triggers extension_sqls g
    extension_sqls

end PgxSqlModel

namespace PgxSqlModel

/-- The schema-name edge loop inside `connect_externs`'s `Schema` attribute
arm: every schema whose name equals the declared name precedes the function. -/
def add_schema_name_edges (index : NodeIndex) (declared : String) :
    Graph → List (SchemaEntity × NodeIndex) → Graph
  | g, [] => g
  | g, s :: rest =>
    let g := if s.1.name == declared then g.add_edge s.2 index .requiredBy else g
    add_schema_name_edges index declared g rest

/-- The attribute loop of `connect_externs`: `Requires` refs must resolve, a
`Schema` attribute wires all schemas of that name (fatal when none matched and
no earlier attribute had matched), other attributes are ignored. -/
def connect_externs_attrs (ident : String) (index : NodeIndex)
    (types : List (PostgresTypeEntity × NodeIndex))
    (enums : List (PostgresEnumEntity × NodeIndex))
    (externs : List (PgExternEntity × NodeIndex))
    (schemas : List (SchemaEntity × NodeIndex))
    (extension_sqls : List (ExtensionSqlEntity × NodeIndex))
    (triggers : List (PgTriggerEntity × NodeIndex)) :
    Graph → Bool → List ExternArgs → Except BuildError (Graph × Bool)
  | g, found, [] => .ok (g, found)
  | g, found, .requiresRefs refs :: rest =>
    (match connect_requires_list ident index types enums externs schemas extension_sqls
        triggers g refs with
    | .error e => .error e
    | .ok g =>
      connect_externs_attrs ident index types enums externs schemas extension_sqls
        triggers g found rest)
  | g, found, .schema declared_schema_name :: rest =>
    let g := add_schema_name_edges index declared_schema_name g schemas
    let found := found || schemas.any (fun s => s.1.name == declared_schema_name)
    if !found then .error (.schemaNotFound declared_schema_name)
    else
      connect_externs_attrs ident index types enums externs schemas extension_sqls
        triggers g found rest
  | g, found, .other :: rest =>
    connect_externs_attrs ident index types enums externs schemas extension_sqls
      triggers g found rest

/-- The hash loop of `connect_externs`: the `{name}_eq` function (same module)
precedes the hash operator. -/
def connect_externs_hashes (item : PgExternEntity) (index : NodeIndex) :
    Graph → List (PostgresHashEntity × NodeIndex) → Graph
  | g, [] => g
  | g, (hash_item, hash_index) :: rest =>
    let g := if item.module_path == hash_item.module_path
        && item.name == str_to_lower hash_item.name ++ "_eq"
      then g.add_edge index hash_index .requiredBy else g
    connect_externs_hashes item index g rest

/-- The extension-SQL declared-type loop shared by the argument and return
wiring of `connect_externs`: each fragment declaring `path` as a type or enum
precedes the function (`RequiredByArg` in both positions, as in the source). -/
def add_declared_type_edges (index : NodeIndex) (path : String) :
    Graph → List (ExtensionSqlEntity × NodeIndex) → Graph
  | g, [] => g
  | g, (ext_item, ext_index) :: rest =>
    let g := if ext_item.has_sql_declared_entity (.declType path) then
        g.add_edge ext_index index .requiredByArg
      else if ext_item.has_sql_declared_entity (.declEnum path) then
        g.add_edge ext_index index .requiredByArg
      else g
    add_declared_type_edges index path g rest

/-- One argument/return type usage of `connect_externs`: first matching type,
else first matching enum, else the builtin placeholder looked up under `key`
(a missing placeholder is the `.expect` panic) plus the extension-SQL declared
edges. -/
def connect_extern_used_ty (index : NodeIndex) (ty_id : Nat) (key : String)
    (rel : SqlGraphRelationship)
    (types : List (PostgresTypeEntity × NodeIndex))
    (enums : List (PostgresEnumEntity × NodeIndex))
    (builtin_types : List (String × NodeIndex))
    (extension_sqls : List (ExtensionSqlEntity × NodeIndex))
    (g : Graph) : Except BuildError Graph :=
  match types.find? (fun t => t.1.id_matches ty_id) with
  | some t => .ok (g.add_edge t.2 index rel)
  | none =>
  match enums.find? (fun t => t.1.id_matches ty_id) with
  | some t => .ok (g.add_edge t.2 index rel)
  | none =>
  match builtin_types.find? (fun b => b.1 == key) with
  | none => .error (.builtinTypeNotFound key)
  | some b =>
    .ok (add_declared_type_edges index key (g.add_edge b.2 index rel) extension_sqls)

/-- The argument loop of `connect_externs`. -/
def connect_extern_args (index : NodeIndex)
    (types : List (PostgresTypeEntity × NodeIndex))
    (enums : List (PostgresEnumEntity × NodeIndex))
    (builtin_types : List (String × NodeIndex))
    (extension_sqls : List (ExtensionSqlEntity × NodeIndex)) :
    Graph → List PgExternArgumentEntity → Except BuildError Graph
  | g, [] => .ok g
  | g, arg :: rest =>
    match connect_extern_used_ty index arg.used_ty.ty_id arg.used_ty.full_path
        .requiredByArg types enums builtin_types extension_sqls g with
    | .error e => .error e
    | .ok g => connect_extern_args index types enums builtin_types extension_sqls g rest

/-- The iterated-return loop of `connect_externs` (keys are `ty_source`). -/
def connect_extern_iterated (index : NodeIndex)
    (types : List (PostgresTypeEntity × NodeIndex))
    (enums : List (PostgresEnumEntity × NodeIndex))
    (builtin_types : List (String × NodeIndex))
    (extension_sqls : List (ExtensionSqlEntity × NodeIndex)) :
    Graph → List UsedTypeEntity → Except BuildError Graph
  | g, [] => .ok g
  | g, ty :: rest =>
    match connect_extern_used_ty index ty.ty_id ty.ty_source
        .requiredByReturn types enums builtin_types extension_sqls g with
    | .error e => .error e
    | .ok g => connect_extern_iterated index types enums builtin_types extension_sqls g rest

/-- The return wiring of `connect_externs`. -/
def connect_extern_return (index : NodeIndex)
    (types : List (PostgresTypeEntity × NodeIndex))
    (enums : List (PostgresEnumEntity × NodeIndex))
    (builtin_types : List (String × NodeIndex))
    (extension_sqls : List (ExtensionSqlEntity × NodeIndex))
    (g : Graph) : PgExternReturnEntity → Except BuildError Graph
  | .noneRet => .ok g
  | .trigger => .ok g
  | .type ty =>
    connect_extern_used_ty index ty.ty_id ty.full_path .requiredByReturn types enums
      builtin_types extension_sqls g
  | .setOf ty =>
    connect_extern_used_ty index ty.ty_id ty.full_path .requiredByReturn types enums
      builtin_types extension_sqls g
  | .iterated tys =>
    connect_extern_iterated index types enums builtin_types extension_sqls g tys

/-- The per-function body of `connect_externs`. -/
def connect_extern_item (g : Graph) (item : PgExternEntity) (index : NodeIndex)
    (hashes : List (PostgresHashEntity × NodeIndex))
    (schemas : List (SchemaEntity × NodeIndex))
    (types : List (PostgresTypeEntity × NodeIndex))
    (enums : List (PostgresEnumEntity × NodeIndex))
    (builtin_types : List (String × NodeIndex))
    (extension_sqls : List (ExtensionSqlEntity × NodeIndex))
    (triggers : List (PgTriggerEntity × NodeIndex))
    (externs : List (PgExternEntity × NodeIndex)) : Except BuildError Graph :=
  match connect_externs_attrs item.name index types enums externs schemas extension_sqls
      triggers g false item.extern_attrs with
  | .error e => .error e
  | .ok (g, found_schema_declaration) =>
    let g := if !found_schema_declaration then
        (make_schema_connection g index item.module_path schemas).1
      else g
    let g := connect_externs_hashes item index g hashes
    match connect_extern_args index types enums builtin_types extension_sqls g
        item.fn_args with
    | .error e => .error e
    | .ok g =>
      connect_extern_return index types enums builtin_types extension_sqls g item.fn_return

/-- `connect_externs` (iterating the function map). -/
def connect_externs_aux
    (hashes : List (PostgresHashEntity × NodeIndex))
    (schemas : List (SchemaEntity × NodeIndex))
    (types : List (PostgresTypeEntity × NodeIndex))
    (enums : List (PostgresEnumEntity × NodeIndex))
    (builtin_types : List (String × NodeIndex))
    (extension_sqls : List (ExtensionSqlEntity × NodeIndex))
    (triggers : List (PgTriggerEntity × NodeIndex))
    (externs : List (PgExternEntity × NodeIndex)) :
    Graph → List (PgExternEntity × NodeIndex) → Except BuildError Graph
  | g, [] => .ok g
  | g, (item, index) :: rest =>
    match connect_extern_item g item index hashes schemas types enums builtin_types
        extension_sqls triggers externs with
    | .error e => .error e
    | .ok g =>
      connect_externs_aux hashes schemas types enums builtin_types extension_sqls
        triggers externs g rest

/-- `connect_externs`. -/
def connect_externs (g : Graph)
    (externs : List (PgExternEntity × NodeIndex))
    (hashes : List (PostgresHashEntity × NodeIndex))
    (schemas : List (SchemaEntity × NodeIndex))
    (types : List (PostgresTypeEntity × NodeIndex))
    (enums : List (PostgresEnumEntity × NodeIndex))
    (builtin_types : List (String × NodeIndex))
    (extension_sqls : List (ExtensionSqlEntity × NodeIndex))
    (triggers : List (PgTriggerEntity × NodeIndex)) : Except BuildError Graph :=
  connect_externs_aux hashes schemas types enums builtin_types extension_sqls triggers
    externs g externs

/-- The function loop of `connect_ords`: every function in the ord's module
whose name matches one of the six comparison names precedes the ord. -/
def connect_ord_externs (item : PostgresOrdEntity) (index : NodeIndex) :
    Graph → List (PgExternEntity × NodeIndex) → Graph
  | g, [] => g
  | g, (extern_item, extern_index) :: rest =>
    let fn_matches := fun fn_name =>
      item.module_path == extern_item.module_path && extern_item.name == fn_name
    let g := if fn_matches item.cmp_fn_name || fn_matches item.lt_fn_name
        || fn_matches item.le_fn_name || fn_matches item.eq_fn_name
        || fn_matches item.gt_fn_name || fn_matches item.ge_fn_name
      then g.add_edge extern_index index .requiredBy else g
    connect_ord_externs item index g rest

/-- `connect_ords` (iterating the ord map). -/
def connect_ords_aux
    (schemas : List (SchemaEntity × NodeIndex))
    (types : List (PostgresTypeEntity × NodeIndex))
    (enums : List (PostgresEnumEntity × NodeIndex))
    (externs : List (PgExternEntity × NodeIndex)) :
    Graph → List (PostgresOrdEntity × NodeIndex) → Graph
  | g, [] => g
  | g, (item, index) :: rest =>
    let g := (make_schema_connection g index item.module_path schemas).1
    let g := (make_type_or_enum_connection g index item.id types enums).1
    let g := connect_ord_externs item index g externs
    connect_ords_aux schemas types enums externs g rest

/-- `connect_ords`. -/
def connect_ords (g : Graph)
    (ords : List (PostgresOrdEntity × NodeIndex))
    (schemas : List (SchemaEntity × NodeIndex))
    (types : List (PostgresTypeEntity × NodeIndex))
    (enums : List (PostgresEnumEntity × NodeIndex))
    (externs : List (PgExternEntity × NodeIndex)) : Graph :=
  connect_ords_aux schemas types enums externs g ords

/-- `connect_hashes` (iterating the hash map); the function loop stops at the
first function matching the hash naming convention. -/
def connect_hashes_aux
    (schemas : List (SchemaEntity × NodeIndex))
    (types : List (PostgresTypeEntity × NodeIndex))
    (enums : List (PostgresEnumEntity × NodeIndex))
    (externs : List (PgExternEntity × NodeIndex)) :
    Graph → List (PostgresHashEntity × NodeIndex) → Graph
  | g, [] => g
  | g, (item, index) :: rest =>
    let g := (make_schema_connection g index item.module_path schemas).1
    let g := (make_type_or_enum_connection g index item.id types enums).1
    let g := match externs.find? (fun e =>
        item.module_path == e.1.module_path && e.1.name == item.fn_name) with
      | some e => g.add_edge e.2 index .requiredBy
      | none => g
    connect_hashes_aux schemas types enums externs g rest

/-- `connect_hashes`. -/
def connect_hashes (g : Graph)
    (hashes : List (PostgresHashEntity × NodeIndex))
    (schemas : List (SchemaEntity × NodeIndex))
    (types : List (PostgresTypeEntity × NodeIndex))
    (enums : List (PostgresEnumEntity × NodeIndex))
    (externs : List (PgExternEntity × NodeIndex)) : Graph :=
  connect_hashes_aux schemas types enums externs g hashes

/-- One aggregate state/argument type usage of `connect_aggregate`: a type or
enum connection, else the builtin placeholder under `key` (a missing
placeholder is the `.expect` panic). -/
def connect_aggregate_used_ty (index : NodeIndex) (ty_id : Nat) (key : String)
    (types : List (PostgresTypeEntity × NodeIndex))
    (enums : List (PostgresEnumEntity × NodeIndex))
    (builtin_types : List (String × NodeIndex))
    (g : Graph) : Except BuildError Graph :=
  let tp := make_type_or_enum_connection g index ty_id types enums
  if tp.2 then .ok tp.1
  else match builtin_types.find? (fun b => b.1 == key) with
    | some b => .ok (tp.1.add_edge b.2 index .requiredByArg)
    | none => .error (.builtinTypeNotFound key)

/-- The argument loops of `connect_aggregate` (`args` and `direct_args`). -/
def connect_aggregate_args (index : NodeIndex)
    (types : List (PostgresTypeEntity × NodeIndex))
    (enums : List (PostgresEnumEntity × NodeIndex))
    (builtin_types : List (String × NodeIndex)) :
    Graph → List PgExternArgumentEntity → Except BuildError Graph
  | g, [] => .ok g
  | g, arg :: rest =>
    match connect_aggregate_used_ty index arg.used_ty.ty_id arg.used_ty.full_path
        types enums builtin_types g with
    | .error e => .error e
    | .ok g => connect_aggregate_args index types enums builtin_types g rest

/-- The optional support-function references of an aggregate, in source order. -/
def PgAggregateEntity.optional_fns (item : PgAggregateEntity) : List (Option String) :=
  [item.finalfunc, item.combinefunc, item.serialfunc, item.deserialfunc,
   item.msfunc, item.minvfunc, item.mfinalfunc, item.sortop]

/-- The chain of optional `make_extern_connection` calls of `connect_aggregate`. -/
def connect_aggregate_opt_fns (index : NodeIndex) (module_path : String)
    (externs : List (PgExternEntity × NodeIndex)) :
    Graph → List (Option String) → Except BuildError Graph
  | g, [] => .ok g
  | g, none :: rest => connect_aggregate_opt_fns index module_path externs g rest
  | g, some value :: rest =>
    match make_extern_connection g index (module_path ++ "::" ++ value) externs with
    | .error e => .error e
    | .ok g => connect_aggregate_opt_fns index module_path externs g rest

/-- `connect_aggregate`. -/
def connect_aggregate (g : Graph) (item : PgAggregateEntity) (index : NodeIndex)
    (schemas : List (SchemaEntity × NodeIndex))
    (types : List (PostgresTypeEntity × NodeIndex))
    (enums : List (PostgresEnumEntity × NodeIndex))
    (builtin_types : List (String × NodeIndex))
    (externs : List (PgExternEntity × NodeIndex)) : Except BuildError Graph :=
  let g := (make_schema_connection g index item.module_path schemas).1
  let g := (make_type_or_enum_connection g index item.ty_id types enums).1
  match connect_aggregate_args index types enums builtin_types g item.args with
  | .error e => .error e
  | .ok g =>
  match connect_aggregate_args index types enums builtin_types g
      (item.direct_args.getD []) with
  | .error e => .error e
  | .ok g =>
  match (match item.mstype with
    | some arg => connect_aggregate_used_ty index arg.ty_id arg.full_path types enums
        builtin_types g
    | none => .ok g) with
  | .error e => .error e
  | .ok g =>
  match make_extern_connection g index (item.module_path ++ "::" ++ item.sfunc) externs with
  | .error e => .error e
  | .ok g => connect_aggregate_opt_fns index item.module_path externs g item.optional_fns

/-- `connect_aggregates`. -/
def connect_aggregates_aux
    (schemas : List (SchemaEntity × NodeIndex))
    (types : List (PostgresTypeEntity × NodeIndex))
    (enums : List (PostgresEnumEntity × NodeIndex))
    (builtin_types : List (String × NodeIndex))
    (externs : List (PgExternEntity × NodeIndex)) :
    Graph → List (PgAggregateEntity × NodeIndex) → Except BuildError Graph
  | g, [] => .ok g
  | g, (item, index) :: rest =>
    match connect_aggregate g item index schemas types enums builtin_types externs with
    | .error e => .error e
    | .ok g => connect_aggregates_aux schemas types enums builtin_types externs g rest

/-- `connect_aggregates`. -/
def connect_aggregates (g : Graph)
    (aggregates : List (PgAggregateEntity × NodeIndex))
    (schemas : List (SchemaEntity × NodeIndex))
    (types : List (PostgresTypeEntity × NodeIndex))
    (enums : List (PostgresEnumEntity × NodeIndex))
    (builtin_types : List (String × NodeIndex))
    (externs : List (PgExternEntity × NodeIndex)) : Except BuildError Graph :=
  connect_aggregates_aux schemas types enums builtin_types externs g aggregates

/-- `connect_schemas`: root precedes every schema. -/
def connect_schemas : Graph → List (SchemaEntity × NodeIndex) → NodeIndex → Graph
  | g, [], _ => g
  | g, (_, index) :: rest, root =>
    connect_schemas (g.add_edge root index .requiredBy) rest root

/-- `connect_enums`: schema membership by module path. -/
def connect_enums : Graph → List (PostgresEnumEntity × NodeIndex) →
    List (SchemaEntity × NodeIndex) → Graph
  | g, [], _ => g
  | g, (item, index) :: rest, schemas =>
    connect_enums (make_schema_connection g index item.module_path schemas).1 rest schemas

/-- `connect_types`: schema membership by module path. -/
def connect_types : Graph → List (PostgresTypeEntity × NodeIndex) →
    List (SchemaEntity × NodeIndex) → Graph
  | g, [], _ => g
  | g, (item, index) :: rest, schemas =>
    connect_types (make_schema_connection g index item.module_path schemas).1 rest schemas

/-- `connect_triggers`: schema membership by module path. -/
def connect_triggers : Graph → List (PgTriggerEntity × NodeIndex) →
    List (SchemaEntity × NodeIndex) → Graph
  | g, [], _ => g
  | g, (item, index) :: rest, schemas =>
    connect_triggers (make_schema_connection g index item.module_path schemas).1 rest schemas

end PgxSqlModel

namespace PgxSqlModel

/-- `initialize_schemas`: nodes plus bootstrap/finalize edges (the root edge
for schemas is added later by `connect_schemas`). -/
def initialize_schemas : Graph → Option NodeIndex → Option NodeIndex →
    List SchemaEntity → Graph × List (SchemaEntity × NodeIndex)
  | g, _, _, [] => (g, [])
  | g, bootstrap, finalize, item :: rest =>
    let p := g.add_node (.schema item)
    let g := match bootstrap with
      | some b => p.1.add_edge b p.2 .requiredBy
      | none => p.1
    let g := match finalize with
      | some f => g.add_edge p.2 f .requiredBy
      | none => g
    let q := initialize_schemas g bootstrap finalize rest
    (q.1, (item, p.2) :: q.2)

/-- `initialize_enums`: nodes plus base edges. -/
def initialize_enums : Graph → NodeIndex → Option NodeIndex → Option NodeIndex →
    List PostgresEnumEntity → Graph × List (PostgresEnumEntity × NodeIndex)
  | g, _, _, _, [] => (g, [])
  | g, root, bootstrap, finalize, item :: rest =>
    let p := g.add_node (.enum item)
    let g := build_base_edges p.1 p.2 root bootstrap finalize
    let q := initialize_enums g root bootstrap finalize rest
    (q.1, (item, p.2) :: q.2)

/-- `initialize_types`: nodes plus base edges. -/
def initialize_types : Graph → NodeIndex → Option NodeIndex → Option NodeIndex →
    List PostgresTypeEntity → Graph × List (PostgresTypeEntity × NodeIndex)
  | g, _, _, _, [] => (g, [])
  | g, root, bootstrap, finalize, item :: rest =>
    let p := g.add_node (.type item)
    let g := build_base_edges p.1 p.2 root bootstrap finalize
    let q := initialize_types g root bootstrap finalize rest
    (q.1, (item, p.2) :: q.2)

/-- `initialize_ords`: nodes plus base edges. -/
def initialize_ords : Graph → NodeIndex → Option NodeIndex → Option NodeIndex →
    List PostgresOrdEntity → Graph × List (PostgresOrdEntity × NodeIndex)
  | g, _, _, _, [] => (g, [])
  | g, root, bootstrap, finalize, item :: rest =>
    let p := g.add_node (.ord item)
    let g := build_base_edges p.1 p.2 root bootstrap finalize
    let q := initialize_ords g root bootstrap finalize rest
    (q.1, (item, p.2) :: q.2)

/-- `initialize_hashes`: nodes plus base edges. -/
def initialize_hashes : Graph → NodeIndex → Option NodeIndex → Option NodeIndex →
    List PostgresHashEntity → Graph × List (PostgresHashEntity × NodeIndex)
  | g, _, _, _, [] => (g, [])
  | g, root, bootstrap, finalize, item :: rest =>
    let p := g.add_node (.hash item)
    let g := build_base_edges p.1 p.2 root bootstrap finalize
    let q := initialize_hashes g root bootstrap finalize rest
    (q.1, (item, p.2) :: q.2)

/-- `initialize_triggers`: nodes plus base edges. -/
def initialize_triggers : Graph → NodeIndex → Option NodeIndex → Option NodeIndex →
    List PgTriggerEntity → Graph × List (PgTriggerEntity × NodeIndex)
  | g, _, _, _, [] => (g, [])
  | g, root, bootstrap, finalize, item :: rest =>
    let p := g.add_node (.trigger item)
    let g := build_base_edges p.1 p.2 root bootstrap finalize
    let q := initialize_triggers g root bootstrap finalize rest
    (q.1, (item, p.2) :: q.2)

/-- Does the used type id match any declared type or enum? (The node-phase
check deciding whether a builtin placeholder is needed.) -/
def type_or_enum_id_found (ty_id : Nat)
    (types : List (PostgresTypeEntity × NodeIndex))
    (enums : List (PostgresEnumEntity × NodeIndex)) : Bool :=
  (types.any fun t => t.1.id_matches ty_id) || (enums.any fun t => t.1.id_matches ty_id)

/-- The `or_insert_with` on the builtin-type map: reuse the node for `key`,
or append a fresh `BuiltinType` node. -/
def builtin_entry (g : Graph) (m : List (String × NodeIndex)) (key : String) :
    Graph × List (String × NodeIndex) :=
  match m.find? (fun p => p.1 == key) with
  | some _ => (g, m)
  | none =>
    let p := g.add_node (.builtinType key)
    (p.1, m ++ [(key, p.2)])

/-- The argument loop of the extern/aggregate node phase: a builtin placeholder
for every argument whose type id matches no declared type or enum. -/
def init_arg_builtins
    (types : List (PostgresTypeEntity × NodeIndex))
    (enums : List (PostgresEnumEntity × NodeIndex)) :
    Graph → List (String × NodeIndex) → List PgExternArgumentEntity →
    Graph × List (String × NodeIndex)
  | g, m, [] => (g, m)
  | g, m, arg :: rest =>
    let p := if type_or_enum_id_found arg.used_ty.ty_id types enums then (g, m)
      else builtin_entry g m arg.used_ty.full_path
    init_arg_builtins types enums p.1 p.2 rest

/-- The iterated-return loop of the extern node phase (keys are `ty_source`). -/
def init_iterated_builtins
    (types : List (PostgresTypeEntity × NodeIndex))
    (enums : List (PostgresEnumEntity × NodeIndex)) :
    Graph → List (String × NodeIndex) → List UsedTypeEntity →
    Graph × List (String × NodeIndex)
  | g, m, [] => (g, m)
  | g, m, ty :: rest =>
    let p := if type_or_enum_id_found ty.ty_id types enums then (g, m)
      else builtin_entry g m ty.ty_source
    init_iterated_builtins types enums p.1 p.2 rest

/-- The return match of the extern node phase. -/
def init_return_builtins
    (types : List (PostgresTypeEntity × NodeIndex))
    (enums : List (PostgresEnumEntity × NodeIndex))
    (g : Graph) (m : List (String × NodeIndex)) :
    PgExternReturnEntity → Graph × List (String × NodeIndex)
  | .noneRet => (g, m)
  | .trigger => (g, m)
  | .type ty =>
    if type_or_enum_id_found ty.ty_id types enums then (g, m)
    else builtin_entry g m ty.full_path
  | .setOf ty =>
    if type_or_enum_id_found ty.ty_id types enums then (g, m)
    else builtin_entry g m ty.full_path
  | .iterated tys => init_iterated_builtins types enums g m tys

/-- `initialize_externs`: nodes, base edges, and lazily-created builtin
placeholders for unmatched argument/return types. -/
def initialize_externs_aux (root : NodeIndex) (bootstrap finalize : Option NodeIndex)
    (types : List (PostgresTypeEntity × NodeIndex))
    (enums : List (PostgresEnumEntity × NodeIndex)) :
    Graph → List (String × NodeIndex) → List PgExternEntity →
    Graph × List (PgExternEntity × NodeIndex) × List (String × NodeIndex)
  | g, m, [] => (g, [], m)
  | g, m, item :: rest =>
    let p := g.add_node (.function item)
    let g := build_base_edges p.1 p.2 root bootstrap finalize
    let q := init_arg_builtins types enums g m item.fn_args
    let q2 := init_return_builtins types enums q.1 q.2 item.fn_return
    let r := initialize_externs_aux root bootstrap finalize types enums q2.1 q2.2 rest
    (r.1, (item, p.2) :: r.2.1, r.2.2)

/-- `initialize_externs`. -/
def initialize_externs (g : Graph) (root : NodeIndex)
    (bootstrap finalize : Option NodeIndex) (externs : List PgExternEntity)
    (mapped_types : List (PostgresTypeEntity × NodeIndex))
    (mapped_enums : List (PostgresEnumEntity × NodeIndex)) :
    Graph × List (PgExternEntity × NodeIndex) × List (String × NodeIndex) :=
  initialize_externs_aux root bootstrap finalize mapped_types mapped_enums g [] externs

/-- `initialize_aggregates`: nodes, builtin placeholders for unmatched
aggregate arguments, and base edges. -/
def initialize_aggregates_aux (root : NodeIndex) (bootstrap finalize : Option NodeIndex)
    (mapped_enums : List (PostgresEnumEntity × NodeIndex))
    (mapped_types : List (PostgresTypeEntity × NodeIndex)) :
    Graph → List (String × NodeIndex) → List PgAggregateEntity →
    Graph × List (PgAggregateEntity × NodeIndex) × List (String × NodeIndex)
  | g, m, [] => (g, [], m)
  | g, m, item :: rest =>
    let p := g.add_node (.aggregate item)
    let q := init_arg_builtins mapped_types mapped_enums p.1 m item.args
    let g := build_base_edges q.1 p.2 root bootstrap finalize
    let r := initialize_aggregates_aux root bootstrap finalize mapped_enums mapped_types
      g q.2 rest
    (r.1, (item, p.2) :: r.2.1, r.2.2)

/-- `initialize_aggregates`. -/
def initialize_aggregates (g : Graph) (root : NodeIndex)
    (bootstrap finalize : Option NodeIndex) (aggregates : List PgAggregateEntity)
    (mapped_builtin_types : List (String × NodeIndex))
    (mapped_enums : List (PostgresEnumEntity × NodeIndex))
    (mapped_types : List (PostgresTypeEntity × NodeIndex)) :
    Graph × List (PgAggregateEntity × NodeIndex) × List (String × NodeIndex) :=
  initialize_aggregates_aux root bootstrap finalize mapped_enums mapped_types g
    mapped_builtin_types aggregates

/-- The per-kind buckets produced by the entity classification loop at the top
of `PgxSql::build`. -/
structure Buckets where
  control : Option ControlFile
  schemas : List SchemaEntity
  extension_sqls : List ExtensionSqlEntity
  externs : List PgExternEntity
  types : List PostgresTypeEntity
  enums : List PostgresEnumEntity
  ords : List PostgresOrdEntity
  hashes : List PostgresHashEntity
  aggregates : List PgAggregateEntity
  triggers : List PgTriggerEntity
deriving DecidableEq, Repr

/-- The classification loop of `PgxSql::build`: partition by kind in order
(`control` keeps the last root entity, matching the overwriting assignment;
`BuiltinType` inputs are discarded). -/
def classify (entities : List SqlGraphEntity) : Buckets where
  control := (entities.filterMap fun e => match e with
    | .extensionRoot c => some c
    | _ => none).getLast?
  schemas := entities.filterMap fun e => match e with
    | .schema s => some s
    | _ => none
  extension_sqls := entities.filterMap fun e => match e with
    | .customSql s => some s
    | _ => none
  externs := entities.filterMap fun e => match e with
    | .function s => some s
    | _ => none
  types := entities.filterMap fun e => match e with
    | .type s => some s
    | _ => none
  enums := entities.filterMap fun e => match e with
    | .enum s => some s
    | _ => none
  ords := entities.filterMap fun e => match e with
    | .ord s => some s
    | _ => none
  hashes := entities.filterMap fun e => match e with
    | .hash s => some s
    | _ => none
  aggregates := entities.filterMap fun e => match e with
    | .aggregate s => some s
    | _ => none
  triggers := entities.filterMap fun e => match e with
    | .trigger s => some s
    | _ => none

/-- The state after the node phase of `PgxSql::build`: the graph, the root and
anchor indices, and every entity-to-index map. -/
structure InitState where
  g : Graph
  root : NodeIndex
  bootstrap : Option NodeIndex
  finalize : Option NodeIndex
  extension_sqls : List (ExtensionSqlEntity × NodeIndex)
  schemas : List (SchemaEntity × NodeIndex)
  enums : List (PostgresEnumEntity × NodeIndex)
  types : List (PostgresTypeEntity × NodeIndex)
  externs : List (PgExternEntity × NodeIndex)
  builtin_types : List (String × NodeIndex)
  ords : List (PostgresOrdEntity × NodeIndex)
  hashes : List (PostgresHashEntity × NodeIndex)
  aggregates : List (PgAggregateEntity × NodeIndex)
  triggers : List (PgTriggerEntity × NodeIndex)
deriving DecidableEq, Repr

/-- The node phase of `PgxSql::build`: root node first, then every
`initialize_*` pass in source order. -/
def init_phase (control : ControlFile) (bs : Buckets) : Except BuildError InitState :=
  let g0 : Graph := { nodes := [], edges := [] }
  let pr := g0.add_node (.extensionRoot control)
  match initialize_extension_sqls pr.1 pr.2 bs.extension_sqls with
  | .error e => .error e
  | .ok q =>
    let bootstrap := q.2.2.1
    let finalize := q.2.2.2
    let ps := initialize_schemas q.1 bootstrap finalize bs.schemas
    let pe := initialize_enums ps.1 pr.2 bootstrap finalize bs.enums
    let pt := initialize_types pe.1 pr.2 bootstrap finalize bs.types
    let px := initialize_externs pt.1 pr.2 bootstrap finalize bs.externs pt.2 pe.2
    let po := initialize_ords px.1 pr.2 bootstrap finalize bs.ords
    let ph := initialize_hashes po.1 pr.2 bootstrap finalize bs.hashes
    let pa := initialize_aggregates ph.1 pr.2 bootstrap finalize bs.aggregates
      px.2.2 pe.2 pt.2
    let pg := initialize_triggers pa.1 pr.2 bootstrap finalize bs.triggers
    .ok { g := pg.1, root := pr.2, bootstrap := bootstrap, finalize := finalize,
          extension_sqls := q.2.1, schemas := ps.2, enums := pe.2, types := pt.2,
          externs := px.2.1, builtin_types := pa.2.2, ords := po.2, hashes := ph.2,
          aggregates := pa.2.1, triggers := pg.2 }

/-- The edge phase of `PgxSql::build`: every `connect_*` pass in source order. -/
def connect_phase (st : InitState) : Except BuildError Graph :=
  let g := connect_schemas st.g st.schemas st.root
  match connect_extension_sqls g st.extension_sqls st.schemas st.types st.enums
      st.externs st.triggers with
  | .error e => .error e
  | .ok g =>
    let g := connect_enums g st.enums st.schemas
    let g := connect_types g st.types st.schemas
    match connect_externs g st.externs st.hashes st.schemas st.types st.enums
        st.builtin_types st.extension_sqls st.triggers with
    | .error e => .error e
    | .ok g =>
      let g := connect_ords g st.ords st.schemas st.types st.enums st.externs
      let g := connect_hashes g st.hashes st.schemas st.types st.enums st.externs
      match connect_aggregates g st.aggregates st.schemas st.types st.enums
          st.builtin_types st.externs with
      | .error e => .error e
      | .ok g => .ok (connect_triggers g st.triggers st.schemas)

/-- The completed `PgxSql` value (the graph-building fields). -/
structure PgxSql where
  control : ControlFile
  graph : Graph
  graph_root : NodeIndex
  graph_bootstrap : Option NodeIndex
  graph_finalize : Option NodeIndex
  schemas : List (SchemaEntity × NodeIndex)
  extension_sqls : List (ExtensionSqlEntity × NodeIndex)
  externs : List (PgExternEntity × NodeIndex)
  types : List (PostgresTypeEntity × NodeIndex)
  builtin_types : List (String × NodeIndex)
  enums : List (PostgresEnumEntity × NodeIndex)
  ords : List (PostgresOrdEntity × NodeIndex)
  hashes : List (PostgresHashEntity × NodeIndex)
  aggregates : List (PgAggregateEntity × NodeIndex)
  triggers : List (PgTriggerEntity × NodeIndex)
deriving DecidableEq, Repr

/-- `PgxSql::build`: classify, check the control entity, run the node phase,
run the edge phase, assemble the result. -/
def build (entities : List SqlGraphEntity) : Except BuildError PgxSql :=
  let bs := classify entities
  match bs.control with
  | none => .error .noControlFile
  | some control =>
    match init_phase control bs with
    | .error e => .error e
    | .ok st =>
      match connect_phase st with
      | .error e => .error e
      | .ok g =>
        .ok { control := control, graph := g, graph_root := st.root,
              graph_bootstrap := st.bootstrap, graph_finalize := st.finalize,
              schemas := st.schemas, extension_sqls := st.extension_sqls,
              externs := st.externs, types := st.types,
              builtin_types := st.builtin_types, enums := st.enums, ords := st.ords,
              hashes := st.hashes, aggregates := st.aggregates, triggers := st.triggers }

end PgxSqlModel

namespace PgxSqlModel

/-- Does `v` have an incoming edge whose source is still in `remaining`? -/
def has_incoming (edges : List Edge) (remaining : List Nat) (v : Nat) : Bool :=
  edges.any (fun e => e.2.1 == v && remaining.contains e.1)

/-- The first remaining node with no incoming edge from the remaining nodes. -/
def pick_ready (edges : List Edge) (remaining : List Nat) : Option Nat :=
  remaining.find? (fun v => !(has_incoming edges remaining v))

/-- A predecessor of `v` among the remaining nodes (or `v` when none exists). -/
def pred_in (edges : List Edge) (remaining : List Nat) (v : Nat) : Nat :=
  match edges.find? (fun e => e.2.1 == v && remaining.contains e.1) with
  | some e => e.1
  | none => v

/-- When every remaining node has a remaining predecessor, walking predecessors
`remaining.length` steps from any start necessarily lands on a cycle. -/
def find_cycle_node (edges : List Edge) (remaining : List Nat) : Nat :=
  match remaining with
  | [] => 0
  | r :: _ => (pred_in edges remaining)^[remaining.length] r

/-- Modelled from the spec: `PgxSql::to_sql` orders the graph with
`petgraph::algo::toposort`, library code outside this repository; the spec
says linearization "performs a topological sort. On success, returns entities
in an order where every edge's source precedes its target. On cycle detection,
fails with the specific node found to participate in a cycle." The model
repeatedly emits a remaining node with no incoming edge from the remaining
nodes; when none exists it fails with a node found on a cycle. -/
def toposort_aux (edges : List Edge) (remaining : List Nat) : Except Nat (List Nat) :=
  match h : pick_ready edges remaining with
  | some v =>
    match toposort_aux edges (remaining.erase v) with
    | .ok rest => .ok (v :: rest)
    | .error e => .error e
  | none =>
    if remaining.isEmpty then .ok [] else .error (find_cycle_node edges remaining)
termination_by remaining.length
decreasing_by
  have hv : v ∈ remaining := List.mem_of_find?_eq_some h
  rw [List.length_erase_of_mem hv]
  exact Nat.sub_lt (List.length_pos.mpr (List.ne_nil_of_mem hv)) Nat.one_pos

/-- The linearization of a graph: the topological order of its node indices,
or a node index participating in a cycle. -/
def linearize (g : Graph) : Except Nat (List Nat) :=
  toposort_aux g.edges (List.range g.nodes.length)

/-- The emission order computed inside `PgxSql::to_sql` (rendering the
entities at those indices is outside this core). -/
def PgxSql.to_sql_order (s : PgxSql) : Except Nat (List Nat) :=
  linearize s.graph

/-- The edge relation of an edge list, forgetting the relationship kind. -/
def edge_rel (edges : List Edge) (a b : Nat) : Prop :=
  ∃ r, (a, b, r) ∈ edges

/-- `v` participates in a cycle: a nonempty edge path from `v` to itself. -/
def in_cycle (edges : List Edge) (v : Nat) : Prop :=
  Relation.TransGen (edge_rel edges) v v

/-- Some node participates in a cycle. -/
def has_cycle (edges : List Edge) : Prop :=
  ∃ v, in_cycle edges v

end PgxSqlModel

namespace PgxSqlModel

theorem has_incoming_iff {edges : List Edge} {remaining : List Nat} {v : Nat} :
    has_incoming edges remaining v = true ↔
      ∃ e ∈ edges, e.2.1 = v ∧ e.1 ∈ remaining := by
  simp [has_incoming, List.any_eq_true]

theorem pick_ready_none {edges : List Edge} {remaining : List Nat}
    (h : pick_ready edges remaining = none) :
    ∀ v ∈ remaining, has_incoming edges remaining v = true := by
  intro v hv
  have hn := List.find?_eq_none.mp h v hv
  simpa using hn

theorem pred_in_mem_and_rel (edges : List Edge) (remaining : List Nat)
    (hall : ∀ v ∈ remaining, has_incoming edges remaining v = true) :
    ∀ v ∈ remaining, pred_in edges remaining v ∈ remaining ∧
      edge_rel edges (pred_in edges remaining v) v := by
  intro v hv
  obtain ⟨e, he, hev, hemem⟩ := has_incoming_iff.mp (hall v hv)
  cases hfind : edges.find? (fun e => e.2.1 == v && remaining.contains e.1) with
  | none =>
    exfalso
    have := List.find?_eq_none.mp hfind e he
    simp [hev, hemem] at this
  | some e' =>
    obtain ⟨a, b, r⟩ := e'
    have hp := List.find?_some hfind
    have hm := List.mem_of_find?_eq_some hfind
    simp only [Bool.and_eq_true, beq_iff_eq, List.elem_iff] at hp
    have hpred : pred_in edges remaining v = a := by
      unfold pred_in
      rw [hfind]
    rw [hpred]
    refine ⟨hp.2, r, ?_⟩
    simpa [hp.1] using hm

theorem pred_in_iterate_mem (edges : List Edge) (remaining : List Nat)
    (hall : ∀ v ∈ remaining, has_incoming edges remaining v = true)
    (r : Nat) (hr : r ∈ remaining) :
    ∀ k, (pred_in edges remaining)^[k] r ∈ remaining := by
  intro k
  induction k with
  | zero => simpa using hr
  | succ k ih =>
    rw [Function.iterate_succ_apply']
    exact (pred_in_mem_and_rel edges remaining hall _ ih).1

theorem pred_in_iterate_transGen (edges : List Edge) (remaining : List Nat)
    (hall : ∀ v ∈ remaining, has_incoming edges remaining v = true) :
    ∀ k, ∀ v ∈ remaining,
      Relation.TransGen (edge_rel edges) ((pred_in edges remaining)^[k + 1] v) v := by
  intro k
  induction k with
  | zero =>
    intro v hv
    rw [Function.iterate_one]
    exact Relation.TransGen.single (pred_in_mem_and_rel edges remaining hall v hv).2
  | succ k ih =>
    intro v hv
    have hfv := pred_in_mem_and_rel edges remaining hall v hv
    have h1 : (pred_in edges remaining)^[k + 1 + 1] v
        = (pred_in edges remaining)^[k + 1] (pred_in edges remaining v) :=
      Function.iterate_succ_apply _ _ _
    rw [h1]
    exact (ih _ hfv.1).tail hfv.2

theorem find_cycle_node_in_cycle (edges : List Edge) (remaining : List Nat)
    (hne : remaining ≠ [])
    (hall : ∀ v ∈ remaining, has_incoming edges remaining v = true) :
    in_cycle edges (find_cycle_node edges remaining) := by
  obtain ⟨r, tail, rfl⟩ : ∃ r tail, remaining = r :: tail := by
    cases remaining with
    | nil => simp at hne
    | cons a b => exact ⟨a, b, rfl⟩
  have hrmem : r ∈ r :: tail := List.mem_cons_self r tail
  have hiter := pred_in_iterate_mem edges (r :: tail) hall r hrmem
  set f := pred_in edges (r :: tail) with hf
  set N := (r :: tail).length with hN
  have hcard : (r :: tail).toFinset.card < (Finset.range (N + 1)).card := by
    rw [Finset.card_range]
    exact Nat.lt_succ_of_le (r :: tail).toFinset_card_le
  have hmaps : ∀ i ∈ Finset.range (N + 1), f^[i] r ∈ (r :: tail).toFinset := by
    intro i _
    exact List.mem_toFinset.mpr (hiter i)
  obtain ⟨i, hi, j, hj, hij, heq⟩ :=
    Finset.exists_ne_map_eq_of_card_lt_of_maps_to hcard hmaps
  rw [Finset.mem_range] at hi hj
  -- normalize to i < j with f^[i] r = f^[j] r
  obtain ⟨i, j, hlt, hjN, heq⟩ :
      ∃ i j, i < j ∧ j ≤ N ∧ f^[i] r = f^[j] r := by
    rcases Nat.lt_or_ge i j with h | h
    · exact ⟨i, j, h, Nat.lt_succ_iff.mp hj, heq⟩
    · rcases Nat.lt_or_ge j i with h' | h'
      · exact ⟨j, i, h', Nat.lt_succ_iff.mp hi, heq.symm⟩
      · omega
  have hperiod : ∀ d, f^[i + d + (j - i)] r = f^[i + d] r := by
    intro d
    induction d with
    | zero =>
      have : i + 0 + (j - i) = j := by omega
      rw [this, Nat.add_zero]
      exact heq.symm
    | succ d ih =>
      have h1 : i + (d + 1) + (j - i) = (i + d + (j - i)) + 1 := by omega
      have h2 : i + (d + 1) = (i + d) + 1 := by omega
      rw [h1, h2, Function.iterate_succ_apply', Function.iterate_succ_apply', ih]
  have hNi : i + (N - i) = N := by omega
  have hstable : f^[N + (j - i)] r = f^[N] r := by
    have := hperiod (N - i)
    rwa [hNi] at this
  set x := f^[N] r with hx
  have hp : 0 < j - i := by omega
  have hfix : f^[j - i] x = x := by
    rw [hx, ← Function.iterate_add_apply, Nat.add_comm (j - i) N]
    exact hstable
  have hxmem : x ∈ r :: tail := hiter N
  have htg := pred_in_iterate_transGen edges (r :: tail) hall (j - i - 1) x hxmem
  have hsub : j - i - 1 + 1 = j - i := by omega
  rw [hsub, hfix] at htg
  show in_cycle edges (find_cycle_node edges (r :: tail))
  have hfc : find_cycle_node edges (r :: tail) = x := by
    simp only [find_cycle_node, hx, hf, hN]
  rw [hfc]
  exact htg

end PgxSqlModel

namespace PgxSqlModel

theorem pick_ready_spec {edges : List Edge} {remaining : List Nat} {v : Nat}
    (h : pick_ready edges remaining = some v) :
    v ∈ remaining ∧ ∀ e ∈ edges, e.2.1 = v → e.1 ∉ remaining := by
  refine ⟨List.mem_of_find?_eq_some h, ?_⟩
  have hp := List.find?_some h
  simp only [Bool.not_eq_true'] at hp
  intro e he hev hemem
  have : has_incoming edges remaining v = true :=
    has_incoming_iff.mpr ⟨e, he, hev, hemem⟩
  rw [this] at hp
  simp at hp

theorem toposort_aux_ok (edges : List Edge) :
    ∀ n, ∀ remaining : List Nat, remaining.length ≤ n → ∀ order,
      toposort_aux edges remaining = .ok order →
      order.Perm remaining ∧
      ∀ a b r, (a, b, r) ∈ edges → a ∈ remaining → b ∈ remaining →
        order.indexOf a < order.indexOf b := by
  intro n
  induction n with
  | zero =>
    intro remaining hlen order hok
    have hnil : remaining = [] := List.length_eq_zero.mp (Nat.le_zero.mp hlen)
    subst hnil
    rw [toposort_aux] at hok
    simp only [pick_ready, List.find?_nil, List.isEmpty_nil, if_true] at hok
    cases hok
    exact ⟨List.Perm.refl _, by intro a b r _ ha _; simp at ha⟩
  | succ n ih =>
    intro remaining hlen order hok
    rw [toposort_aux] at hok
    split at hok
    case h_1 v hpick =>
      split at hok
      case h_1 rest hrec =>
        cases hok
        obtain ⟨hv, hnoin⟩ := pick_ready_spec hpick
        have hlen' : (remaining.erase v).length ≤ n := by
          rw [List.length_erase_of_mem hv]
          omega
        obtain ⟨hperm, hord⟩ := ih (remaining.erase v) hlen' rest hrec
        constructor
        · exact ((hperm.cons v).trans (List.perm_cons_erase hv).symm)
        · intro a b r he ha hb
          by_cases hbv : b = v
          · exact absurd ha (hnoin (a, b, r) he hbv)
          · have hb' : b ∈ remaining.erase v := List.mem_erase_of_ne hbv |>.mpr hb
            by_cases hav : a = v
            · subst hav
              rw [List.indexOf_cons_self]
              rw [List.indexOf_cons_ne _ (by simpa using Ne.symm hbv)]
              exact Nat.succ_pos _
            · have ha' : a ∈ remaining.erase v := List.mem_erase_of_ne hav |>.mpr ha
              rw [List.indexOf_cons_ne _ (by simpa using Ne.symm hav),
                List.indexOf_cons_ne _ (by simpa using Ne.symm hbv)]
              exact Nat.succ_lt_succ (hord a b r he ha' hb')
      case h_2 e hrec =>
        cases hok
    case h_2 hpick =>
      split at hok
      case isTrue hemp =>
        cases hok
        have : remaining = [] := List.isEmpty_iff.mp hemp
        subst this
        exact ⟨List.Perm.refl _, by intro a b r _ ha _; simp at ha⟩
      case isFalse hemp =>
        cases hok

theorem toposort_aux_error (edges : List Edge) :
    ∀ n, ∀ remaining : List Nat, remaining.length ≤ n → ∀ x,
      toposort_aux edges remaining = .error x → in_cycle edges x := by
  intro n
  induction n with
  | zero =>
    intro remaining hlen x hok
    have hnil : remaining = [] := List.length_eq_zero.mp (Nat.le_zero.mp hlen)
    subst hnil
    rw [toposort_aux] at hok
    simp only [pick_ready, List.find?_nil, List.isEmpty_nil, if_true] at hok
    cases hok
  | succ n ih =>
    intro remaining hlen x hok
    rw [toposort_aux] at hok
    split at hok
    case h_1 v hpick =>
      split at hok
      case h_1 rest hrec => cases hok
      case h_2 e hrec =>
        cases hok
        have hv : v ∈ remaining := (pick_ready_spec hpick).1
        have hlen' : (remaining.erase v).length ≤ n := by
          rw [List.length_erase_of_mem hv]
          omega
        exact ih (remaining.erase v) hlen' x hrec
    case h_2 hpick =>
      split at hok
      case isTrue hemp => cases hok
      case isFalse hemp =>
        cases hok
        exact find_cycle_node_in_cycle edges remaining
          (fun h => hemp (by simp [h])) (pick_ready_none hpick)

end PgxSqlModel

namespace PgxSqlModel

theorem transGen_indexOf_lt {edges : List Edge} {order : List Nat}
    (h : ∀ a b r, (a, b, r) ∈ edges → order.indexOf a < order.indexOf b) :
    ∀ a b, Relation.TransGen (edge_rel edges) a b →
      order.indexOf a < order.indexOf b := by
  intro a b htg
  induction htg with
  | single hrel =>
    obtain ⟨r, hr⟩ := hrel
    exact h _ _ r hr
  | tail _ hrel ih =>
    obtain ⟨r, hr⟩ := hrel
    exact lt_trans ih (h _ _ r hr)

/-- C1: for every fully wired graph (all edge endpoints are nodes) whose edges
contain no cycle, linearization succeeds and the order visits every node
exactly once (it is a permutation of the node indices) with every edge's
source strictly before its target; for every graph containing a cycle,
linearization fails naming a node that participates in a cycle. -/
theorem claim_c1_linearize_correct (g : Graph)
    (hwf : ∀ e ∈ g.edges, e.1 < g.nodes.length ∧ e.2.1 < g.nodes.length) :
    (¬ has_cycle g.edges →
      ∃ order, linearize g = .ok order ∧
        order.Perm (List.range g.nodes.length) ∧
        ∀ e ∈ g.edges, order.indexOf e.1 < order.indexOf e.2.1) ∧
    (has_cycle g.edges →
      ∃ v, linearize g = .error v ∧ in_cycle g.edges v) := by
  constructor
  · intro hacyc
    cases hres : linearize g with
    | error x =>
      exact absurd ⟨x, toposort_aux_error g.edges _ _ le_rfl x hres⟩ hacyc
    | ok order =>
      obtain ⟨hperm, hord⟩ := toposort_aux_ok g.edges _ _ le_rfl order hres
      refine ⟨order, rfl, hperm, ?_⟩
      intro e he
      obtain ⟨a, b, r⟩ := e
      have hw := hwf (a, b, r) he
      exact hord a b r he (List.mem_range.mpr hw.1) (List.mem_range.mpr hw.2)
  · intro hcyc
    cases hres : linearize g with
    | error x => exact ⟨x, rfl, toposort_aux_error g.edges _ _ le_rfl x hres⟩
    | ok order =>
      exfalso
      obtain ⟨hperm, hord⟩ := toposort_aux_ok g.edges _ _ le_rfl order hres
      have hord' : ∀ a b r, (a, b, r) ∈ g.edges →
          order.indexOf a < order.indexOf b := by
        intro a b r hr
        have hw := hwf (a, b, r) hr
        exact hord a b r hr (List.mem_range.mpr hw.1) (List.mem_range.mpr hw.2)
      obtain ⟨v, hv⟩ := hcyc
      exact lt_irrefl _ (transGen_indexOf_lt hord' v v hv)

/-- A two-node wired graph used to instantiate C1. -/
def c1_example_graph : Graph :=
  { nodes := [.builtinType "a", .builtinType "b"],
    edges := [(0, 1, .requiredBy)] }

theorem claim_c1_witness :
    (∀ e ∈ c1_example_graph.edges,
      e.1 < c1_example_graph.nodes.length ∧ e.2.1 < c1_example_graph.nodes.length) ∧
    ((¬ has_cycle c1_example_graph.edges →
      ∃ order, linearize c1_example_graph = .ok order ∧
        order.Perm (List.range c1_example_graph.nodes.length) ∧
        ∀ e ∈ c1_example_graph.edges, order.indexOf e.1 < order.indexOf e.2.1) ∧
    (has_cycle c1_example_graph.edges →
      ∃ v, linearize c1_example_graph = .error v ∧ in_cycle c1_example_graph.edges v)) :=
  ⟨by decide, claim_c1_linearize_correct c1_example_graph (by decide)⟩

end PgxSqlModel

namespace PgxSqlModel

/-- `g'` extends `g`: both node and edge lists grew by appending. Every phase
of the builder only appends. -/
def Graph.Extends (g' g : Graph) : Prop :=
  (∃ ns, g'.nodes = g.nodes ++ ns) ∧ ∃ es, g'.edges = g.edges ++ es

/-- `g'` extends `g` without adding nodes (the connector passes). -/
def Graph.EdgeExtends (g' g : Graph) : Prop :=
  g'.nodes = g.nodes ∧ ∃ es, g'.edges = g.edges ++ es

theorem Graph.EdgeExtends.toExtends {g' g : Graph} (h : g'.EdgeExtends g) :
    g'.Extends g :=
  ⟨⟨[], by simp [h.1]⟩, h.2⟩

theorem Graph.Extends.refl_ext (g : Graph) : g.Extends g :=
  ⟨⟨[], by simp⟩, ⟨[], by simp⟩⟩

theorem Graph.EdgeExtends.refl_ee (g : Graph) : g.EdgeExtends g :=
  ⟨rfl, ⟨[], by simp⟩⟩

theorem Graph.Extends.trans_ext {g3 g2 g1 : Graph} (h2 : g3.Extends g2)
    (h1 : g2.Extends g1) : g3.Extends g1 := by
  obtain ⟨⟨ns2, hn2⟩, ⟨es2, he2⟩⟩ := h2
  obtain ⟨⟨ns1, hn1⟩, ⟨es1, he1⟩⟩ := h1
  exact ⟨⟨ns1 ++ ns2, by simp [hn2, hn1]⟩, ⟨es1 ++ es2, by simp [he2, he1]⟩⟩

theorem Graph.EdgeExtends.trans_ee {g3 g2 g1 : Graph} (h2 : g3.EdgeExtends g2)
    (h1 : g2.EdgeExtends g1) : g3.EdgeExtends g1 := by
  obtain ⟨hn2, ⟨es2, he2⟩⟩ := h2
  obtain ⟨hn1, ⟨es1, he1⟩⟩ := h1
  exact ⟨by simp [hn2, hn1], ⟨es1 ++ es2, by simp [he2, he1]⟩⟩

theorem Graph.add_edge_edgeExtends (g : Graph) (a b : NodeIndex)
    (r : SqlGraphRelationship) : (g.add_edge a b r).EdgeExtends g :=
  ⟨rfl, ⟨[(a, b, r)], rfl⟩⟩

theorem Graph.add_node_extends (g : Graph) (e : SqlGraphEntity) :
    (g.add_node e).1.Extends g :=
  ⟨⟨[e], rfl⟩, ⟨[], by simp [Graph.add_node]⟩⟩

/-- Node lookups are stable under extension. -/
theorem Graph.Extends.get?_stable {g' g : Graph} (h : g'.Extends g) {i : Nat}
    {x : SqlGraphEntity} (hx : g.nodes.get? i = some x) :
    g'.nodes.get? i = some x := by
  obtain ⟨⟨ns, hn⟩, -⟩ := h
  rw [hn]
  have hi : i < g.nodes.length := by
    by_contra hlt
    rw [List.get?_eq_none.mpr (Nat.le_of_not_lt hlt)] at hx
    cases hx
  rw [List.get?_append hi]
  exact hx

/-- Edge membership is stable under extension. -/
theorem Graph.Extends.edge_stable {g' g : Graph} (h : g'.Extends g) {e : Edge}
    (he : e ∈ g.edges) : e ∈ g'.edges := by
  obtain ⟨-, ⟨es, hes⟩⟩ := h
  rw [hes]
  exact List.mem_append_left _ he

/-- New edges under an edge extension: either old or among the appended ones. -/
theorem Graph.EdgeExtends.edge_cases {g' g : Graph} (h : g'.EdgeExtends g) {e : Edge}
    (he : e ∈ g'.edges) : e ∈ g.edges ∨ e ∈ g'.edges.drop g.edges.length := by
  obtain ⟨-, ⟨es, hes⟩⟩ := h
  rw [hes] at he ⊢
  rcases List.mem_append.mp he with h' | h'
  · exact Or.inl h'
  · right
    simpa using h'

theorem build_base_edges_edgeExtends (g : Graph) (index root : NodeIndex)
    (bootstrap finalize : Option NodeIndex) :
    (build_base_edges g index root bootstrap finalize).EdgeExtends g := by
  unfold build_base_edges
  cases bootstrap <;> cases finalize <;>
    simp only [] <;>
    first
      | exact (Graph.add_edge_edgeExtends _ _ _ _)
      | exact ((Graph.add_edge_edgeExtends _ _ _ _).trans_ee
          (Graph.add_edge_edgeExtends _ _ _ _))
      | exact (((Graph.add_edge_edgeExtends _ _ _ _).trans_ee
          (Graph.add_edge_edgeExtends _ _ _ _)).trans_ee
          (Graph.add_edge_edgeExtends _ _ _ _))

end PgxSqlModel

namespace PgxSqlModel

theorem opt_bootstrap_edge_edgeExtends (g : Graph) (o : Option NodeIndex)
    (index : NodeIndex) :
    (match o with
      | some b => g.add_edge b index .requiredBy
      | none => g).EdgeExtends g := by
  cases o
  · exact Graph.EdgeExtends.refl_ee g
  · exact Graph.add_edge_edgeExtends _ _ _ _

theorem opt_finalize_edge_edgeExtends (g : Graph) (o : Option NodeIndex)
    (index : NodeIndex) :
    (match o with
      | some f => g.add_edge index f .requiredBy
      | none => g).EdgeExtends g := by
  cases o
  · exact Graph.EdgeExtends.refl_ee g
  · exact Graph.add_edge_edgeExtends _ _ _ _

theorem Graph.EdgeExtends.add_edge_post {g' g : Graph} (h : g'.EdgeExtends g)
    (a b : NodeIndex) (r : SqlGraphRelationship) : (g'.add_edge a b r).EdgeExtends g :=
  (Graph.add_edge_edgeExtends g' a b r).trans_ee h

theorem Graph.EdgeExtends.opt_b_post {g' g : Graph} (h : g'.EdgeExtends g)
    (o : Option NodeIndex) (index : NodeIndex) :
    (match o with
      | some b => g'.add_edge b index .requiredBy
      | none => g').EdgeExtends g :=
  (opt_bootstrap_edge_edgeExtends g' o index).trans_ee h

theorem Graph.EdgeExtends.opt_f_post {g' g : Graph} (h : g'.EdgeExtends g)
    (o : Option NodeIndex) (index : NodeIndex) :
    (match o with
      | some f => g'.add_edge index f .requiredBy
      | none => g').EdgeExtends g :=
  (opt_finalize_edge_edgeExtends g' o index).trans_ee h

theorem Graph.EdgeExtends.ite_post {g a b : Graph} (c : Bool)
    (ha : a.EdgeExtends g) (hb : b.EdgeExtends g) :
    (if c = true then a else b).EdgeExtends g := by
  cases c
  · simpa using hb
  · simpa using ha

theorem initialize_schemas_extends (bootstrap finalize : Option NodeIndex) :
    ∀ (l : List SchemaEntity) (g : Graph),
      (initialize_schemas g bootstrap finalize l).1.Extends g := by
  intro l
  induction l with
  | nil => intro g; exact Graph.Extends.refl_ext g
  | cons item rest ih =>
    intro g
    rw [initialize_schemas.eq_def]
    refine (ih _).trans_ext ?_
    refine ((opt_finalize_edge_edgeExtends _ finalize _).toExtends.trans_ext ?_)
    refine ((opt_bootstrap_edge_edgeExtends _ bootstrap _).toExtends.trans_ext ?_)
    exact Graph.add_node_extends g _

end PgxSqlModel

namespace PgxSqlModel

theorem initialize_extension_sqls_nodes_extends :
    ∀ (l : List ExtensionSqlEntity) (g : Graph) (bootstrap finalize : Option NodeIndex)
      (mapped : List (ExtensionSqlEntity × NodeIndex)) q,
      initialize_extension_sqls_nodes g bootstrap finalize mapped l = .ok q →
      q.1.Extends g := by
  intro l
  induction l with
  | nil =>
    intro g bootstrap finalize mapped q h
    cases h
    exact Graph.Extends.refl_ext g
  | cons item rest ih =>
    intro g bootstrap finalize mapped q h
    rw [initialize_extension_sqls_nodes.eq_def] at h
    simp only [] at h
    split at h
    · cases h
    · split at h
      · cases h
      · exact (ih _ _ _ _ _ h).trans_ext (Graph.add_node_extends g _)

theorem extension_sql_base_edges_edgeExtends (root : NodeIndex)
    (bootstrap finalize : Option NodeIndex) :
    ∀ (l : List (ExtensionSqlEntity × NodeIndex)) (g : Graph),
      (extension_sql_base_edges root bootstrap finalize g l).EdgeExtends g := by
  intro l
  induction l with
  | nil => intro g; exact Graph.EdgeExtends.refl_ee g
  | cons p rest ih =>
    intro g
    obtain ⟨item, index⟩ := p
    simp only [extension_sql_base_edges]
    refine (ih _).trans_ee ?_
    repeat'
      first
        | apply Graph.EdgeExtends.ite_post
        | apply Graph.EdgeExtends.opt_b_post
        | apply Graph.EdgeExtends.opt_f_post
        | apply Graph.EdgeExtends.add_edge_post
        | exact Graph.EdgeExtends.refl_ee _

theorem initialize_extension_sqls_extends (g : Graph) (root : NodeIndex)
    (l : List ExtensionSqlEntity) (q) :
    initialize_extension_sqls g root l = .ok q → q.1.Extends g := by
  intro h
  rw [initialize_extension_sqls.eq_def] at h
  split at h
  · cases h
  case h_2 g' bootstrap finalize mapped heq =>
    cases h
    exact (extension_sql_base_edges_edgeExtends root _ _ _ _).toExtends.trans_ext
      (initialize_extension_sqls_nodes_extends l g none none [] _ heq)

theorem initialize_enums_extends (root : NodeIndex) (bootstrap finalize : Option NodeIndex) :
    ∀ (l : List PostgresEnumEntity) (g : Graph),
      (initialize_enums g root bootstrap finalize l).1.Extends g := by
  intro l
  induction l with
  | nil => intro g; exact Graph.Extends.refl_ext g
  | cons item rest ih =>
    intro g
    rw [initialize_enums.eq_def]
    exact (ih _).trans_ext ((build_base_edges_edgeExtends _ _ _ _ _).toExtends.trans_ext
      (Graph.add_node_extends g _))

theorem initialize_types_extends (root : NodeIndex) (bootstrap finalize : Option NodeIndex) :
    ∀ (l : List PostgresTypeEntity) (g : Graph),
      (initialize_types g root bootstrap finalize l).1.Extends g := by
  intro l
  induction l with
  | nil => intro g; exact Graph.Extends.refl_ext g
  | cons item rest ih =>
    intro g
    rw [initialize_types.eq_def]
    exact (ih _).trans_ext ((build_base_edges_edgeExtends _ _ _ _ _).toExtends.trans_ext
      (Graph.add_node_extends g _))

theorem initialize_ords_extends (root : NodeIndex) (bootstrap finalize : Option NodeIndex) :
    ∀ (l : List PostgresOrdEntity) (g : Graph),
      (initialize_ords g root bootstrap finalize l).1.Extends g := by
  intro l
  induction l with
  | nil => intro g; exact Graph.Extends.refl_ext g
  | cons item rest ih =>
    intro g
    rw [initialize_ords.eq_def]
    exact (ih _).trans_ext ((build_base_edges_edgeExtends _ _ _ _ _).toExtends.trans_ext
      (Graph.add_node_extends g _))

theorem initialize_hashes_extends (root : NodeIndex) (bootstrap finalize : Option NodeIndex) :
    ∀ (l : List PostgresHashEntity) (g : Graph),
      (initialize_hashes g root bootstrap finalize l).1.Extends g := by
  intro l
  induction l with
  | nil => intro g; exact Graph.Extends.refl_ext g
  | cons item rest ih =>
    intro g
    rw [initialize_hashes.eq_def]
    exact (ih _).trans_ext ((build_base_edges_edgeExtends _ _ _ _ _).toExtends.trans_ext
      (Graph.add_node_extends g _))

theorem initialize_triggers_extends (root : NodeIndex) (bootstrap finalize : Option NodeIndex) :
    ∀ (l : List PgTriggerEntity) (g : Graph),
      (initialize_triggers g root bootstrap finalize l).1.Extends g := by
  intro l
  induction l with
  | nil => intro g; exact Graph.Extends.refl_ext g
  | cons item rest ih =>
    intro g
    rw [initialize_triggers.eq_def]
    exact (ih _).trans_ext ((build_base_edges_edgeExtends _ _ _ _ _).toExtends.trans_ext
      (Graph.add_node_extends g _))

theorem builtin_entry_extends (g : Graph) (m : List (String × NodeIndex)) (key : String) :
    (builtin_entry g m key).1.Extends g := by
  rw [builtin_entry.eq_def]
  split
  · exact Graph.Extends.refl_ext g
  · exact Graph.add_node_extends g _

theorem init_arg_builtins_extends
    (types : List (PostgresTypeEntity × NodeIndex))
    (enums : List (PostgresEnumEntity × NodeIndex)) :
    ∀ (l : List PgExternArgumentEntity) (g : Graph) (m : List (String × NodeIndex)),
      (init_arg_builtins types enums g m l).1.Extends g := by
  intro l
  induction l with
  | nil => intro g m; exact Graph.Extends.refl_ext g
  | cons arg rest ih =>
    intro g m
    simp only [init_arg_builtins]
    split
    · exact ih g m
    · exact (ih _ _).trans_ext (builtin_entry_extends g m _)

theorem init_iterated_builtins_extends
    (types : List (PostgresTypeEntity × NodeIndex))
    (enums : List (PostgresEnumEntity × NodeIndex)) :
    ∀ (l : List UsedTypeEntity) (g : Graph) (m : List (String × NodeIndex)),
      (init_iterated_builtins types enums g m l).1.Extends g := by
  intro l
  induction l with
  | nil => intro g m; exact Graph.Extends.refl_ext g
  | cons ty rest ih =>
    intro g m
    simp only [init_iterated_builtins]
    split
    · exact ih g m
    · exact (ih _ _).trans_ext (builtin_entry_extends g m _)

theorem init_return_builtins_extends
    (types : List (PostgresTypeEntity × NodeIndex))
    (enums : List (PostgresEnumEntity × NodeIndex))
    (g : Graph) (m : List (String × NodeIndex)) (ret : PgExternReturnEntity) :
    (init_return_builtins types enums g m ret).1.Extends g := by
  cases ret with
  | noneRet => exact Graph.Extends.refl_ext g
  | trigger => exact Graph.Extends.refl_ext g
  | type ty =>
    simp only [init_return_builtins]
    split
    · exact Graph.Extends.refl_ext g
    · exact builtin_entry_extends g m _
  | setOf ty =>
    simp only [init_return_builtins]
    split
    · exact Graph.Extends.refl_ext g
    · exact builtin_entry_extends g m _
  | iterated tys => exact init_iterated_builtins_extends types enums tys g m

theorem initialize_externs_aux_extends (root : NodeIndex)
    (bootstrap finalize : Option NodeIndex)
    (types : List (PostgresTypeEntity × NodeIndex))
    (enums : List (PostgresEnumEntity × NodeIndex)) :
    ∀ (l : List PgExternEntity) (g : Graph) (m : List (String × NodeIndex)),
      (initialize_externs_aux root bootstrap finalize types enums g m l).1.Extends g := by
  intro l
  induction l with
  | nil => intro g m; exact Graph.Extends.refl_ext g
  | cons item rest ih =>
    intro g m
    rw [initialize_externs_aux.eq_def]
    refine (ih _ _).trans_ext ?_
    refine (init_return_builtins_extends _ _ _ _ _).trans_ext ?_
    refine (init_arg_builtins_extends _ _ _ _ _).trans_ext ?_
    exact (build_base_edges_edgeExtends _ _ _ _ _).toExtends.trans_ext
      (Graph.add_node_extends g _)

theorem initialize_aggregates_aux_extends (root : NodeIndex)
    (bootstrap finalize : Option NodeIndex)
    (enums : List (PostgresEnumEntity × NodeIndex))
    (types : List (PostgresTypeEntity × NodeIndex)) :
    ∀ (l : List PgAggregateEntity) (g : Graph) (m : List (String × NodeIndex)),
      (initialize_aggregates_aux root bootstrap finalize enums types g m l).1.Extends g := by
  intro l
  induction l with
  | nil => intro g m; exact Graph.Extends.refl_ext g
  | cons item rest ih =>
    intro g m
    rw [initialize_aggregates_aux.eq_def]
    refine (ih _ _).trans_ext ?_
    refine (build_base_edges_edgeExtends _ _ _ _ _).toExtends.trans_ext ?_
    exact (init_arg_builtins_extends _ _ _ _ _).trans_ext (Graph.add_node_extends g _)

end PgxSqlModel

namespace PgxSqlModel

theorem make_schema_connection_edgeExtends (g : Graph) (index : NodeIndex)
    (module_path : String) (schemas : List (SchemaEntity × NodeIndex)) :
    (make_schema_connection g index module_path schemas).1.EdgeExtends g := by
  rw [make_schema_connection.eq_def]
  split
  · exact Graph.add_edge_edgeExtends _ _ _ _
  · exact Graph.EdgeExtends.refl_ee g

theorem make_extern_connection_edgeExtends (g : Graph) (index : NodeIndex)
    (full_path : String) (externs : List (PgExternEntity × NodeIndex)) (g' : Graph) :
    make_extern_connection g index full_path externs = .ok g' → g'.EdgeExtends g := by
  intro h
  rw [make_extern_connection.eq_def] at h
  split at h
  · cases h
    exact Graph.add_edge_edgeExtends _ _ _ _
  · cases h

theorem make_type_or_enum_connection_edgeExtends (g : Graph) (index : NodeIndex)
    (ty_id : Nat) (types : List (PostgresTypeEntity × NodeIndex))
    (enums : List (PostgresEnumEntity × NodeIndex)) :
    (make_type_or_enum_connection g index ty_id types enums).1.EdgeExtends g := by
  rw [make_type_or_enum_connection.eq_def]
  split
  · split
    · exact (Graph.add_edge_edgeExtends _ _ _ _).add_edge_post _ _ _
    · exact Graph.add_edge_edgeExtends _ _ _ _
  · split
    · exact Graph.add_edge_edgeExtends _ _ _ _
    · exact Graph.EdgeExtends.refl_ee g


theorem connect_requires_list_edgeExtends (ident : String) (index : NodeIndex)
    (types : List (PostgresTypeEntity × NodeIndex))
    (enums : List (PostgresEnumEntity × NodeIndex))
    (externs : List (PgExternEntity × NodeIndex))
    (schemas : List (SchemaEntity × NodeIndex))
    (extension_sqls : List (ExtensionSqlEntity × NodeIndex))
    (triggers : List (PgTriggerEntity × NodeIndex)) :
    ∀ (refs : List PositioningRef) (g g' : Graph),
      connect_requires_list ident index types enums externs schemas extension_sqls
        triggers g refs = .ok g' → g'.EdgeExtends g := by
  intro refs
  induction refs with
  | nil =>
    intro g g' h
    cases h
    exact Graph.EdgeExtends.refl_ee _
  | cons r rest ih =>
    intro g g' h
    simp only [connect_requires_list] at h
    split at h
    · exact (ih _ _ h).trans_ee (Graph.add_edge_edgeExtends _ _ _ _)
    · cases h

theorem connect_extension_sqls_aux_edgeExtends
    (schemas : List (SchemaEntity × NodeIndex))
    (types : List (PostgresTypeEntity × NodeIndex))
    (enums : List (PostgresEnumEntity × NodeIndex))
    (externs : List (PgExternEntity × NodeIndex))
    (triggers : List (PgTriggerEntity × NodeIndex))
    (all_extension_sqls : List (ExtensionSqlEntity × NodeIndex)) :
    ∀ (l : List (ExtensionSqlEntity × NodeIndex)) (g g' : Graph),
      connect_extension_sqls_aux schemas types enums externs triggers all_extension_sqls
        g l = .ok g' → g'.EdgeExtends g := by
  intro l
  induction l with
  | nil =>
    intro g g' h
    cases h
    exact Graph.EdgeExtends.refl_ee _
  | cons p rest ih =>
    intro g g' h
    obtain ⟨item, index⟩ := p
    simp only [connect_extension_sqls_aux] at h
    split at h
    case h_1 e heq => cases h
    case h_2 g2 heq =>
      exact ((ih _ _ h).trans_ee
        (connect_requires_list_edgeExtends _ _ _ _ _ _ _ _ _ _ _ heq)).trans_ee
        (make_schema_connection_edgeExtends g index item.module_path schemas)

theorem add_schema_name_edges_edgeExtends (index : NodeIndex) (declared : String) :
    ∀ (l : List (SchemaEntity × NodeIndex)) (g : Graph),
      (add_schema_name_edges index declared g l).EdgeExtends g := by
  intro l
  induction l with
  | nil => intro g; exact Graph.EdgeExtends.refl_ee g
  | cons s rest ih =>
    intro g
    simp only [add_schema_name_edges]
    refine (ih _).trans_ee ?_
    split
    · exact Graph.add_edge_edgeExtends _ _ _ _
    · exact Graph.EdgeExtends.refl_ee g

theorem connect_externs_attrs_edgeExtends (ident : String) (index : NodeIndex)
    (types : List (PostgresTypeEntity × NodeIndex))
    (enums : List (PostgresEnumEntity × NodeIndex))
    (externs : List (PgExternEntity × NodeIndex))
    (schemas : List (SchemaEntity × NodeIndex))
    (extension_sqls : List (ExtensionSqlEntity × NodeIndex))
    (triggers : List (PgTriggerEntity × NodeIndex)) :
    ∀ (attrs : List ExternArgs) (g : Graph) (found : Bool) (q : Graph × Bool),
      connect_externs_attrs ident index types enums externs schemas extension_sqls
        triggers g found attrs = .ok q → q.1.EdgeExtends g := by
  intro attrs
  induction attrs with
  | nil =>
    intro g found q h
    cases h
    exact Graph.EdgeExtends.refl_ee _
  | cons attr rest ih =>
    intro g found q h
    cases attr with
    | requiresRefs refs =>
      simp only [connect_externs_attrs] at h
      split at h
      case h_1 e heq => cases h
      case h_2 g2 heq =>
        exact (ih _ _ _ h).trans_ee
          (connect_requires_list_edgeExtends _ _ _ _ _ _ _ _ _ _ _ heq)
    | schema declared =>
      simp only [connect_externs_attrs] at h
      split at h
      · cases h
      · exact (ih _ _ _ h).trans_ee (add_schema_name_edges_edgeExtends index declared schemas g)
    | other =>
      simp only [connect_externs_attrs] at h
      exact ih _ _ _ h

theorem connect_externs_hashes_edgeExtends (item : PgExternEntity) (index : NodeIndex) :
    ∀ (l : List (PostgresHashEntity × NodeIndex)) (g : Graph),
      (connect_externs_hashes item index g l).EdgeExtends g := by
  intro l
  induction l with
  | nil => intro g; exact Graph.EdgeExtends.refl_ee g
  | cons p rest ih =>
    intro g
    obtain ⟨hash_item, hash_index⟩ := p
    simp only [connect_externs_hashes]
    refine (ih _).trans_ee ?_
    split
    · exact Graph.add_edge_edgeExtends _ _ _ _
    · exact Graph.EdgeExtends.refl_ee g

theorem add_declared_type_edges_edgeExtends (index : NodeIndex) (path : String) :
    ∀ (l : List (ExtensionSqlEntity × NodeIndex)) (g : Graph),
      (add_declared_type_edges index path g l).EdgeExtends g := by
  intro l
  induction l with
  | nil => intro g; exact Graph.EdgeExtends.refl_ee g
  | cons p rest ih =>
    intro g
    obtain ⟨ext_item, ext_index⟩ := p
    simp only [add_declared_type_edges]
    refine (ih _).trans_ee ?_
    split
    · exact Graph.add_edge_edgeExtends _ _ _ _
    · split
      · exact Graph.add_edge_edgeExtends _ _ _ _
      · exact Graph.EdgeExtends.refl_ee g

theorem connect_extern_used_ty_edgeExtends (index : NodeIndex) (ty_id : Nat)
    (key : String) (rel : SqlGraphRelationship)
    (types : List (PostgresTypeEntity × NodeIndex))
    (enums : List (PostgresEnumEntity × NodeIndex))
    (builtin_types : List (String × NodeIndex))
    (extension_sqls : List (ExtensionSqlEntity × NodeIndex))
    (g g' : Graph) :
    connect_extern_used_ty index ty_id key rel types enums builtin_types extension_sqls
      g = .ok g' → g'.EdgeExtends g := by
  intro h
  simp only [connect_extern_used_ty] at h
  split at h
  · cases h
    exact Graph.add_edge_edgeExtends _ _ _ _
  · split at h
    · cases h
      exact Graph.add_edge_edgeExtends _ _ _ _
    · split at h
      · cases h
      · cases h
        exact (add_declared_type_edges_edgeExtends _ _ _ _).trans_ee
          (Graph.add_edge_edgeExtends _ _ _ _)

theorem connect_extern_args_edgeExtends (index : NodeIndex)
    (types : List (PostgresTypeEntity × NodeIndex))
    (enums : List (PostgresEnumEntity × NodeIndex))
    (builtin_types : List (String × NodeIndex))
    (extension_sqls : List (ExtensionSqlEntity × NodeIndex)) :
    ∀ (l : List PgExternArgumentEntity) (g g' : Graph),
      connect_extern_args index types enums builtin_types extension_sqls g l = .ok g' →
      g'.EdgeExtends g := by
  intro l
  induction l with
  | nil =>
    intro g g' h
    cases h
    exact Graph.EdgeExtends.refl_ee _
  | cons arg rest ih =>
    intro g g' h
    simp only [connect_extern_args] at h
    split at h
    case h_1 e heq => cases h
    case h_2 g2 heq =>
      exact (ih _ _ h).trans_ee
        (connect_extern_used_ty_edgeExtends _ _ _ _ _ _ _ _ _ _ heq)

theorem connect_extern_iterated_edgeExtends (index : NodeIndex)
    (types : List (PostgresTypeEntity × NodeIndex))
    (enums : List (PostgresEnumEntity × NodeIndex))
    (builtin_types : List (String × NodeIndex))
    (extension_sqls : List (ExtensionSqlEntity × NodeIndex)) :
    ∀ (l : List UsedTypeEntity) (g g' : Graph),
      connect_extern_iterated index types enums builtin_types extension_sqls g l = .ok g' →
      g'.EdgeExtends g := by
  intro l
  induction l with
  | nil =>
    intro g g' h
    cases h
    exact Graph.EdgeExtends.refl_ee _
  | cons ty rest ih =>
    intro g g' h
    simp only [connect_extern_iterated] at h
    split at h
    case h_1 e heq => cases h
    case h_2 g2 heq =>
      exact (ih _ _ h).trans_ee
        (connect_extern_used_ty_edgeExtends _ _ _ _ _ _ _ _ _ _ heq)

theorem connect_extern_return_edgeExtends (index : NodeIndex)
    (types : List (PostgresTypeEntity × NodeIndex))
    (enums : List (PostgresEnumEntity × NodeIndex))
    (builtin_types : List (String × NodeIndex))
    (extension_sqls : List (ExtensionSqlEntity × NodeIndex))
    (g : Graph) (ret : PgExternReturnEntity) (g' : Graph) :
    connect_extern_return index types enums builtin_types extension_sqls g ret = .ok g' →
    g'.EdgeExtends g := by
  intro h
  cases ret with
  | noneRet => cases h; exact Graph.EdgeExtends.refl_ee _
  | trigger => cases h; exact Graph.EdgeExtends.refl_ee _
  | type ty => exact connect_extern_used_ty_edgeExtends _ _ _ _ _ _ _ _ _ _ h
  | setOf ty => exact connect_extern_used_ty_edgeExtends _ _ _ _ _ _ _ _ _ _ h
  | iterated tys => exact connect_extern_iterated_edgeExtends _ _ _ _ _ _ _ _ h

theorem connect_extern_item_edgeExtends (g : Graph) (item : PgExternEntity)
    (index : NodeIndex)
    (hashes : List (PostgresHashEntity × NodeIndex))
    (schemas : List (SchemaEntity × NodeIndex))
    (types : List (PostgresTypeEntity × NodeIndex))
    (enums : List (PostgresEnumEntity × NodeIndex))
    (builtin_types : List (String × NodeIndex))
    (extension_sqls : List (ExtensionSqlEntity × NodeIndex))
    (triggers : List (PgTriggerEntity × NodeIndex))
    (externs : List (PgExternEntity × NodeIndex)) (g' : Graph) :
    connect_extern_item g item index hashes schemas types enums builtin_types
      extension_sqls triggers externs = .ok g' → g'.EdgeExtends g := by
  intro h
  simp only [connect_extern_item] at h
  cases hattrs : connect_externs_attrs item.name index types enums externs schemas
      extension_sqls triggers g false item.extern_attrs with
  | error e =>
    simp only [hattrs] at h
    cases h
  | ok q =>
    simp only [hattrs] at h
    obtain ⟨g1, found⟩ := q
    split at h
    case h_1 e heq => cases h
    case h_2 g2 heq =>
      refine ((connect_extern_return_edgeExtends _ _ _ _ _ _ _ _ h).trans_ee
        (connect_extern_args_edgeExtends _ _ _ _ _ _ _ _ heq)).trans_ee ?_
      refine (connect_externs_hashes_edgeExtends item index hashes _).trans_ee ?_
      refine Graph.EdgeExtends.trans_ee ?_
        (connect_externs_attrs_edgeExtends _ _ _ _ _ _ _ _ _ _ _ _ hattrs)
      split
      · exact make_schema_connection_edgeExtends _ _ _ _
      · exact Graph.EdgeExtends.refl_ee _

theorem connect_externs_aux_edgeExtends
    (hashes : List (PostgresHashEntity × NodeIndex))
    (schemas : List (SchemaEntity × NodeIndex))
    (types : List (PostgresTypeEntity × NodeIndex))
    (enums : List (PostgresEnumEntity × NodeIndex))
    (builtin_types : List (String × NodeIndex))
    (extension_sqls : List (ExtensionSqlEntity × NodeIndex))
    (triggers : List (PgTriggerEntity × NodeIndex))
    (externs : List (PgExternEntity × NodeIndex)) :
    ∀ (l : List (PgExternEntity × NodeIndex)) (g g' : Graph),
      connect_externs_aux hashes schemas types enums builtin_types extension_sqls
        triggers externs g l = .ok g' → g'.EdgeExtends g := by
  intro l
  induction l with
  | nil =>
    intro g g' h
    cases h
    exact Graph.EdgeExtends.refl_ee _
  | cons p rest ih =>
    intro g g' h
    obtain ⟨item, index⟩ := p
    simp only [connect_externs_aux] at h
    split at h
    case h_1 e heq => cases h
    case h_2 g2 heq =>
      exact (ih _ _ h).trans_ee
        (connect_extern_item_edgeExtends _ _ _ _ _ _ _ _ _ _ _ _ heq)

theorem connect_ord_externs_edgeExtends (item : PostgresOrdEntity) (index : NodeIndex) :
    ∀ (l : List (PgExternEntity × NodeIndex)) (g : Graph),
      (connect_ord_externs item index g l).EdgeExtends g := by
  intro l
  induction l with
  | nil => intro g; exact Graph.EdgeExtends.refl_ee g
  | cons p rest ih =>
    intro g
    obtain ⟨extern_item, extern_index⟩ := p
    simp only [connect_ord_externs]
    refine (ih _).trans_ee ?_
    split
    · exact Graph.add_edge_edgeExtends _ _ _ _
    · exact Graph.EdgeExtends.refl_ee g

theorem connect_ords_aux_edgeExtends
    (schemas : List (SchemaEntity × NodeIndex))
    (types : List (PostgresTypeEntity × NodeIndex))
    (enums : List (PostgresEnumEntity × NodeIndex))
    (externs : List (PgExternEntity × NodeIndex)) :
    ∀ (l : List (PostgresOrdEntity × NodeIndex)) (g : Graph),
      (connect_ords_aux schemas types enums externs g l).EdgeExtends g := by
  intro l
  induction l with
  | nil => intro g; exact Graph.EdgeExtends.refl_ee g
  | cons p rest ih =>
    intro g
    obtain ⟨item, index⟩ := p
    simp only [connect_ords_aux]
    refine (ih _).trans_ee ?_
    refine Graph.EdgeExtends.trans_ee ?_
      (make_schema_connection_edgeExtends g index item.module_path schemas)
    refine Graph.EdgeExtends.trans_ee ?_
      (make_type_or_enum_connection_edgeExtends
        (make_schema_connection g index item.module_path schemas).1 index item.id
        types enums)
    exact connect_ord_externs_edgeExtends item index externs _

theorem connect_hashes_aux_edgeExtends
    (schemas : List (SchemaEntity × NodeIndex))
    (types : List (PostgresTypeEntity × NodeIndex))
    (enums : List (PostgresEnumEntity × NodeIndex))
    (externs : List (PgExternEntity × NodeIndex)) :
    ∀ (l : List (PostgresHashEntity × NodeIndex)) (g : Graph),
      (connect_hashes_aux schemas types enums externs g l).EdgeExtends g := by
  intro l
  induction l with
  | nil => intro g; exact Graph.EdgeExtends.refl_ee g
  | cons p rest ih =>
    intro g
    obtain ⟨item, index⟩ := p
    simp only [connect_hashes_aux]
    refine (ih _).trans_ee ?_
    refine Graph.EdgeExtends.trans_ee ?_
      (make_schema_connection_edgeExtends g index item.module_path schemas)
    refine Graph.EdgeExtends.trans_ee ?_
      (make_type_or_enum_connection_edgeExtends
        (make_schema_connection g index item.module_path schemas).1 index item.id
        types enums)
    split
    · exact Graph.add_edge_edgeExtends _ _ _ _
    · exact Graph.EdgeExtends.refl_ee _

theorem connect_aggregate_used_ty_edgeExtends (index : NodeIndex) (ty_id : Nat)
    (key : String)
    (types : List (PostgresTypeEntity × NodeIndex))
    (enums : List (PostgresEnumEntity × NodeIndex))
    (builtin_types : List (String × NodeIndex))
    (g g' : Graph) :
    connect_aggregate_used_ty index ty_id key types enums builtin_types g = .ok g' →
    g'.EdgeExtends g := by
  intro h
  simp only [connect_aggregate_used_ty] at h
  split at h
  · cases h
    exact make_type_or_enum_connection_edgeExtends _ _ _ _ _
  · split at h
    · cases h
      exact (make_type_or_enum_connection_edgeExtends _ _ _ _ _).add_edge_post _ _ _
    · cases h

theorem connect_aggregate_args_edgeExtends (index : NodeIndex)
    (types : List (PostgresTypeEntity × NodeIndex))
    (enums : List (PostgresEnumEntity × NodeIndex))
    (builtin_types : List (String × NodeIndex)) :
    ∀ (l : List PgExternArgumentEntity) (g g' : Graph),
      connect_aggregate_args index types enums builtin_types g l = .ok g' →
      g'.EdgeExtends g := by
  intro l
  induction l with
  | nil =>
    intro g g' h
    cases h
    exact Graph.EdgeExtends.refl_ee _
  | cons arg rest ih =>
    intro g g' h
    simp only [connect_aggregate_args] at h
    split at h
    case h_1 e heq => cases h
    case h_2 g2 heq =>
      exact (ih _ _ h).trans_ee (connect_aggregate_used_ty_edgeExtends _ _ _ _ _ _ _ _ heq)

theorem connect_aggregate_opt_fns_edgeExtends (index : NodeIndex) (module_path : String)
    (externs : List (PgExternEntity × NodeIndex)) :
    ∀ (l : List (Option String)) (g g' : Graph),
      connect_aggregate_opt_fns index module_path externs g l = .ok g' →
      g'.EdgeExtends g := by
  intro l
  induction l with
  | nil =>
    intro g g' h
    cases h
    exact Graph.EdgeExtends.refl_ee _
  | cons o rest ih =>
    intro g g' h
    cases o with
    | none =>
      simp only [connect_aggregate_opt_fns] at h
      exact ih _ _ h
    | some value =>
      simp only [connect_aggregate_opt_fns] at h
      split at h
      case h_1 e heq => cases h
      case h_2 g2 heq =>
        exact (ih _ _ h).trans_ee (make_extern_connection_edgeExtends _ _ _ _ _ heq)

theorem connect_aggregate_edgeExtends (g : Graph) (item : PgAggregateEntity)
    (index : NodeIndex)
    (schemas : List (SchemaEntity × NodeIndex))
    (types : List (PostgresTypeEntity × NodeIndex))
    (enums : List (PostgresEnumEntity × NodeIndex))
    (builtin_types : List (String × NodeIndex))
    (externs : List (PgExternEntity × NodeIndex)) (g' : Graph) :
    connect_aggregate g item index schemas types enums builtin_types externs = .ok g' →
    g'.EdgeExtends g := by
  intro h
  simp only [connect_aggregate] at h
  have hbase : (make_type_or_enum_connection
      (make_schema_connection g index item.module_path schemas).1 index item.ty_id
      types enums).1.EdgeExtends g :=
    (make_type_or_enum_connection_edgeExtends _ _ _ _ _).trans_ee
      (make_schema_connection_edgeExtends _ _ _ _)
  split at h
  case h_1 e heq => cases h
  case h_2 g3 heq3 =>
    split at h
    case h_1 e heq => cases h
    case h_2 g4 heq4 =>
      split at h
      case h_1 e heq => cases h
      case h_2 g5 heq5 =>
        split at h
        case h_1 e heq => cases h
        case h_2 g6 heq6 =>
          have e5 : g5.EdgeExtends g4 := by
            cases hms : item.mstype with
            | none =>
              rw [hms] at heq5
              cases heq5
              exact Graph.EdgeExtends.refl_ee _
            | some arg =>
              rw [hms] at heq5
              exact connect_aggregate_used_ty_edgeExtends _ _ _ _ _ _ _ _ heq5
          exact ((((connect_aggregate_opt_fns_edgeExtends _ _ _ _ _ _ h).trans_ee
            (make_extern_connection_edgeExtends _ _ _ _ _ heq6)).trans_ee e5).trans_ee
            ((connect_aggregate_args_edgeExtends _ _ _ _ _ _ _ heq4).trans_ee
              (connect_aggregate_args_edgeExtends _ _ _ _ _ _ _ heq3))).trans_ee hbase

theorem connect_aggregates_aux_edgeExtends
    (schemas : List (SchemaEntity × NodeIndex))
    (types : List (PostgresTypeEntity × NodeIndex))
    (enums : List (PostgresEnumEntity × NodeIndex))
    (builtin_types : List (String × NodeIndex))
    (externs : List (PgExternEntity × NodeIndex)) :
    ∀ (l : List (PgAggregateEntity × NodeIndex)) (g g' : Graph),
      connect_aggregates_aux schemas types enums builtin_types externs g l = .ok g' →
      g'.EdgeExtends g := by
  intro l
  induction l with
  | nil =>
    intro g g' h
    cases h
    exact Graph.EdgeExtends.refl_ee _
  | cons p rest ih =>
    intro g g' h
    obtain ⟨item, index⟩ := p
    simp only [connect_aggregates_aux] at h
    split at h
    case h_1 e heq => cases h
    case h_2 g2 heq =>
      exact (ih _ _ h).trans_ee (connect_aggregate_edgeExtends _ _ _ _ _ _ _ _ _ heq)

theorem connect_schemas_edgeExtends :
    ∀ (l : List (SchemaEntity × NodeIndex)) (g : Graph) (root : NodeIndex),
      (connect_schemas g l root).EdgeExtends g := by
  intro l
  induction l with
  | nil => intro g root; exact Graph.EdgeExtends.refl_ee g
  | cons p rest ih =>
    intro g root
    obtain ⟨item, index⟩ := p
    simp only [connect_schemas]
    exact (ih _ _).trans_ee (Graph.add_edge_edgeExtends _ _ _ _)

theorem connect_enums_edgeExtends :
    ∀ (l : List (PostgresEnumEntity × NodeIndex)) (g : Graph)
      (schemas : List (SchemaEntity × NodeIndex)),
      (connect_enums g l schemas).EdgeExtends g := by
  intro l
  induction l with
  | nil => intro g schemas; exact Graph.EdgeExtends.refl_ee g
  | cons p rest ih =>
    intro g schemas
    obtain ⟨item, index⟩ := p
    simp only [connect_enums]
    exact (ih _ _).trans_ee (make_schema_connection_edgeExtends _ _ _ _)

theorem connect_types_edgeExtends :
    ∀ (l : List (PostgresTypeEntity × NodeIndex)) (g : Graph)
      (schemas : List (SchemaEntity × NodeIndex)),
      (connect_types g l schemas).EdgeExtends g := by
  intro l
  induction l with
  | nil => intro g schemas; exact Graph.EdgeExtends.refl_ee g
  | cons p rest ih =>
    intro g schemas
    obtain ⟨item, index⟩ := p
    simp only [connect_types]
    exact (ih _ _).trans_ee (make_schema_connection_edgeExtends _ _ _ _)

theorem connect_triggers_edgeExtends :
    ∀ (l : List (PgTriggerEntity × NodeIndex)) (g : Graph)
      (schemas : List (SchemaEntity × NodeIndex)),
      (connect_triggers g l schemas).EdgeExtends g := by
  intro l
  induction l with
  | nil => intro g schemas; exact Graph.EdgeExtends.refl_ee g
  | cons p rest ih =>
    intro g schemas
    obtain ⟨item, index⟩ := p
    simp only [connect_triggers]
    exact (ih _ _).trans_ee (make_schema_connection_edgeExtends _ _ _ _)

theorem connect_phase_edgeExtends (st : InitState) (g' : Graph) :
    connect_phase st = .ok g' → g'.EdgeExtends st.g := by
  intro h
  simp only [connect_phase, connect_extension_sqls, connect_externs, connect_ords,
    connect_hashes, connect_aggregates] at h
  split at h
  case h_1 e heq => cases h
  case h_2 g1 heq1 =>
    split at h
    case h_1 e heq => cases h
    case h_2 g2 heq2 =>
      split at h
      case h_1 e heq => cases h
      case h_2 g3 heq3 =>
        cases h
        refine (connect_triggers_edgeExtends _ _ _).trans_ee ?_
        refine (connect_aggregates_aux_edgeExtends _ _ _ _ _ _ _ _ heq3).trans_ee ?_
        refine ((connect_hashes_aux_edgeExtends _ _ _ _ _ _).trans_ee
          (connect_ords_aux_edgeExtends _ _ _ _ _ _)).trans_ee ?_
        refine (connect_externs_aux_edgeExtends _ _ _ _ _ _ _ _ _ _ _ heq2).trans_ee ?_
        refine ((connect_types_edgeExtends _ _ _).trans_ee
          (connect_enums_edgeExtends _ _ _)).trans_ee ?_
        refine (connect_extension_sqls_aux_edgeExtends _ _ _ _ _ _ _ _ _ heq1).trans_ee ?_
        exact connect_schemas_edgeExtends _ _ _

end PgxSqlModel

namespace PgxSqlModel

/-- The empty graph the builder starts from. -/
def empty_graph : Graph := { nodes := [], edges := [] }

theorem build_ok_inv {entities : List SqlGraphEntity} {s : PgxSql}
    (h : build entities = .ok s) :
    ∃ control st g,
      (classify entities).control = some control ∧
      init_phase control (classify entities) = .ok st ∧
      connect_phase st = .ok g ∧
      s = { control := control, graph := g, graph_root := st.root,
            graph_bootstrap := st.bootstrap, graph_finalize := st.finalize,
            schemas := st.schemas, extension_sqls := st.extension_sqls,
            externs := st.externs, types := st.types,
            builtin_types := st.builtin_types, enums := st.enums, ords := st.ords,
            hashes := st.hashes, aggregates := st.aggregates,
            triggers := st.triggers } := by
  simp only [build] at h
  split at h
  · cases h
  case h_2 control hc =>
    split at h
    case h_1 e heq => cases h
    case h_2 st hst =>
      split at h
      case h_1 e heq => cases h
      case h_2 g hg =>
        cases h
        exact ⟨control, st, g, hc, hst, hg, rfl⟩

theorem init_phase_ok_inv {control : ControlFile} {bs : Buckets} {st : InitState}
    (h : init_phase control bs = .ok st) :
    ∃ q, initialize_extension_sqls (empty_graph.add_node (.extensionRoot control)).1
        (empty_graph.add_node (.extensionRoot control)).2 bs.extension_sqls = .ok q ∧
      st =
        (let pr := empty_graph.add_node (.extensionRoot control)
         let bootstrap := q.2.2.1
         let finalize := q.2.2.2
         let ps := initialize_schemas q.1 bootstrap finalize bs.schemas
         let pe := initialize_enums ps.1 pr.2 bootstrap finalize bs.enums
         let pt := initialize_types pe.1 pr.2 bootstrap finalize bs.types
         let px := initialize_externs pt.1 pr.2 bootstrap finalize bs.externs pt.2 pe.2
         let po := initialize_ords px.1 pr.2 bootstrap finalize bs.ords
         let ph := initialize_hashes po.1 pr.2 bootstrap finalize bs.hashes
         let pa := initialize_aggregates ph.1 pr.2 bootstrap finalize bs.aggregates
           px.2.2 pe.2 pt.2
         let pg := initialize_triggers pa.1 pr.2 bootstrap finalize bs.triggers
         { g := pg.1, root := pr.2, bootstrap := bootstrap, finalize := finalize,
           extension_sqls := q.2.1, schemas := ps.2, enums := pe.2, types := pt.2,
           externs := px.2.1, builtin_types := pa.2.2, ords := po.2, hashes := ph.2,
           aggregates := pa.2.1, triggers := pg.2 }) := by
  simp only [init_phase, empty_graph] at h ⊢
  split at h
  case h_1 e heq => cases h
  case h_2 q heq =>
    cases h
    exact ⟨q, heq, rfl⟩

end PgxSqlModel

namespace PgxSqlModel

theorem initialize_extension_sqls_nodes_error_ne :
    ∀ (l : List ExtensionSqlEntity) (g : Graph) (b f : Option NodeIndex)
      (m : List (ExtensionSqlEntity × NodeIndex)) (e : BuildError),
      initialize_extension_sqls_nodes g b f m l = .error e → e ≠ .noControlFile := by
  intro l
  induction l with
  | nil => intro g b f m e h; cases h
  | cons item rest ih =>
    intro g b f m e h
    rw [initialize_extension_sqls_nodes.eq_def] at h
    simp only [] at h
    split at h
    · cases h
      simp
    · split at h
      · cases h
        simp
      · exact ih _ _ _ _ _ h

theorem initialize_extension_sqls_error_ne (g : Graph) (root : NodeIndex)
    (l : List ExtensionSqlEntity) (e : BuildError) :
    initialize_extension_sqls g root l = .error e → e ≠ .noControlFile := by
  intro h
  rw [initialize_extension_sqls.eq_def] at h
  split at h
  case h_1 e' heq =>
    cases h
    exact initialize_extension_sqls_nodes_error_ne l g none none [] _ heq
  case h_2 => cases h

theorem init_phase_error_ne (control : ControlFile) (bs : Buckets) (e : BuildError) :
    init_phase control bs = .error e → e ≠ .noControlFile := by
  intro h
  simp only [init_phase] at h
  split at h
  case h_1 e' heq =>
    cases h
    exact initialize_extension_sqls_error_ne _ _ _ _ heq
  case h_2 => cases h

theorem connect_requires_list_error_ne (ident : String) (index : NodeIndex)
    (types : List (PostgresTypeEntity × NodeIndex))
    (enums : List (PostgresEnumEntity × NodeIndex))
    (externs : List (PgExternEntity × NodeIndex))
    (schemas : List (SchemaEntity × NodeIndex))
    (extension_sqls : List (ExtensionSqlEntity × NodeIndex))
    (triggers : List (PgTriggerEntity × NodeIndex)) :
    ∀ (refs : List PositioningRef) (g : Graph) (e : BuildError),
      connect_requires_list ident index types enums externs schemas extension_sqls
        triggers g refs = .error e → e ≠ .noControlFile := by
  intro refs
  induction refs with
  | nil => intro g e h; cases h
  | cons r rest ih =>
    intro g e h
    simp only [connect_requires_list] at h
    split at h
    · exact ih _ _ h
    · cases h
      simp

theorem connect_extension_sqls_aux_error_ne
    (schemas : List (SchemaEntity × NodeIndex))
    (types : List (PostgresTypeEntity × NodeIndex))
    (enums : List (PostgresEnumEntity × NodeIndex))
    (externs : List (PgExternEntity × NodeIndex))
    (triggers : List (PgTriggerEntity × NodeIndex))
    (all_extension_sqls : List (ExtensionSqlEntity × NodeIndex)) :
    ∀ (l : List (ExtensionSqlEntity × NodeIndex)) (g : Graph) (e : BuildError),
      connect_extension_sqls_aux schemas types enums externs triggers all_extension_sqls
        g l = .error e → e ≠ .noControlFile := by
  intro l
  induction l with
  | nil => intro g e h; cases h
  | cons p rest ih =>
    intro g e h
    obtain ⟨item, index⟩ := p
    simp only [connect_extension_sqls_aux] at h
    split at h
    case h_1 e' heq =>
      cases h
      exact connect_requires_list_error_ne _ _ _ _ _ _ _ _ _ _ _ heq
    case h_2 g2 heq => exact ih _ _ h

theorem connect_externs_attrs_error_ne (ident : String) (index : NodeIndex)
    (types : List (PostgresTypeEntity × NodeIndex))
    (enums : List (PostgresEnumEntity × NodeIndex))
    (externs : List (PgExternEntity × NodeIndex))
    (schemas : List (SchemaEntity × NodeIndex))
    (extension_sqls : List (ExtensionSqlEntity × NodeIndex))
    (triggers : List (PgTriggerEntity × NodeIndex)) :
    ∀ (attrs : List ExternArgs) (g : Graph) (found : Bool) (e : BuildError),
      connect_externs_attrs ident index types enums externs schemas extension_sqls
        triggers g found attrs = .error e → e ≠ .noControlFile := by
  intro attrs
  induction attrs with
  | nil => intro g found e h; cases h
  | cons attr rest ih =>
    intro g found e h
    cases attr with
    | requiresRefs refs =>
      simp only [connect_externs_attrs] at h
      split at h
      case h_1 e' heq =>
        cases h
        exact connect_requires_list_error_ne _ _ _ _ _ _ _ _ _ _ _ heq
      case h_2 g2 heq => exact ih _ _ _ h
    | schema declared =>
      simp only [connect_externs_attrs] at h
      split at h
      · cases h
        simp
      · exact ih _ _ _ h
    | other =>
      simp only [connect_externs_attrs] at h
      exact ih _ _ _ h

theorem connect_extern_used_ty_error_ne (index : NodeIndex) (ty_id : Nat)
    (key : String) (rel : SqlGraphRelationship)
    (types : List (PostgresTypeEntity × NodeIndex))
    (enums : List (PostgresEnumEntity × NodeIndex))
    (builtin_types : List (String × NodeIndex))
    (extension_sqls : List (ExtensionSqlEntity × NodeIndex))
    (g : Graph) (e : BuildError) :
    connect_extern_used_ty index ty_id key rel types enums builtin_types extension_sqls
      g = .error e → e ≠ .noControlFile := by
  intro h
  simp only [connect_extern_used_ty] at h
  split at h
  · cases h
  · split at h
    · cases h
    · split at h
      · cases h
        simp
      · cases h

theorem connect_extern_args_error_ne (index : NodeIndex)
    (types : List (PostgresTypeEntity × NodeIndex))
    (enums : List (PostgresEnumEntity × NodeIndex))
    (builtin_types : List (String × NodeIndex))
    (extension_sqls : List (ExtensionSqlEntity × NodeIndex)) :
    ∀ (l : List PgExternArgumentEntity) (g : Graph) (e : BuildError),
      connect_extern_args index types enums builtin_types extension_sqls g l = .error e →
      e ≠ .noControlFile := by
  intro l
  induction l with
  | nil => intro g e h; cases h
  | cons arg rest ih =>
    intro g e h
    simp only [connect_extern_args] at h
    split at h
    case h_1 e' heq =>
      cases h
      exact connect_extern_used_ty_error_ne _ _ _ _ _ _ _ _ _ _ heq
    case h_2 g2 heq => exact ih _ _ h

theorem connect_extern_iterated_error_ne (index : NodeIndex)
    (types : List (PostgresTypeEntity × NodeIndex))
    (enums : List (PostgresEnumEntity × NodeIndex))
    (builtin_types : List (String × NodeIndex))
    (extension_sqls : List (ExtensionSqlEntity × NodeIndex)) :
    ∀ (l : List UsedTypeEntity) (g : Graph) (e : BuildError),
      connect_extern_iterated index types enums builtin_types extension_sqls g l =
        .error e → e ≠ .noControlFile := by
  intro l
  induction l with
  | nil => intro g e h; cases h
  | cons ty rest ih =>
    intro g e h
    simp only [connect_extern_iterated] at h
    split at h
    case h_1 e' heq =>
      cases h
      exact connect_extern_used_ty_error_ne _ _ _ _ _ _ _ _ _ _ heq
    case h_2 g2 heq => exact ih _ _ h

theorem connect_extern_return_error_ne (index : NodeIndex)
    (types : List (PostgresTypeEntity × NodeIndex))
    (enums : List (PostgresEnumEntity × NodeIndex))
    (builtin_types : List (String × NodeIndex))
    (extension_sqls : List (ExtensionSqlEntity × NodeIndex))
    (g : Graph) (ret : PgExternReturnEntity) (e : BuildError) :
    connect_extern_return index types enums builtin_types extension_sqls g ret =
      .error e → e ≠ .noControlFile := by
  intro h
  cases ret with
  | noneRet => cases h
  | trigger => cases h
  | type ty => exact connect_extern_used_ty_error_ne _ _ _ _ _ _ _ _ _ _ h
  | setOf ty => exact connect_extern_used_ty_error_ne _ _ _ _ _ _ _ _ _ _ h
  | iterated tys => exact connect_extern_iterated_error_ne _ _ _ _ _ _ _ _ h

theorem connect_extern_item_error_ne (g : Graph) (item : PgExternEntity)
    (index : NodeIndex)
    (hashes : List (PostgresHashEntity × NodeIndex))
    (schemas : List (SchemaEntity × NodeIndex))
    (types : List (PostgresTypeEntity × NodeIndex))
    (enums : List (PostgresEnumEntity × NodeIndex))
    (builtin_types : List (String × NodeIndex))
    (extension_sqls : List (ExtensionSqlEntity × NodeIndex))
    (triggers : List (PgTriggerEntity × NodeIndex))
    (externs : List (PgExternEntity × NodeIndex)) (e : BuildError) :
    connect_extern_item g item index hashes schemas types enums builtin_types
      extension_sqls triggers externs = .error e → e ≠ .noControlFile := by
  intro h
  simp only [connect_extern_item] at h
  cases hattrs : connect_externs_attrs item.name index types enums externs schemas
      extension_sqls triggers g false item.extern_attrs with
  | error e' =>
    simp only [hattrs] at h
    cases h
    exact connect_externs_attrs_error_ne _ _ _ _ _ _ _ _ _ _ _ _ hattrs
  | ok q =>
    simp only [hattrs] at h
    obtain ⟨g1, found⟩ := q
    split at h
    case h_1 e' heq =>
      cases h
      exact connect_extern_args_error_ne _ _ _ _ _ _ _ _ heq
    case h_2 g2 heq =>
      exact connect_extern_return_error_ne _ _ _ _ _ _ _ _ h

theorem connect_externs_aux_error_ne
    (hashes : List (PostgresHashEntity × NodeIndex))
    (schemas : List (SchemaEntity × NodeIndex))
    (types : List (PostgresTypeEntity × NodeIndex))
    (enums : List (PostgresEnumEntity × NodeIndex))
    (builtin_types : List (String × NodeIndex))
    (extension_sqls : List (ExtensionSqlEntity × NodeIndex))
    (triggers : List (PgTriggerEntity × NodeIndex))
    (externs : List (PgExternEntity × NodeIndex)) :
    ∀ (l : List (PgExternEntity × NodeIndex)) (g : Graph) (e : BuildError),
      connect_externs_aux hashes schemas types enums builtin_types extension_sqls
        triggers externs g l = .error e → e ≠ .noControlFile := by
  intro l
  induction l with
  | nil => intro g e h; cases h
  | cons p rest ih =>
    intro g e h
    obtain ⟨item, index⟩ := p
    simp only [connect_externs_aux] at h
    split at h
    case h_1 e' heq =>
      cases h
      exact connect_extern_item_error_ne _ _ _ _ _ _ _ _ _ _ _ _ heq
    case h_2 g2 heq => exact ih _ _ h

theorem make_extern_connection_error_ne (g : Graph) (index : NodeIndex)
    (full_path : String) (externs : List (PgExternEntity × NodeIndex)) (e : BuildError) :
    make_extern_connection g index full_path externs = .error e → e ≠ .noControlFile := by
  intro h
  rw [make_extern_connection.eq_def] at h
  split at h
  · cases h
  · cases h
    simp

theorem connect_aggregate_used_ty_error_ne (index : NodeIndex) (ty_id : Nat)
    (key : String)
    (types : List (PostgresTypeEntity × NodeIndex))
    (enums : List (PostgresEnumEntity × NodeIndex))
    (builtin_types : List (String × NodeIndex))
    (g : Graph) (e : BuildError) :
    connect_aggregate_used_ty index ty_id key types enums builtin_types g = .error e →
    e ≠ .noControlFile := by
  intro h
  simp only [connect_aggregate_used_ty] at h
  split at h
  · cases h
  · split at h
    · cases h
    · cases h
      simp

theorem connect_aggregate_args_error_ne (index : NodeIndex)
    (types : List (PostgresTypeEntity × NodeIndex))
    (enums : List (PostgresEnumEntity × NodeIndex))
    (builtin_types : List (String × NodeIndex)) :
    ∀ (l : List PgExternArgumentEntity) (g : Graph) (e : BuildError),
      connect_aggregate_args index types enums builtin_types g l = .error e →
      e ≠ .noControlFile := by
  intro l
  induction l with
  | nil => intro g e h; cases h
  | cons arg rest ih =>
    intro g e h
    simp only [connect_aggregate_args] at h
    split at h
    case h_1 e' heq =>
      cases h
      exact connect_aggregate_used_ty_error_ne _ _ _ _ _ _ _ _ heq
    case h_2 g2 heq => exact ih _ _ h

theorem connect_aggregate_opt_fns_error_ne (index : NodeIndex) (module_path : String)
    (externs : List (PgExternEntity × NodeIndex)) :
    ∀ (l : List (Option String)) (g : Graph) (e : BuildError),
      connect_aggregate_opt_fns index module_path externs g l = .error e →
      e ≠ .noControlFile := by
  intro l
  induction l with
  | nil => intro g e h; cases h
  | cons o rest ih =>
    intro g e h
    cases o with
    | none =>
      simp only [connect_aggregate_opt_fns] at h
      exact ih _ _ h
    | some value =>
      simp only [connect_aggregate_opt_fns] at h
      split at h
      case h_1 e' heq =>
        cases h
        exact make_extern_connection_error_ne _ _ _ _ _ heq
      case h_2 g2 heq => exact ih _ _ h

theorem connect_aggregate_error_ne (g : Graph) (item : PgAggregateEntity)
    (index : NodeIndex)
    (schemas : List (SchemaEntity × NodeIndex))
    (types : List (PostgresTypeEntity × NodeIndex))
    (enums : List (PostgresEnumEntity × NodeIndex))
    (builtin_types : List (String × NodeIndex))
    (externs : List (PgExternEntity × NodeIndex)) (e : BuildError) :
    connect_aggregate g item index schemas types enums builtin_types externs = .error e →
    e ≠ .noControlFile := by
  intro h
  simp only [connect_aggregate] at h
  split at h
  case h_1 e' heq =>
    cases h
    exact connect_aggregate_args_error_ne _ _ _ _ _ _ _ heq
  case h_2 g3 heq3 =>
    split at h
    case h_1 e' heq =>
      cases h
      exact connect_aggregate_args_error_ne _ _ _ _ _ _ _ heq
    case h_2 g4 heq4 =>
      split at h
      case h_1 e' heq5 =>
        cases h
        cases hms : item.mstype with
        | none =>
          rw [hms] at heq5
          cases heq5
        | some arg =>
          rw [hms] at heq5
          exact connect_aggregate_used_ty_error_ne _ _ _ _ _ _ _ _ heq5
      case h_2 g5 heq5 =>
        split at h
        case h_1 e' heq =>
          cases h
          exact make_extern_connection_error_ne _ _ _ _ _ heq
        case h_2 g6 heq6 =>
          exact connect_aggregate_opt_fns_error_ne _ _ _ _ _ _ h

theorem connect_aggregates_aux_error_ne
    (schemas : List (SchemaEntity × NodeIndex))
    (types : List (PostgresTypeEntity × NodeIndex))
    (enums : List (PostgresEnumEntity × NodeIndex))
    (builtin_types : List (String × NodeIndex))
    (externs : List (PgExternEntity × NodeIndex)) :
    ∀ (l : List (PgAggregateEntity × NodeIndex)) (g : Graph) (e : BuildError),
      connect_aggregates_aux schemas types enums builtin_types externs g l = .error e →
      e ≠ .noControlFile := by
  intro l
  induction l with
  | nil => intro g e h; cases h
  | cons p rest ih =>
    intro g e h
    obtain ⟨item, index⟩ := p
    simp only [connect_aggregates_aux] at h
    split at h
    case h_1 e' heq =>
      cases h
      exact connect_aggregate_error_ne _ _ _ _ _ _ _ _ _ heq
    case h_2 g2 heq => exact ih _ _ h

theorem connect_phase_error_ne (st : InitState) (e : BuildError) :
    connect_phase st = .error e → e ≠ .noControlFile := by
  intro h
  simp only [connect_phase, connect_extension_sqls, connect_externs, connect_ords,
    connect_hashes, connect_aggregates] at h
  split at h
  case h_1 e' heq =>
    cases h
    exact connect_extension_sqls_aux_error_ne _ _ _ _ _ _ _ _ _ heq
  case h_2 g1 heq1 =>
    split at h
    case h_1 e' heq =>
      cases h
      exact connect_externs_aux_error_ne _ _ _ _ _ _ _ _ _ _ _ heq
    case h_2 g2 heq2 =>
      split at h
      case h_1 e' heq =>
        cases h
        exact connect_aggregates_aux_error_ne _ _ _ _ _ _ _ _ heq
      case h_2 g3 heq3 => cases h

end PgxSqlModel

namespace PgxSqlModel

theorem init_phase_st_extends {control : ControlFile} {bs : Buckets} {st : InitState}
    (h : init_phase control bs = .ok st) :
    st.g.Extends (empty_graph.add_node (.extensionRoot control)).1 := by
  obtain ⟨q, hq, hst⟩ := init_phase_ok_inv h
  subst hst
  refine (initialize_triggers_extends _ _ _ _ _).trans_ext ?_
  refine (initialize_aggregates_aux_extends _ _ _ _ _ _ _ _).trans_ext ?_
  refine (initialize_hashes_extends _ _ _ _ _).trans_ext ?_
  refine (initialize_ords_extends _ _ _ _ _).trans_ext ?_
  refine (initialize_externs_aux_extends _ _ _ _ _ _ _ _).trans_ext ?_
  refine (initialize_types_extends _ _ _ _ _).trans_ext ?_
  refine (initialize_enums_extends _ _ _ _ _).trans_ext ?_
  refine (initialize_schemas_extends _ _ _ _).trans_ext ?_
  exact initialize_extension_sqls_extends _ _ _ _ hq

/-- `control_of`: the control-file extractor of the classification loop. -/
def control_of : SqlGraphEntity → Option ControlFile
  | .extensionRoot c => some c
  | _ => none

theorem classify_control_eq (entities : List SqlGraphEntity) :
    (classify entities).control = (entities.filterMap control_of).getLast? := rfl

/-- C9: an input with no control entity is a fatal construction error (the
"no control file" failure), and an input with exactly one control entity never
fails that way: build proceeds, and on success the root node (index 0) holds
exactly that control entity. -/
theorem claim_c9_control_entity (entities : List SqlGraphEntity) (c : ControlFile) :
    ((∀ e ∈ entities, ∀ c', e ≠ .extensionRoot c') →
      build entities = .error .noControlFile) ∧
    (entities.filterMap control_of = [c] →
      build entities ≠ .error .noControlFile ∧
      ∀ s, build entities = .ok s →
        s.graph_root = 0 ∧ s.control = c ∧
        s.graph.nodes.get? s.graph_root = some (.extensionRoot c)) := by
  constructor
  · intro hnone
    have hnil : entities.filterMap control_of = [] := by
      rw [List.filterMap_eq_nil]
      intro a ha
      cases a
      case extensionRoot c' => exact absurd rfl (hnone _ ha c')
      all_goals rfl
    simp only [build, classify_control_eq, hnil]
    rfl
  · intro hone
    have hc : (classify entities).control = some c := by
      rw [classify_control_eq, hone]
      rfl
    constructor
    · intro hbad
      simp only [build, hc] at hbad
      split at hbad
      case h_1 e heq =>
        cases hbad
        exact init_phase_error_ne _ _ _ heq rfl
      case h_2 st hst =>
        split at hbad
        case h_1 e heq =>
          cases hbad
          exact connect_phase_error_ne _ _ heq rfl
        case h_2 => cases hbad
    · intro s hs
      obtain ⟨control, st, g, hc', hst, hg, hrec⟩ := build_ok_inv hs
      rw [hc] at hc'
      cases hc'
      obtain ⟨q, hq, hstrec⟩ := init_phase_ok_inv hst
      have hroot : st.root = 0 := by
        subst hstrec
        rfl
      have hnode0 : st.g.nodes.get? 0 = some (.extensionRoot c) :=
        (init_phase_st_extends hst).get?_stable
          (by simp [empty_graph, Graph.add_node])
      have hext := connect_phase_edgeExtends st g hg
      subst hrec
      refine ⟨hroot, rfl, ?_⟩
      simp only [hroot]
      exact hext.toExtends.get?_stable hnode0

/-- A concrete control file used by witnesses. -/
def example_control : ControlFile :=
  { relocatable := false, schema := none, default_version := "1.0" }

theorem claim_c9_witness :
    ((∀ e ∈ ([] : List SqlGraphEntity), ∀ c',
        e ≠ .extensionRoot c') →
      build [] = .error .noControlFile) ∧
    (([] : List SqlGraphEntity).filterMap control_of = [example_control] →
      build [] ≠ .error .noControlFile ∧
      ∀ s, build [] = .ok s →
        s.graph_root = 0 ∧ s.control = example_control ∧
        s.graph.nodes.get? s.graph_root = some (.extensionRoot example_control)) :=
  claim_c9_control_entity [] example_control

end PgxSqlModel

namespace PgxSqlModel

/-- The extension-SQL extractor of the classification loop. -/
def custom_sql_of : SqlGraphEntity → Option ExtensionSqlEntity
  | .customSql s => some s
  | _ => none

theorem classify_extension_sqls_eq (entities : List SqlGraphEntity) :
    (classify entities).extension_sqls = entities.filterMap custom_sql_of := rfl

theorem initialize_extension_sqls_nodes_some_bootstrap :
    ∀ (l : List ExtensionSqlEntity) (g : Graph) (b f : Option NodeIndex)
      (m : List (ExtensionSqlEntity × NodeIndex)),
      b.isSome →
      1 ≤ (l.filter (fun x => x.bootstrap)).length →
      ∃ e, initialize_extension_sqls_nodes g b f m l = .error e := by
  intro l
  induction l with
  | nil =>
    intro g b f m hb hlen
    simp at hlen
  | cons item rest ih =>
    intro g b f m hb hlen
    rw [initialize_extension_sqls_nodes.eq_def]
    simp only []
    by_cases h1 : (item.bootstrap && b.isSome) = true
    · rw [if_pos h1]
      exact ⟨_, rfl⟩
    · rw [if_neg h1]
      have hbf : item.bootstrap = false := by
        cases hbb : item.bootstrap
        · rfl
        · exact absurd (by simp [hbb, hb]) h1
      by_cases h2 : (item.finalize && f.isSome) = true
      · rw [if_pos h2]
        exact ⟨_, rfl⟩
      · rw [if_neg h2]
        simp only [hbf, Bool.false_eq_true, if_false]
        refine ih _ _ _ _ hb ?_
        simpa [List.filter, hbf] using hlen

theorem initialize_extension_sqls_nodes_two_bootstraps :
    ∀ (l : List ExtensionSqlEntity) (g : Graph) (b f : Option NodeIndex)
      (m : List (ExtensionSqlEntity × NodeIndex)),
      2 ≤ (l.filter (fun x => x.bootstrap)).length →
      ∃ e, initialize_extension_sqls_nodes g b f m l = .error e := by
  intro l
  induction l with
  | nil =>
    intro g b f m hlen
    simp at hlen
  | cons item rest ih =>
    intro g b f m hlen
    rw [initialize_extension_sqls_nodes.eq_def]
    simp only []
    by_cases h1 : (item.bootstrap && b.isSome) = true
    · rw [if_pos h1]
      exact ⟨_, rfl⟩
    · rw [if_neg h1]
      by_cases h2 : (item.finalize && f.isSome) = true
      · rw [if_pos h2]
        exact ⟨_, rfl⟩
      · rw [if_neg h2]
        cases hboot : item.bootstrap
        · simp only [Bool.false_eq_true, if_false]
          refine ih _ _ _ _ ?_
          simpa [List.filter, hboot] using hlen
        · simp only [if_true]
          refine initialize_extension_sqls_nodes_some_bootstrap rest _ _ _ _ (by simp) ?_
          have : (List.filter (fun x => x.bootstrap) (item :: rest)).length
              = (List.filter (fun x => x.bootstrap) rest).length + 1 := by
            simp [List.filter, hboot]
          omega

theorem initialize_extension_sqls_nodes_some_finalize :
    ∀ (l : List ExtensionSqlEntity) (g : Graph) (b f : Option NodeIndex)
      (m : List (ExtensionSqlEntity × NodeIndex)),
      f.isSome →
      1 ≤ (l.filter (fun x => x.finalize)).length →
      ∃ e, initialize_extension_sqls_nodes g b f m l = .error e := by
  intro l
  induction l with
  | nil =>
    intro g b f m hf hlen
    simp at hlen
  | cons item rest ih =>
    intro g b f m hf hlen
    rw [initialize_extension_sqls_nodes.eq_def]
    simp only []
    by_cases h1 : (item.bootstrap && b.isSome) = true
    · rw [if_pos h1]
      exact ⟨_, rfl⟩
    · rw [if_neg h1]
      by_cases h2 : (item.finalize && f.isSome) = true
      · rw [if_pos h2]
        exact ⟨_, rfl⟩
      · rw [if_neg h2]
        have hff : item.finalize = false := by
          cases hfb : item.finalize
          · rfl
          · exact absurd (by simp [hfb, hf]) h2
        simp only [hff, Bool.false_eq_true, if_false]
        refine ih _ _ _ _ hf ?_
        simpa [List.filter, hff] using hlen

theorem initialize_extension_sqls_nodes_two_finalizes :
    ∀ (l : List ExtensionSqlEntity) (g : Graph) (b f : Option NodeIndex)
      (m : List (ExtensionSqlEntity × NodeIndex)),
      2 ≤ (l.filter (fun x => x.finalize)).length →
      ∃ e, initialize_extension_sqls_nodes g b f m l = .error e := by
  intro l
  induction l with
  | nil =>
    intro g b f m hlen
    simp at hlen
  | cons item rest ih =>
    intro g b f m hlen
    rw [initialize_extension_sqls_nodes.eq_def]
    simp only []
    by_cases h1 : (item.bootstrap && b.isSome) = true
    · rw [if_pos h1]
      exact ⟨_, rfl⟩
    · rw [if_neg h1]
      by_cases h2 : (item.finalize && f.isSome) = true
      · rw [if_pos h2]
        exact ⟨_, rfl⟩
      · rw [if_neg h2]
        cases hfin : item.finalize
        · simp only [Bool.false_eq_true, if_false]
          refine ih _ _ _ _ ?_
          simpa [List.filter, hfin] using hlen
        · simp only [if_true]
          refine initialize_extension_sqls_nodes_some_finalize rest _ _ _ _ (by simp) ?_
          have : (List.filter (fun x => x.finalize) (item :: rest)).length
              = (List.filter (fun x => x.finalize) rest).length + 1 := by
            simp [List.filter, hfin]
          omega

end PgxSqlModel

namespace PgxSqlModel

theorem initialize_extension_sqls_nodes_zero_anchors :
    ∀ (l : List ExtensionSqlEntity) (g : Graph) (b f : Option NodeIndex)
      (m : List (ExtensionSqlEntity × NodeIndex)) q,
      initialize_extension_sqls_nodes g b f m l = .ok q →
      ((l.filter (fun x => x.bootstrap)).length = 0 → q.2.1 = b) ∧
      ((l.filter (fun x => x.finalize)).length = 0 → q.2.2.1 = f) := by
  intro l
  induction l with
  | nil =>
    intro g b f m q h
    cases h
    exact ⟨fun _ => rfl, fun _ => rfl⟩
  | cons item rest ih =>
    intro g b f m q h
    rw [initialize_extension_sqls_nodes.eq_def] at h
    simp only [] at h
    split at h
    · cases h
    · split at h
      · cases h
      · constructor
        · intro hz
          have hboot : item.bootstrap = false := by
            cases hbb : item.bootstrap
            · rfl
            · simp [List.filter, hbb] at hz
          have hz' : (rest.filter (fun x => x.bootstrap)).length = 0 := by
            simpa [List.filter, hboot] using hz
          have := (ih _ _ _ _ _ h).1 hz'
          simpa [hboot] using this
        · intro hz
          have hfin : item.finalize = false := by
            cases hfb : item.finalize
            · rfl
            · simp [List.filter, hfb] at hz
          have hz' : (rest.filter (fun x => x.finalize)).length = 0 := by
            simpa [List.filter, hfin] using hz
          have := (ih _ _ _ _ _ h).2 hz'
          simpa [hfin] using this

theorem initialize_extension_sqls_zero_anchors (g : Graph) (root : NodeIndex)
    (l : List ExtensionSqlEntity) (q) :
    initialize_extension_sqls g root l = .ok q →
    ((l.filter (fun x => x.bootstrap)).length = 0 → q.2.2.1 = none) ∧
    ((l.filter (fun x => x.finalize)).length = 0 → q.2.2.2 = none) := by
  intro h
  rw [initialize_extension_sqls.eq_def] at h
  split at h
  · cases h
  case h_2 g1 b1 f1 m1 heq =>
    cases h
    have := initialize_extension_sqls_nodes_zero_anchors l g none none [] _ heq
    exact ⟨this.1, this.2⟩

/-- C2 (amended): two bootstrap-marked (or two finalize-marked) extension-SQL
entities make build fail; with zero of each, any successful build records no
bootstrap and no finalize anchor (so no anchor-specific edges are wired);
build itself can still fail for unrelated reasons (e.g. a missing control
entity), which is the correction to the claim. -/
theorem claim_c2_anchor_uniqueness (entities : List SqlGraphEntity) :
    (2 ≤ ((entities.filterMap custom_sql_of).filter (fun x => x.bootstrap)).length →
      ∃ e, build entities = .error e) ∧
    (2 ≤ ((entities.filterMap custom_sql_of).filter (fun x => x.finalize)).length →
      ∃ e, build entities = .error e) ∧
    (((entities.filterMap custom_sql_of).filter (fun x => x.bootstrap)).length = 0 →
      ((entities.filterMap custom_sql_of).filter (fun x => x.finalize)).length = 0 →
      ∀ s, build entities = .ok s →
        s.graph_bootstrap = none ∧ s.graph_finalize = none) := by
  refine ⟨?_, ?_, ?_⟩
  · intro h2b
    simp only [build]
    cases hc : (classify entities).control with
    | none => exact ⟨_, rfl⟩
    | some control =>
      obtain ⟨e, he⟩ := initialize_extension_sqls_nodes_two_bootstraps
        (entities.filterMap custom_sql_of)
        (empty_graph.add_node (.extensionRoot control)).1 none none [] h2b
      have hix : initialize_extension_sqls
          (empty_graph.add_node (.extensionRoot control)).1
          (empty_graph.add_node (.extensionRoot control)).2
          (classify entities).extension_sqls = .error e := by
        rw [initialize_extension_sqls.eq_def, classify_extension_sqls_eq]
        simp only [he]
      have hip : init_phase control (classify entities) = .error e := by
        simp only [init_phase, empty_graph] at hix ⊢
        simp only [hix]
      simp only [hip]
      exact ⟨e, rfl⟩
  · intro h2f
    simp only [build]
    cases hc : (classify entities).control with
    | none => exact ⟨_, rfl⟩
    | some control =>
      obtain ⟨e, he⟩ := initialize_extension_sqls_nodes_two_finalizes
        (entities.filterMap custom_sql_of)
        (empty_graph.add_node (.extensionRoot control)).1 none none [] h2f
      have hix : initialize_extension_sqls
          (empty_graph.add_node (.extensionRoot control)).1
          (empty_graph.add_node (.extensionRoot control)).2
          (classify entities).extension_sqls = .error e := by
        rw [initialize_extension_sqls.eq_def, classify_extension_sqls_eq]
        simp only [he]
      have hip : init_phase control (classify entities) = .error e := by
        simp only [init_phase, empty_graph] at hix ⊢
        simp only [hix]
      simp only [hip]
      exact ⟨e, rfl⟩
  · intro hzb hzf s hs
    obtain ⟨control, st, g, hc, hst, hg, hrec⟩ := build_ok_inv hs
    obtain ⟨q, hq, hstrec⟩ := init_phase_ok_inv hst
    have hz := initialize_extension_sqls_zero_anchors _ _ _ _ hq
    have hb : q.2.2.1 = none := hz.1 (by rw [classify_extension_sqls_eq]; exact hzb)
    have hf : q.2.2.2 = none := hz.2 (by rw [classify_extension_sqls_eq]; exact hzf)
    subst hrec
    subst hstrec
    exact ⟨hb, hf⟩

/-- C2 counterexample to the claim as stated: the empty input has zero
bootstrap and zero finalize entities, yet build fails (no control entity)
rather than succeeding. -/
theorem claim_c2_counterexample :
    ((([] : List SqlGraphEntity).filterMap custom_sql_of).filter
      (fun x => x.bootstrap)).length = 0 ∧
    ((([] : List SqlGraphEntity).filterMap custom_sql_of).filter
      (fun x => x.finalize)).length = 0 ∧
    build [] = .error .noControlFile :=
  ⟨rfl, rfl, rfl⟩

/-- An extension-SQL fragment marked bootstrap, used by witnesses. -/
def c2_boot_fragment (n : String) : ExtensionSqlEntity :=
  { name := n, module_path := "m", bootstrap := true, finalize := false,
    requires := [], creates := [] }

theorem claim_c2_witness :
    ∃ e, build [.extensionRoot example_control,
      .customSql (c2_boot_fragment "a"), .customSql (c2_boot_fragment "b")] =
      .error e :=
  (claim_c2_anchor_uniqueness [.extensionRoot example_control,
      .customSql (c2_boot_fragment "a"), .customSql (c2_boot_fragment "b")]).1
    (by decide)

end PgxSqlModel

namespace PgxSqlModel

instance {ε α : Type _} [DecidableEq ε] [DecidableEq α] : DecidableEq (Except ε α) :=
  fun x y =>
    match x, y with
    | .ok a, .ok b =>
      if h : a = b then isTrue (by rw [h])
      else isFalse (by intro hx; cases hx; exact h rfl)
    | .error a, .error b =>
      if h : a = b then isTrue (by rw [h])
      else isFalse (by intro hx; cases hx; exact h rfl)
    | .ok _, .error _ => isFalse (by intro hx; cases hx)
    | .error _, .ok _ => isFalse (by intro hx; cases hx)

end PgxSqlModel

namespace PgxSqlModel

/-- The last segment of a `::` path (the referenced name). -/
def path_last (path : String) : String := (path_segments path).getLastD ""

/-- The module-path part of a `::` path (all but the last segment). -/
def path_module (path : String) : String :=
  intercalate_double_colon (path_segments path).dropLast

/-- The matching rule `find_positioning_ref_target` applies to types. -/
def type_ref_matches (path : String) (t : PostgresTypeEntity) : Bool :=
  t.name == path_last path && str_ends_with t.module_path (path_module path)

/-- The matching rule `find_positioning_ref_target` applies to enums. -/
def enum_ref_matches (path : String) (t : PostgresEnumEntity) : Bool :=
  t.name == path_last path && str_ends_with t.module_path (path_module path)

/-- The matching rule `find_positioning_ref_target` applies to functions. -/
def extern_ref_matches (path : String) (f : PgExternEntity) : Bool :=
  f.unaliased_name == path_last path && str_ends_with f.module_path (path_module path)

/-- The matching rule the code applies to schemas: the schema's module path
ends with the whole reference path (no name comparison). -/
def schema_ref_matches (path : String) (s : SchemaEntity) : Bool :=
  str_ends_with s.module_path path

/-- The matching rule `find_positioning_ref_target` applies to triggers
(matching the trigger's function name). -/
def trigger_ref_matches (path : String) (t : PgTriggerEntity) : Bool :=
  t.function_name == path_last path && str_ends_with t.module_path (path_module path)

theorem find_positioning_ref_target_full_path_eq (path : String)
    (types : List (PostgresTypeEntity × NodeIndex))
    (enums : List (PostgresEnumEntity × NodeIndex))
    (externs : List (PgExternEntity × NodeIndex))
    (schemas : List (SchemaEntity × NodeIndex))
    (extension_sqls : List (ExtensionSqlEntity × NodeIndex))
    (triggers : List (PgTriggerEntity × NodeIndex)) :
    find_positioning_ref_target (.fullPath path) types enums externs schemas
      extension_sqls triggers =
      (match types.find? (fun p => type_ref_matches path p.1) with
      | some p => some p.2
      | none =>
      match enums.find? (fun p => enum_ref_matches path p.1) with
      | some p => some p.2
      | none =>
      match externs.find? (fun p => extern_ref_matches path p.1) with
      | some p => some p.2
      | none =>
      match schemas.find? (fun p => schema_ref_matches path p.1) with
      | some p => some p.2
      | none =>
      match triggers.find? (fun p => trigger_ref_matches path p.1) with
      | some p => some p.2
      | none => none) := rfl

/-- Modelled from the spec: the matching rule the claim asserts, applied
uniformly to every category — in particular schemas are also matched by
name = last segment plus module-path suffix; kept separate to compare with
the source's `find_positioning_ref_target`. -/
def find_positioning_ref_target_claimed (positioning_ref : PositioningRef)
    (types : List (PostgresTypeEntity × NodeIndex))
    (enums : List (PostgresEnumEntity × NodeIndex))
    (externs : List (PgExternEntity × NodeIndex))
    (schemas : List (SchemaEntity × NodeIndex))
    (extension_sqls : List (ExtensionSqlEntity × NodeIndex))
    (triggers : List (PgTriggerEntity × NodeIndex)) : Option NodeIndex :=
  match positioning_ref with
  | .fullPath path =>
    match types.find? (fun p => type_ref_matches path p.1) with
    | some p => some p.2
    | none =>
    match enums.find? (fun p => enum_ref_matches path p.1) with
    | some p => some p.2
    | none =>
    match externs.find? (fun p => extern_ref_matches path p.1) with
    | some p => some p.2
    | none =>
    match schemas.find? (fun p =>
        p.1.name == path_last path &&
        str_ends_with p.1.module_path (path_module path)) with
    | some p => some p.2
    | none =>
    match triggers.find? (fun p => trigger_ref_matches path p.1) with
    | some p => some p.2
    | none => none
  | .name name =>
    match extension_sqls.find? (fun other => other.1.name == name) with
    | some other => some other.2
    | none => none

/-- C3 (amended): resolution searches types, enums, functions, schemas,
triggers in that order and a match in an earlier category always wins; types,
enums, functions and triggers match by name = last path segment together with
a module-path suffix match on the remaining prefix, but schemas match when
the schema's module path ends with the whole path (the correction to the
claim); a name reference matches the first extension-SQL fragment of exactly
that name; the resolver is total (it returns a node or nothing). -/
theorem claim_c3_resolution_order (path n : String)
    (types : List (PostgresTypeEntity × NodeIndex))
    (enums : List (PostgresEnumEntity × NodeIndex))
    (externs : List (PgExternEntity × NodeIndex))
    (schemas : List (SchemaEntity × NodeIndex))
    (extension_sqls : List (ExtensionSqlEntity × NodeIndex))
    (triggers : List (PgTriggerEntity × NodeIndex)) :
    (∀ p, types.find? (fun p => type_ref_matches path p.1) = some p →
      find_positioning_ref_target (.fullPath path) types enums externs schemas
        extension_sqls triggers = some p.2) ∧
    (types.find? (fun p => type_ref_matches path p.1) = none →
      ∀ p, enums.find? (fun p => enum_ref_matches path p.1) = some p →
      find_positioning_ref_target (.fullPath path) types enums externs schemas
        extension_sqls triggers = some p.2) ∧
    (types.find? (fun p => type_ref_matches path p.1) = none →
      enums.find? (fun p => enum_ref_matches path p.1) = none →
      ∀ p, externs.find? (fun p => extern_ref_matches path p.1) = some p →
      find_positioning_ref_target (.fullPath path) types enums externs schemas
        extension_sqls triggers = some p.2) ∧
    (types.find? (fun p => type_ref_matches path p.1) = none →
      enums.find? (fun p => enum_ref_matches path p.1) = none →
      externs.find? (fun p => extern_ref_matches path p.1) = none →
      ∀ p, schemas.find? (fun p => schema_ref_matches path p.1) = some p →
      find_positioning_ref_target (.fullPath path) types enums externs schemas
        extension_sqls triggers = some p.2) ∧
    (types.find? (fun p => type_ref_matches path p.1) = none →
      enums.find? (fun p => enum_ref_matches path p.1) = none →
      externs.find? (fun p => extern_ref_matches path p.1) = none →
      schemas.find? (fun p => schema_ref_matches path p.1) = none →
      ∀ p, triggers.find? (fun p => trigger_ref_matches path p.1) = some p →
      find_positioning_ref_target (.fullPath path) types enums externs schemas
        extension_sqls triggers = some p.2) ∧
    (types.find? (fun p => type_ref_matches path p.1) = none →
      enums.find? (fun p => enum_ref_matches path p.1) = none →
      externs.find? (fun p => extern_ref_matches path p.1) = none →
      schemas.find? (fun p => schema_ref_matches path p.1) = none →
      triggers.find? (fun p => trigger_ref_matches path p.1) = none →
      find_positioning_ref_target (.fullPath path) types enums externs schemas
        extension_sqls triggers = none) ∧
    (∀ p, extension_sqls.find? (fun other => other.1.name == n) = some p →
      find_positioning_ref_target (.name n) types enums externs schemas
        extension_sqls triggers = some p.2) ∧
    (extension_sqls.find? (fun other => other.1.name == n) = none →
      find_positioning_ref_target (.name n) types enums externs schemas
        extension_sqls triggers = none) := by
  refine ⟨?_, ?_, ?_, ?_, ?_, ?_, ?_, ?_⟩
  · intro p h1
    rw [find_positioning_ref_target_full_path_eq, h1]
  · intro h1 p h2
    rw [find_positioning_ref_target_full_path_eq, h1, h2]
  · intro h1 h2 p h3
    rw [find_positioning_ref_target_full_path_eq, h1, h2, h3]
  · intro h1 h2 h3 p h4
    rw [find_positioning_ref_target_full_path_eq, h1, h2, h3, h4]
  · intro h1 h2 h3 h4 p h5
    rw [find_positioning_ref_target_full_path_eq, h1, h2, h3, h4, h5]
  · intro h1 h2 h3 h4 h5
    rw [find_positioning_ref_target_full_path_eq, h1, h2, h3, h4, h5]
  · intro p h1
    show (match extension_sqls.find? (fun other => other.1.name == n) with
      | some other => some other.2
      | none => none) = some p.2
    rw [h1]
  · intro h1
    show (match extension_sqls.find? (fun other => other.1.name == n) with
      | some other => some other.2
      | none => none) = none
    rw [h1]

/-- A schema entity whose module path is `a::b` but whose name is `s`. -/
def c3_schema : SchemaEntity := { name := "s", module_path := "a::b" }

/-- C3 counterexample to the claim as stated: for the path reference `a::b`
the code resolves to the schema (whole-path suffix match on the module path),
while the claim's uniform rule (name = last segment `b`) finds nothing,
because the schema's name is `s`, not `b`. -/
theorem claim_c3_counterexample :
    find_positioning_ref_target (.fullPath "a::b") [] [] [] [(c3_schema, 5)] [] []
      = some 5 ∧
    find_positioning_ref_target_claimed (.fullPath "a::b") [] [] [] [(c3_schema, 5)]
      [] [] = none := by
  constructor
  · decide
  · decide

theorem claim_c3_witness :
    find_positioning_ref_target (.fullPath "a::b")
      [((⟨"b", "a", "a::b", 0⟩ : PostgresTypeEntity), 3)] [] [] [] [] [] = some 3 :=
  (claim_c3_resolution_order "a::b" "x"
    [((⟨"b", "a", "a::b", 0⟩ : PostgresTypeEntity), 3)] [] [] [] [] []).1
    ((⟨"b", "a", "a::b", 0⟩ : PostgresTypeEntity), 3) (by decide)

end PgxSqlModel

namespace PgxSqlModel

/-- The builtin-type bookkeeping invariant: the map points at `BuiltinType`
nodes, every `BuiltinType` node is in the map, and keys are unique. -/
def builtin_inv (nodes : List SqlGraphEntity) (m : List (String × NodeIndex)) : Prop :=
  (∀ p ∈ m, nodes.get? p.2 = some (.builtinType p.1)) ∧
  (∀ i path, nodes.get? i = some (.builtinType path) → (path, i) ∈ m) ∧
  (m.map Prod.fst).Nodup

theorem get?_append_singleton (l : List SqlGraphEntity) (x : SqlGraphEntity) (i : Nat) :
    (l ++ [x]).get? i =
      if i < l.length then l.get? i else if i = l.length then some x else none := by
  rcases Nat.lt_trichotomy i l.length with h | h | h
  · rw [List.get?_append h, if_pos h]
  · subst h
    rw [if_neg (lt_irrefl _), if_pos rfl]
    exact List.get?_concat_length l x
  · rw [if_neg (by omega), if_neg (by omega)]
    rw [List.get?_eq_none]
    simp
    omega

theorem builtin_inv_add_node {nodes : List SqlGraphEntity}
    {m : List (String × NodeIndex)} (h : builtin_inv nodes m) (e : SqlGraphEntity)
    (he : ∀ path, e ≠ .builtinType path) : builtin_inv (nodes ++ [e]) m := by
  obtain ⟨h1, h2, h3⟩ := h
  refine ⟨?_, ?_, h3⟩
  · intro p hp
    rw [get?_append_singleton]
    have := h1 p hp
    have hlt : p.2 < nodes.length := by
      by_contra hge
      have hnone : nodes.get? p.2 = none := List.get?_eq_none.mpr (Nat.le_of_not_lt hge)
      rw [hnone] at this
      cases this
    rw [if_pos hlt]
    exact this
  · intro i path hi
    rw [get?_append_singleton] at hi
    split at hi
    · exact h2 i path hi
    · split at hi
      · cases hi
        exact absurd rfl (he path)
      · cases hi

theorem builtin_inv_builtin_entry {g : Graph} {m : List (String × NodeIndex)}
    (h : builtin_inv g.nodes m) (key : String) :
    builtin_inv (builtin_entry g m key).1.nodes (builtin_entry g m key).2 := by
  obtain ⟨h1, h2, h3⟩ := h
  rw [builtin_entry.eq_def]
  split
  · exact ⟨h1, h2, h3⟩
  case h_2 hfind =>
    simp only [Graph.add_node]
    have hnotin : ∀ p ∈ m, ¬(p.1 = key) := by
      intro p hp
      have := List.find?_eq_none.mp hfind p hp
      simpa using this
    refine ⟨?_, ?_, ?_⟩
    · intro p hp
      rcases List.mem_append.mp hp with hp' | hp'
      · rw [get?_append_singleton]
        have := h1 p hp'
        have hlt : p.2 < g.nodes.length := by
          by_contra hge
          have hnone : g.nodes.get? p.2 = none :=
            List.get?_eq_none.mpr (Nat.le_of_not_lt hge)
          rw [hnone] at this
          cases this
        rw [if_pos hlt]
        exact this
      · rw [List.mem_singleton] at hp'
        subst hp'
        rw [get?_append_singleton, if_neg (lt_irrefl _), if_pos rfl]
    · intro i path hi
      rw [get?_append_singleton] at hi
      split at hi
      · exact List.mem_append_left _ (h2 i path hi)
      · split at hi
        case isTrue heq =>
          cases hi
          subst heq
          exact List.mem_append_right _ (by simp)
        · cases hi
    · rw [List.map_append]
      rw [List.nodup_append]
      refine ⟨h3, by simp, ?_⟩
      intro a ha hb
      simp at hb
      subst hb
      obtain ⟨p, hp, hpa⟩ := List.mem_map.mp ha
      exact hnotin p hp hpa

theorem builtin_inv_init_arg_builtins
    (types : List (PostgresTypeEntity × NodeIndex))
    (enums : List (PostgresEnumEntity × NodeIndex)) :
    ∀ (l : List PgExternArgumentEntity) (g : Graph) (m : List (String × NodeIndex)),
      builtin_inv g.nodes m →
      builtin_inv (init_arg_builtins types enums g m l).1.nodes
        (init_arg_builtins types enums g m l).2 := by
  intro l
  induction l with
  | nil => intro g m h; exact h
  | cons arg rest ih =>
    intro g m h
    simp only [init_arg_builtins]
    split
    · exact ih g m h
    · exact ih _ _ (builtin_inv_builtin_entry h _)

theorem builtin_inv_init_iterated_builtins
    (types : List (PostgresTypeEntity × NodeIndex))
    (enums : List (PostgresEnumEntity × NodeIndex)) :
    ∀ (l : List UsedTypeEntity) (g : Graph) (m : List (String × NodeIndex)),
      builtin_inv g.nodes m →
      builtin_inv (init_iterated_builtins types enums g m l).1.nodes
        (init_iterated_builtins types enums g m l).2 := by
  intro l
  induction l with
  | nil => intro g m h; exact h
  | cons ty rest ih =>
    intro g m h
    simp only [init_iterated_builtins]
    split
    · exact ih g m h
    · exact ih _ _ (builtin_inv_builtin_entry h _)

theorem builtin_inv_init_return_builtins
    (types : List (PostgresTypeEntity × NodeIndex))
    (enums : List (PostgresEnumEntity × NodeIndex))
    (g : Graph) (m : List (String × NodeIndex)) (ret : PgExternReturnEntity)
    (h : builtin_inv g.nodes m) :
    builtin_inv (init_return_builtins types enums g m ret).1.nodes
      (init_return_builtins types enums g m ret).2 := by
  cases ret with
  | noneRet => exact h
  | trigger => exact h
  | type ty =>
    simp only [init_return_builtins]
    split
    · exact h
    · exact builtin_inv_builtin_entry h _
  | setOf ty =>
    simp only [init_return_builtins]
    split
    · exact h
    · exact builtin_inv_builtin_entry h _
  | iterated tys => exact builtin_inv_init_iterated_builtins types enums tys g m h

/-- `build_base_edges` does not change the nodes. -/
theorem build_base_edges_nodes (g : Graph) (index root : NodeIndex)
    (bootstrap finalize : Option NodeIndex) :
    (build_base_edges g index root bootstrap finalize).nodes = g.nodes :=
  (build_base_edges_edgeExtends g index root bootstrap finalize).1

theorem builtin_inv_initialize_externs_aux (root : NodeIndex)
    (bootstrap finalize : Option NodeIndex)
    (types : List (PostgresTypeEntity × NodeIndex))
    (enums : List (PostgresEnumEntity × NodeIndex)) :
    ∀ (l : List PgExternEntity) (g : Graph) (m : List (String × NodeIndex)),
      builtin_inv g.nodes m →
      builtin_inv (initialize_externs_aux root bootstrap finalize types enums g m l).1.nodes
        (initialize_externs_aux root bootstrap finalize types enums g m l).2.2 := by
  intro l
  induction l with
  | nil => intro g m h; exact h
  | cons item rest ih =>
    intro g m h
    simp only [initialize_externs_aux]
    refine ih _ _ ?_
    refine builtin_inv_init_return_builtins _ _ _ _ _ ?_
    refine builtin_inv_init_arg_builtins _ _ _ _ _ ?_
    rw [build_base_edges_nodes]
    exact builtin_inv_add_node h _ (by intro path hx; cases hx)

theorem builtin_inv_initialize_aggregates_aux (root : NodeIndex)
    (bootstrap finalize : Option NodeIndex)
    (enums : List (PostgresEnumEntity × NodeIndex))
    (types : List (PostgresTypeEntity × NodeIndex)) :
    ∀ (l : List PgAggregateEntity) (g : Graph) (m : List (String × NodeIndex)),
      builtin_inv g.nodes m →
      builtin_inv
        (initialize_aggregates_aux root bootstrap finalize enums types g m l).1.nodes
        (initialize_aggregates_aux root bootstrap finalize enums types g m l).2.2 := by
  intro l
  induction l with
  | nil => intro g m h; exact h
  | cons item rest ih =>
    intro g m h
    simp only [initialize_aggregates_aux]
    refine ih _ _ ?_
    rw [build_base_edges_nodes]
    refine builtin_inv_init_arg_builtins _ _ _ _ _ ?_
    exact builtin_inv_add_node h _ (by intro path hx; cases hx)

end PgxSqlModel

namespace PgxSqlModel

theorem builtin_inv_initialize_extension_sqls_nodes :
    ∀ (l : List ExtensionSqlEntity) (g : Graph) (b f : Option NodeIndex)
      (mp : List (ExtensionSqlEntity × NodeIndex)) q
      (m : List (String × NodeIndex)),
      initialize_extension_sqls_nodes g b f mp l = .ok q →
      builtin_inv g.nodes m → builtin_inv q.1.nodes m := by
  intro l
  induction l with
  | nil =>
    intro g b f mp q m h hinv
    cases h
    exact hinv
  | cons item rest ih =>
    intro g b f mp q m h hinv
    rw [initialize_extension_sqls_nodes.eq_def] at h
    simp only [] at h
    split at h
    · cases h
    · split at h
      · cases h
      · exact ih _ _ _ _ _ _ h
          (builtin_inv_add_node hinv _ (by intro path hx; cases hx))

theorem extension_sql_base_edges_nodes (root : NodeIndex)
    (bootstrap finalize : Option NodeIndex)
    (l : List (ExtensionSqlEntity × NodeIndex)) (g : Graph) :
    (extension_sql_base_edges root bootstrap finalize g l).nodes = g.nodes :=
  (extension_sql_base_edges_edgeExtends root bootstrap finalize l g).1

theorem builtin_inv_initialize_extension_sqls (g : Graph) (root : NodeIndex)
    (l : List ExtensionSqlEntity) (q) (m : List (String × NodeIndex)) :
    initialize_extension_sqls g root l = .ok q →
    builtin_inv g.nodes m → builtin_inv q.1.nodes m := by
  intro h hinv
  rw [initialize_extension_sqls.eq_def] at h
  split at h
  · cases h
  case h_2 g1 b1 f1 m1 heq =>
    cases h
    rw [extension_sql_base_edges_nodes]
    exact builtin_inv_initialize_extension_sqls_nodes l g none none [] _ m heq hinv

theorem builtin_inv_nodes_eq {nodes nodes' : List SqlGraphEntity}
    {m : List (String × NodeIndex)} (hn : nodes' = nodes) (h : builtin_inv nodes m) :
    builtin_inv nodes' m := hn ▸ h

theorem builtin_inv_initialize_schemas (bootstrap finalize : Option NodeIndex) :
    ∀ (l : List SchemaEntity) (g : Graph) (m : List (String × NodeIndex)),
      builtin_inv g.nodes m →
      builtin_inv (initialize_schemas g bootstrap finalize l).1.nodes m := by
  intro l
  induction l with
  | nil => intro g m h; exact h
  | cons item rest ih =>
    intro g m h
    simp only [initialize_schemas]
    refine ih _ _ ?_
    refine builtin_inv_nodes_eq ?_
      (builtin_inv_add_node h (SqlGraphEntity.schema item) (by intro path hx; cases hx))
    cases bootstrap <;> cases finalize <;> rfl

theorem builtin_inv_initialize_enums (root : NodeIndex)
    (bootstrap finalize : Option NodeIndex) :
    ∀ (l : List PostgresEnumEntity) (g : Graph) (m : List (String × NodeIndex)),
      builtin_inv g.nodes m →
      builtin_inv (initialize_enums g root bootstrap finalize l).1.nodes m := by
  intro l
  induction l with
  | nil => intro g m h; exact h
  | cons item rest ih =>
    intro g m h
    rw [initialize_enums.eq_def]
    refine ih _ _ ?_
    rw [build_base_edges_nodes]
    exact builtin_inv_add_node h _ (by intro path hx; cases hx)

theorem builtin_inv_initialize_types (root : NodeIndex)
    (bootstrap finalize : Option NodeIndex) :
    ∀ (l : List PostgresTypeEntity) (g : Graph) (m : List (String × NodeIndex)),
      builtin_inv g.nodes m →
      builtin_inv (initialize_types g root bootstrap finalize l).1.nodes m := by
  intro l
  induction l with
  | nil => intro g m h; exact h
  | cons item rest ih =>
    intro g m h
    rw [initialize_types.eq_def]
    refine ih _ _ ?_
    rw [build_base_edges_nodes]
    exact builtin_inv_add_node h _ (by intro path hx; cases hx)

theorem builtin_inv_initialize_ords (root : NodeIndex)
    (bootstrap finalize : Option NodeIndex) :
    ∀ (l : List PostgresOrdEntity) (g : Graph) (m : List (String × NodeIndex)),
      builtin_inv g.nodes m →
      builtin_inv (initialize_ords g root bootstrap finalize l).1.nodes m := by
  intro l
  induction l with
  | nil => intro g m h; exact h
  | cons item rest ih =>
    intro g m h
    rw [initialize_ords.eq_def]
    refine ih _ _ ?_
    rw [build_base_edges_nodes]
    exact builtin_inv_add_node h _ (by intro path hx; cases hx)

theorem builtin_inv_initialize_hashes (root : NodeIndex)
    (bootstrap finalize : Option NodeIndex) :
    ∀ (l : List PostgresHashEntity) (g : Graph) (m : List (String × NodeIndex)),
      builtin_inv g.nodes m →
      builtin_inv (initialize_hashes g root bootstrap finalize l).1.nodes m := by
  intro l
  induction l with
  | nil => intro g m h; exact h
  | cons item rest ih =>
    intro g m h
    rw [initialize_hashes.eq_def]
    refine ih _ _ ?_
    rw [build_base_edges_nodes]
    exact builtin_inv_add_node h _ (by intro path hx; cases hx)

theorem builtin_inv_initialize_triggers (root : NodeIndex)
    (bootstrap finalize : Option NodeIndex) :
    ∀ (l : List PgTriggerEntity) (g : Graph) (m : List (String × NodeIndex)),
      builtin_inv g.nodes m →
      builtin_inv (initialize_triggers g root bootstrap finalize l).1.nodes m := by
  intro l
  induction l with
  | nil => intro g m h; exact h
  | cons item rest ih =>
    intro g m h
    rw [initialize_triggers.eq_def]
    refine ih _ _ ?_
    rw [build_base_edges_nodes]
    exact builtin_inv_add_node h _ (by intro path hx; cases hx)

theorem init_phase_builtin_inv {control : ControlFile} {bs : Buckets} {st : InitState}
    (h : init_phase control bs = .ok st) :
    builtin_inv st.g.nodes st.builtin_types := by
  obtain ⟨q, hq, hstrec⟩ := init_phase_ok_inv h
  subst hstrec
  have inv0 : builtin_inv (empty_graph.add_node (.extensionRoot control)).1.nodes [] := by
    refine builtin_inv_add_node ?_ _ (by intro path hx; cases hx)
    exact ⟨fun p hp => absurd hp (List.not_mem_nil p), fun i path hi => by simp [empty_graph] at hi, by simp⟩
  have inv1 := builtin_inv_initialize_extension_sqls _ _ _ _ [] hq inv0
  let rt := (empty_graph.add_node (SqlGraphEntity.extensionRoot control)).2
  let b := q.2.2.1
  let f := q.2.2.2
  let ps := initialize_schemas q.1 b f bs.schemas
  let pe := initialize_enums ps.1 rt b f bs.enums
  let pt := initialize_types pe.1 rt b f bs.types
  have inv2 := builtin_inv_initialize_schemas b f bs.schemas q.1 [] inv1
  have inv3 := builtin_inv_initialize_enums rt b f bs.enums ps.1 [] inv2
  have inv4 := builtin_inv_initialize_types rt b f bs.types pe.1 [] inv3
  have inv5 := builtin_inv_initialize_externs_aux rt b f pt.2 pe.2 bs.externs
    pt.1 [] inv4
  let px := initialize_externs_aux rt b f pt.2 pe.2 pt.1 [] bs.externs
  have inv6 := builtin_inv_initialize_ords rt b f bs.ords px.1 px.2.2 inv5
  let po := initialize_ords px.1 rt b f bs.ords
  have inv7 := builtin_inv_initialize_hashes rt b f bs.hashes po.1 px.2.2 inv6
  let ph := initialize_hashes po.1 rt b f bs.hashes
  have inv8 := builtin_inv_initialize_aggregates_aux rt b f pe.2 pt.2 bs.aggregates
    ph.1 px.2.2 inv7
  let pa := initialize_aggregates_aux rt b f pe.2 pt.2 ph.1 px.2.2 bs.aggregates
  have inv9 := builtin_inv_initialize_triggers rt b f bs.triggers pa.1 pa.2.2 inv8
  exact inv9

theorem build_builtin_inv {entities : List SqlGraphEntity} {s : PgxSql}
    (h : build entities = .ok s) :
    builtin_inv s.graph.nodes s.builtin_types := by
  obtain ⟨control, st, g, hc, hst, hg, hrec⟩ := build_ok_inv h
  have hinv := init_phase_builtin_inv hst
  have hnodes : g.nodes = st.g.nodes := (connect_phase_edgeExtends st g hg).1
  subst hrec
  simpa [hnodes] using hinv

end PgxSqlModel

namespace PgxSqlModel

theorem nodup_keys_functional {α β : Type _} {m : List (α × β)}
    (h : (m.map Prod.fst).Nodup) {a : α} {b c : β}
    (h1 : (a, b) ∈ m) (h2 : (a, c) ∈ m) : b = c := by
  induction m with
  | nil => cases h1
  | cons p rest ih =>
    rw [List.map_cons, List.nodup_cons] at h
    rcases List.mem_cons.mp h1 with hb | hb
    · rcases List.mem_cons.mp h2 with hc | hc
      · rw [← hb] at hc
        exact (Prod.mk.injEq _ _ _ _ ▸ hc).2.symm
      · exfalso
        apply h.1
        rw [← hb]
        exact List.mem_map.mpr ⟨(a, c), hc, rfl⟩
    · rcases List.mem_cons.mp h2 with hc | hc
      · exfalso
        apply h.1
        rw [← hc]
        exact List.mem_map.mpr ⟨(a, b), hb, rfl⟩
      · exact ih h.2 hb hc

theorem connect_extern_used_ty_builtin_edge (index : NodeIndex) (ty_id : Nat)
    (key : String) (rel : SqlGraphRelationship)
    (types : List (PostgresTypeEntity × NodeIndex))
    (enums : List (PostgresEnumEntity × NodeIndex))
    (builtin_types : List (String × NodeIndex))
    (extension_sqls : List (ExtensionSqlEntity × NodeIndex))
    (g g' : Graph)
    (h : connect_extern_used_ty index ty_id key rel types enums builtin_types
      extension_sqls g = .ok g')
    (ht : types.find? (fun t => t.1.id_matches ty_id) = none)
    (he : enums.find? (fun t => t.1.id_matches ty_id) = none) :
    ∃ b, builtin_types.find? (fun p => p.1 == key) = some b ∧
      (b.2, index, rel) ∈ g'.edges := by
  simp only [connect_extern_used_ty, ht, he] at h
  split at h
  · cases h
  case h_2 b hb =>
    cases h
    refine ⟨b, hb, ?_⟩
    refine (add_declared_type_edges_edgeExtends index key _ _).toExtends.edge_stable ?_
    simp [Graph.add_edge]

theorem connect_extern_args_builtin_edges (index : NodeIndex)
    (types : List (PostgresTypeEntity × NodeIndex))
    (enums : List (PostgresEnumEntity × NodeIndex))
    (builtin_types : List (String × NodeIndex))
    (extension_sqls : List (ExtensionSqlEntity × NodeIndex)) :
    ∀ (l : List PgExternArgumentEntity) (g g' : Graph),
      connect_extern_args index types enums builtin_types extension_sqls g l = .ok g' →
      ∀ arg ∈ l,
        types.find? (fun t => t.1.id_matches arg.used_ty.ty_id) = none →
        enums.find? (fun t => t.1.id_matches arg.used_ty.ty_id) = none →
        ∃ b, builtin_types.find? (fun p => p.1 == arg.used_ty.full_path) = some b ∧
          (b.2, index, .requiredByArg) ∈ g'.edges := by
  intro l
  induction l with
  | nil =>
    intro g g' h arg harg
    cases harg
  | cons a rest ih =>
    intro g g' h arg harg ht he
    simp only [connect_extern_args] at h
    split at h
    case h_1 e heq => cases h
    case h_2 g2 heq =>
      rcases List.mem_cons.mp harg with rfl | harg'
      · obtain ⟨b, hb, hedge⟩ :=
          connect_extern_used_ty_builtin_edge index arg.used_ty.ty_id
            arg.used_ty.full_path .requiredByArg types enums builtin_types
            extension_sqls g g2 heq ht he
        exact ⟨b, hb,
          (connect_extern_args_edgeExtends _ _ _ _ _ _ _ _ h).toExtends.edge_stable hedge⟩
      · exact ih _ _ h arg harg' ht he

theorem connect_extern_item_builtin_edges (g : Graph) (item : PgExternEntity)
    (index : NodeIndex)
    (hashes : List (PostgresHashEntity × NodeIndex))
    (schemas : List (SchemaEntity × NodeIndex))
    (types : List (PostgresTypeEntity × NodeIndex))
    (enums : List (PostgresEnumEntity × NodeIndex))
    (builtin_types : List (String × NodeIndex))
    (extension_sqls : List (ExtensionSqlEntity × NodeIndex))
    (triggers : List (PgTriggerEntity × NodeIndex))
    (externs : List (PgExternEntity × NodeIndex)) (g' : Graph)
    (h : connect_extern_item g item index hashes schemas types enums builtin_types
      extension_sqls triggers externs = .ok g') :
    ∀ arg ∈ item.fn_args,
      types.find? (fun t => t.1.id_matches arg.used_ty.ty_id) = none →
      enums.find? (fun t => t.1.id_matches arg.used_ty.ty_id) = none →
      ∃ b, builtin_types.find? (fun p => p.1 == arg.used_ty.full_path) = some b ∧
        (b.2, index, .requiredByArg) ∈ g'.edges := by
  intro arg harg ht he
  simp only [connect_extern_item] at h
  cases hattrs : connect_externs_attrs item.name index types enums externs schemas
      extension_sqls triggers g false item.extern_attrs with
  | error e =>
    simp only [hattrs] at h
    cases h
  | ok q =>
    simp only [hattrs] at h
    obtain ⟨g1, found⟩ := q
    split at h
    case h_1 e heq => cases h
    case h_2 g2 heq =>
      obtain ⟨b, hb, hedge⟩ :=
        connect_extern_args_builtin_edges index types enums builtin_types extension_sqls
          item.fn_args _ _ heq arg harg ht he
      exact ⟨b, hb,
        (connect_extern_return_edgeExtends _ _ _ _ _ _ _ _ h).toExtends.edge_stable hedge⟩

theorem connect_externs_aux_builtin_edges
    (hashes : List (PostgresHashEntity × NodeIndex))
    (schemas : List (SchemaEntity × NodeIndex))
    (types : List (PostgresTypeEntity × NodeIndex))
    (enums : List (PostgresEnumEntity × NodeIndex))
    (builtin_types : List (String × NodeIndex))
    (extension_sqls : List (ExtensionSqlEntity × NodeIndex))
    (triggers : List (PgTriggerEntity × NodeIndex))
    (externs : List (PgExternEntity × NodeIndex)) :
    ∀ (l : List (PgExternEntity × NodeIndex)) (g g' : Graph),
      connect_externs_aux hashes schemas types enums builtin_types extension_sqls
        triggers externs g l = .ok g' →
      ∀ p ∈ l, ∀ arg ∈ p.1.fn_args,
        types.find? (fun t => t.1.id_matches arg.used_ty.ty_id) = none →
        enums.find? (fun t => t.1.id_matches arg.used_ty.ty_id) = none →
        ∃ b, builtin_types.find? (fun q => q.1 == arg.used_ty.full_path) = some b ∧
          (b.2, p.2, .requiredByArg) ∈ g'.edges := by
  intro l
  induction l with
  | nil =>
    intro g g' h p hp
    cases hp
  | cons q rest ih =>
    intro g g' h p hp arg harg ht he
    obtain ⟨item, index⟩ := q
    simp only [connect_externs_aux] at h
    split at h
    case h_1 e heq => cases h
    case h_2 g2 heq =>
      rcases List.mem_cons.mp hp with rfl | hp'
      · obtain ⟨b, hb, hedge⟩ :=
          connect_extern_item_builtin_edges _ _ _ _ _ _ _ _ _ _ _ _ heq arg harg ht he
        exact ⟨b, hb,
          (connect_externs_aux_edgeExtends _ _ _ _ _ _ _ _ _ _ _ h).toExtends.edge_stable
            hedge⟩
      · exact ih _ _ h p hp' arg harg ht he

theorem connect_phase_builtin_edges (st : InitState) (g : Graph)
    (h : connect_phase st = .ok g) :
    ∀ p ∈ st.externs, ∀ arg ∈ p.1.fn_args,
      st.types.find? (fun t => t.1.id_matches arg.used_ty.ty_id) = none →
      st.enums.find? (fun t => t.1.id_matches arg.used_ty.ty_id) = none →
      ∃ b, st.builtin_types.find? (fun q => q.1 == arg.used_ty.full_path) = some b ∧
        (b.2, p.2, .requiredByArg) ∈ g.edges := by
  intro p hp arg harg ht he
  simp only [connect_phase, connect_extension_sqls, connect_externs, connect_ords,
    connect_hashes, connect_aggregates] at h
  split at h
  case h_1 e heq => cases h
  case h_2 g1 heq1 =>
    split at h
    case h_1 e heq => cases h
    case h_2 g2 heq2 =>
      split at h
      case h_1 e heq => cases h
      case h_2 g3 heq3 =>
        cases h
        obtain ⟨b, hb, hedge⟩ :=
          connect_externs_aux_builtin_edges _ _ _ _ _ _ _ _ st.externs _ _ heq2
            p hp arg harg ht he
        refine ⟨b, hb, ?_⟩
        refine (connect_triggers_edgeExtends _ _ _).toExtends.edge_stable ?_
        refine (connect_aggregates_aux_edgeExtends _ _ _ _ _ _ _ _ heq3).toExtends.edge_stable ?_
        refine (connect_hashes_aux_edgeExtends _ _ _ _ _ _).toExtends.edge_stable ?_
        exact (connect_ords_aux_edgeExtends _ _ _ _ _ _).toExtends.edge_stable hedge

/-- C4: builtin-type placeholders are keyed by path and idempotent: in any
successful build there is at most one `BuiltinType` node per path (two node
positions holding the same path coincide), the builtin map points at exactly
those nodes, and every function-argument usage whose type id matches no
declared type and no declared enum resolves through the map to that single
shared node, with a `RequiredByArg` edge from it. -/
theorem claim_c4_builtin_idempotent (entities : List SqlGraphEntity) (s : PgxSql)
    (h : build entities = .ok s) :
    (∀ i j path, s.graph.nodes.get? i = some (.builtinType path) →
      s.graph.nodes.get? j = some (.builtinType path) → i = j) ∧
    (∀ p ∈ s.builtin_types, s.graph.nodes.get? p.2 = some (.builtinType p.1)) ∧
    (∀ p ∈ s.externs, ∀ arg ∈ p.1.fn_args,
      s.types.find? (fun t => t.1.id_matches arg.used_ty.ty_id) = none →
      s.enums.find? (fun t => t.1.id_matches arg.used_ty.ty_id) = none →
      ∃ b, s.builtin_types.find? (fun q => q.1 == arg.used_ty.full_path) = some b ∧
        (b.2, p.2, .requiredByArg) ∈ s.graph.edges ∧
        s.graph.nodes.get? b.2 = some (.builtinType b.1) ∧
        b.1 = arg.used_ty.full_path) := by
  obtain ⟨hsound, hcomplete, hnodup⟩ := build_builtin_inv h
  refine ⟨?_, hsound, ?_⟩
  · intro i j path hi hj
    exact (nodup_keys_functional hnodup (hcomplete i path hi) (hcomplete j path hj))
  · obtain ⟨control, st, g, hc, hst, hg, hrec⟩ := build_ok_inv h
    have hedges := connect_phase_builtin_edges st g hg
    subst hrec
    intro p hp arg harg ht he
    obtain ⟨b, hb, hedge⟩ := hedges p hp arg harg ht he
    have hkey : b.1 = arg.used_ty.full_path := by
      have := List.find?_some hb
      simpa using this
    have hbmem : b ∈ st.builtin_types := List.mem_of_find?_eq_some hb
    exact ⟨b, hb, hedge, hsound b hbmem, hkey⟩

/-- Two functions sharing the same undeclared argument type path. -/
def c4_fn (n : String) : PgExternEntity :=
  { name := n, unaliased_name := n, module_path := "m", full_path := "m::" ++ n,
    extern_attrs := [],
    fn_args := [{ used_ty := { ty_id := 7, full_path := "u::T", ty_source := "u::T" } }],
    fn_return := .noneRet }

theorem claim_c4_witness :
    ∃ s, build [.extensionRoot example_control, .function (c4_fn "f"),
        .function (c4_fn "g")] = .ok s ∧
      ∀ i j path, s.graph.nodes.get? i = some (.builtinType path) →
        s.graph.nodes.get? j = some (.builtinType path) → i = j := by
  cases hb : build [.extensionRoot example_control, .function (c4_fn "f"),
      .function (c4_fn "g")] with
  | error e =>
    have hok : (build [.extensionRoot example_control, .function (c4_fn "f"),
        .function (c4_fn "g")]).isOk = true := by decide
    rw [hb] at hok
    cases hok
  | ok s =>
    exact ⟨s, rfl, (claim_c4_builtin_idempotent _ s hb).1⟩

end PgxSqlModel

namespace PgxSqlModel

theorem make_extern_connection_ok {g : Graph} {index : NodeIndex} {full_path : String}
    {externs : List (PgExternEntity × NodeIndex)} {g' : Graph}
    (h : make_extern_connection g index full_path externs = .ok g') :
    ∃ e, externs.find? (fun q => full_path == q.1.full_path) = some e ∧
      g' = g.add_edge e.2 index .requiredBy := by
  simp only [make_extern_connection] at h
  split at h
  case h_1 e heq =>
    cases h
    exact ⟨e, heq, rfl⟩
  case h_2 heq => cases h

theorem connect_aggregate_opt_fns_ok (index : NodeIndex) (module_path : String)
    (externs : List (PgExternEntity × NodeIndex)) :
    ∀ (l : List (Option String)) (g g' : Graph),
      connect_aggregate_opt_fns index module_path externs g l = .ok g' →
      ∀ value, some value ∈ l →
        ∃ e, externs.find?
            (fun q => (module_path ++ "::" ++ value) == q.1.full_path) = some e ∧
          (e.2, index, .requiredBy) ∈ g'.edges := by
  intro l
  induction l with
  | nil =>
    intro g g' h value hv
    cases hv
  | cons o rest ih =>
    intro g g' h value hv
    cases o with
    | none =>
      simp only [connect_aggregate_opt_fns] at h
      rcases List.mem_cons.mp hv with hv0 | hv'
      · cases hv0
      · exact ih _ _ h value hv'
    | some v =>
      simp only [connect_aggregate_opt_fns] at h
      split at h
      case h_1 e heq => cases h
      case h_2 g2 heq =>
        rcases List.mem_cons.mp hv with hv0 | hv'
        · injection hv0 with hvv
          subst hvv
          obtain ⟨e, hfind, hg2⟩ := make_extern_connection_ok heq
          refine ⟨e, hfind, ?_⟩
          refine
            (connect_aggregate_opt_fns_edgeExtends _ _ _ _ _ _ h).toExtends.edge_stable ?_
          rw [hg2]
          simp [Graph.add_edge]
        · exact ih _ _ h value hv'

theorem connect_aggregate_ok {g : Graph} {item : PgAggregateEntity} {index : NodeIndex}
    {schemas : List (SchemaEntity × NodeIndex)}
    {types : List (PostgresTypeEntity × NodeIndex)}
    {enums : List (PostgresEnumEntity × NodeIndex)}
    {builtin_types : List (String × NodeIndex)}
    {externs : List (PgExternEntity × NodeIndex)} {g' : Graph}
    (h : connect_aggregate g item index schemas types enums builtin_types externs
      = .ok g') :
    (∃ e, externs.find?
        (fun q => (item.module_path ++ "::" ++ item.sfunc) == q.1.full_path) = some e ∧
      (e.2, index, .requiredBy) ∈ g'.edges) ∧
    (∀ value, some value ∈ item.optional_fns →
      ∃ e, externs.find?
          (fun q => (item.module_path ++ "::" ++ value) == q.1.full_path) = some e ∧
        (e.2, index, .requiredBy) ∈ g'.edges) := by
  simp only [connect_aggregate] at h
  split at h
  case h_1 e heq => cases h
  case h_2 g3 heq3 =>
    split at h
    case h_1 e heq => cases h
    case h_2 g4 heq4 =>
      split at h
      case h_1 e heq => cases h
      case h_2 g5 heq5 =>
        split at h
        case h_1 e heq => cases h
        case h_2 g6 heq6 =>
          constructor
          · obtain ⟨e, hfind, hg6⟩ := make_extern_connection_ok heq6
            refine ⟨e, hfind, ?_⟩
            refine
              (connect_aggregate_opt_fns_edgeExtends _ _ _ _ _ _ h).toExtends.edge_stable
                ?_
            rw [hg6]
            simp [Graph.add_edge]
          · exact connect_aggregate_opt_fns_ok _ _ _ _ _ _ h

theorem connect_aggregates_aux_ok
    (schemas : List (SchemaEntity × NodeIndex))
    (types : List (PostgresTypeEntity × NodeIndex))
    (enums : List (PostgresEnumEntity × NodeIndex))
    (builtin_types : List (String × NodeIndex))
    (externs : List (PgExternEntity × NodeIndex)) :
    ∀ (l : List (PgAggregateEntity × NodeIndex)) (g g' : Graph),
      connect_aggregates_aux schemas types enums builtin_types externs g l = .ok g' →
      ∀ p ∈ l,
        (∃ e, externs.find?
            (fun q => (p.1.module_path ++ "::" ++ p.1.sfunc) == q.1.full_path)
              = some e ∧
          (e.2, p.2, .requiredBy) ∈ g'.edges) ∧
        (∀ value, some value ∈ p.1.optional_fns →
          ∃ e, externs.find?
              (fun q => (p.1.module_path ++ "::" ++ value) == q.1.full_path) = some e ∧
            (e.2, p.2, .requiredBy) ∈ g'.edges) := by
  intro l
  induction l with
  | nil =>
    intro g g' h p hp
    cases hp
  | cons q rest ih =>
    intro g g' h p hp
    obtain ⟨item, index⟩ := q
    simp only [connect_aggregates_aux] at h
    split at h
    case h_1 e heq => cases h
    case h_2 g2 heq =>
      rcases List.mem_cons.mp hp with rfl | hp'
      · obtain ⟨⟨e, hfind, hedge⟩, hopt⟩ := connect_aggregate_ok heq
        refine ⟨⟨e, hfind,
          (connect_aggregates_aux_edgeExtends _ _ _ _ _ _ _ _ h).toExtends.edge_stable
            hedge⟩, ?_⟩
        intro value hv
        obtain ⟨e', hfind', hedge'⟩ := hopt value hv
        exact ⟨e', hfind',
          (connect_aggregates_aux_edgeExtends _ _ _ _ _ _ _ _ h).toExtends.edge_stable
            hedge'⟩
      · exact ih _ _ h p hp'

theorem connect_phase_aggregate_fns (st : InitState) (g : Graph)
    (h : connect_phase st = .ok g) :
    ∀ p ∈ st.aggregates,
      (∃ e, st.externs.find?
          (fun q => (p.1.module_path ++ "::" ++ p.1.sfunc) == q.1.full_path) = some e ∧
        (e.2, p.2, .requiredBy) ∈ g.edges) ∧
      (∀ value, some value ∈ p.1.optional_fns →
        ∃ e, st.externs.find?
            (fun q => (p.1.module_path ++ "::" ++ value) == q.1.full_path) = some e ∧
          (e.2, p.2, .requiredBy) ∈ g.edges) := by
  simp only [connect_phase, connect_extension_sqls, connect_externs, connect_ords,
    connect_hashes, connect_aggregates] at h
  split at h
  case h_1 e heq => cases h
  case h_2 g1 heq1 =>
    split at h
    case h_1 e heq => cases h
    case h_2 g2 heq2 =>
      split at h
      case h_1 e heq => cases h
      case h_2 g3 heq3 =>
        cases h
        intro p hp
        obtain ⟨⟨e, hfind, hedge⟩, hopt⟩ :=
          connect_aggregates_aux_ok _ _ _ _ _ st.aggregates _ _ heq3 p hp
        refine ⟨⟨e, hfind,
          (connect_triggers_edgeExtends _ _ _).toExtends.edge_stable hedge⟩, ?_⟩
        intro value hv
        obtain ⟨e', hfind', hedge'⟩ := hopt value hv
        exact ⟨e', hfind',
          (connect_triggers_edgeExtends _ _ _).toExtends.edge_stable hedge'⟩

theorem connect_ord_externs_no_match (item : PostgresOrdEntity) (index : NodeIndex) :
    ∀ (l : List (PgExternEntity × NodeIndex)) (g : Graph),
      (∀ q ∈ l,
        ((item.module_path == q.1.module_path && q.1.name == item.cmp_fn_name)
          || (item.module_path == q.1.module_path && q.1.name == item.lt_fn_name)
          || (item.module_path == q.1.module_path && q.1.name == item.le_fn_name)
          || (item.module_path == q.1.module_path && q.1.name == item.eq_fn_name)
          || (item.module_path == q.1.module_path && q.1.name == item.gt_fn_name)
          || (item.module_path == q.1.module_path && q.1.name == item.ge_fn_name))
          = false) →
      connect_ord_externs item index g l = g := by
  intro l
  induction l with
  | nil =>
    intro g _
    rfl
  | cons q rest ih =>
    intro g hall
    obtain ⟨ei, eidx⟩ := q
    have h0 := hall (ei, eidx) (List.mem_cons_self _ _)
    simp only [connect_ord_externs, h0, Bool.false_eq_true, if_false]
    exact ih g (fun q hq => hall q (List.mem_cons_of_mem _ hq))

end PgxSqlModel

namespace PgxSqlModel

/-- C5 (amended): in every successful build, each aggregate's mandatory
state-transition function and every declared optional support function
resolved by exact full-path equality against a declared function (so `build`
fails when one is missing), each yielding a function-before-aggregate
`RequiredBy` edge; whereas the operator-class pass is total and, when no
declared function matches an ord's six naming-convention comparison names, it
adds no function-to-operator edge at all (the graph is unchanged). Build
success overall is not guaranteed by an unmatched ord alone: other
construction errors still apply. -/
theorem claim_c5_support_functions (entities : List SqlGraphEntity) (s : PgxSql)
    (h : build entities = .ok s) :
    (∀ p ∈ s.aggregates,
      (∃ e, s.externs.find?
          (fun q => (p.1.module_path ++ "::" ++ p.1.sfunc) == q.1.full_path) = some e ∧
        (e.2, p.2, .requiredBy) ∈ s.graph.edges) ∧
      (∀ value, some value ∈ p.1.optional_fns →
        ∃ e, s.externs.find?
            (fun q => (p.1.module_path ++ "::" ++ value) == q.1.full_path) = some e ∧
          (e.2, p.2, .requiredBy) ∈ s.graph.edges)) ∧
    (∀ (item : PostgresOrdEntity) (index : NodeIndex) (g : Graph),
      (∀ q ∈ s.externs,
        ((item.module_path == q.1.module_path && q.1.name == item.cmp_fn_name)
          || (item.module_path == q.1.module_path && q.1.name == item.lt_fn_name)
          || (item.module_path == q.1.module_path && q.1.name == item.le_fn_name)
          || (item.module_path == q.1.module_path && q.1.name == item.eq_fn_name)
          || (item.module_path == q.1.module_path && q.1.name == item.gt_fn_name)
          || (item.module_path == q.1.module_path && q.1.name == item.ge_fn_name))
          = false) →
      connect_ord_externs item index g s.externs = g) := by
  obtain ⟨control, st, g, hc, hst, hg, hrec⟩ := build_ok_inv h
  subst hrec
  exact ⟨connect_phase_aggregate_fns st g hg,
    fun item index g0 hall => connect_ord_externs_no_match item index st.externs g0 hall⟩

/-- An operator class whose comparison functions match nothing. -/
def c5_ord : PostgresOrdEntity :=
  { name := "T", module_path := "m", full_path := "m::T", id := 3 }

/-- C5 counterexample: the claim's second half says build *succeeds* for every
input whose ord has no matching comparison functions; an ord alone, with no
control entity, still fails, so ord connection never being fatal does not
entail overall success. -/
theorem claim_c5_counterexample :
    build [.ord c5_ord] = .error .noControlFile := rfl

/-- A declared function matching `c5_agg`'s state-transition name. -/
def c5_fn : PgExternEntity :=
  { name := "sf", unaliased_name := "sf", module_path := "m", full_path := "m::sf",
    extern_attrs := [], fn_args := [], fn_return := .noneRet }

/-- An aggregate whose only support function is the mandatory `sfunc`. -/
def c5_agg : PgAggregateEntity :=
  { name := "A", module_path := "m", full_path := "m::A", ty_id := 9, args := [],
    direct_args := none, mstype := none, sfunc := "sf", finalfunc := none,
    combinefunc := none, serialfunc := none, deserialfunc := none, msfunc := none,
    minvfunc := none, mfinalfunc := none, sortop := none }

theorem claim_c5_witness :
    ∃ s, build [.extensionRoot example_control, .function c5_fn, .aggregate c5_agg]
        = .ok s ∧
      ∀ p ∈ s.aggregates,
        ∃ e, s.externs.find?
            (fun q => (p.1.module_path ++ "::" ++ p.1.sfunc) == q.1.full_path)
              = some e ∧
          (e.2, p.2, .requiredBy) ∈ s.graph.edges := by
  cases hb : build [.extensionRoot example_control, .function c5_fn,
      .aggregate c5_agg] with
  | error e =>
    have hok : (build [.extensionRoot example_control, .function c5_fn,
        .aggregate c5_agg]).isOk = true := by decide
    rw [hb] at hok
    cases hok
  | ok s =>
    exact ⟨s, rfl, fun p hp => ((claim_c5_support_functions _ s hb).1 p hp).1⟩

end PgxSqlModel

namespace PgxSqlModel

/-- Every node that is not the root, not a builtin placeholder and not a
schema already carries its incoming root edge. -/
def root_edge_inv (root : NodeIndex) (g : Graph) : Prop :=
  ∀ i e, g.nodes.get? i = some e →
    (∀ c, e ≠ SqlGraphEntity.extensionRoot c) →
    (∀ p, e ≠ SqlGraphEntity.builtinType p) →
    (∀ s, e ≠ SqlGraphEntity.schema s) →
    (root, i, SqlGraphRelationship.requiredBy) ∈ g.edges

/-- The schema map covers every schema node. -/
def schema_complete (nodes : List SqlGraphEntity)
    (m : List (SchemaEntity × NodeIndex)) : Prop :=
  ∀ i s, nodes.get? i = some (.schema s) → (s, i) ∈ m

/-- The root node is the only `ExtensionRoot` node. -/
def root_unique (root : NodeIndex) (nodes : List SqlGraphEntity) : Prop :=
  ∀ i c, nodes.get? i = some (.extensionRoot c) → i = root

/-- All nodes of `g'` are nodes of `g` at the same position, or satisfy `P`. -/
def nodes_from (g g' : Graph) (P : SqlGraphEntity → Prop) : Prop :=
  ∀ i e, g'.nodes.get? i = some e → g.nodes.get? i = some e ∨ P e

theorem nodes_from_refl (g : Graph) (P : SqlGraphEntity → Prop) : nodes_from g g P :=
  fun _ _ hi => Or.inl hi

theorem nodes_from_trans {g g' g'' : Graph} {P : SqlGraphEntity → Prop}
    (h1 : nodes_from g g' P) (h2 : nodes_from g' g'' P) : nodes_from g g'' P :=
  fun i e hi => (h2 i e hi).elim (fun hh => h1 i e hh) Or.inr

theorem nodes_from_mono {g g' : Graph} {P Q : SqlGraphEntity → Prop}
    (hpq : ∀ e, P e → Q e) (h : nodes_from g g' P) : nodes_from g g' Q :=
  fun i e hi => (h i e hi).imp id (hpq e)

theorem nodes_from_nodes_eq {g g' : Graph} {P : SqlGraphEntity → Prop}
    (hn : g'.nodes = g.nodes) : nodes_from g g' P :=
  fun _ _ hi => Or.inl (hn ▸ hi)

theorem nodes_from_add_node (g : Graph) (e : SqlGraphEntity)
    (P : SqlGraphEntity → Prop) (hP : P e) : nodes_from g (g.add_node e).1 P := by
  intro i e' hi
  simp only [Graph.add_node] at hi
  rw [get?_append_singleton] at hi
  split at hi
  · exact Or.inl hi
  · split at hi
    · cases hi
      exact Or.inr hP
    · cases hi

/-- The node is a builtin placeholder. -/
def is_builtin_node (e : SqlGraphEntity) : Prop :=
  ∃ p, e = SqlGraphEntity.builtinType p

theorem nodes_from_builtin_entry (g : Graph) (m : List (String × NodeIndex))
    (key : String) : nodes_from g (builtin_entry g m key).1 is_builtin_node := by
  cases hf : m.find? (fun p => p.1 == key) with
  | some p =>
    simp only [builtin_entry, hf]
    exact nodes_from_refl _ _
  | none =>
    simp only [builtin_entry, hf]
    exact nodes_from_add_node _ _ _ ⟨key, rfl⟩

theorem nodes_from_init_arg_builtins
    (types : List (PostgresTypeEntity × NodeIndex))
    (enums : List (PostgresEnumEntity × NodeIndex)) :
    ∀ (l : List PgExternArgumentEntity) (g : Graph) (m : List (String × NodeIndex)),
      nodes_from g (init_arg_builtins types enums g m l).1 is_builtin_node := by
  intro l
  induction l with
  | nil => intro g m; exact nodes_from_refl _ _
  | cons arg rest ih =>
    intro g m
    simp only [init_arg_builtins]
    split
    · exact ih g m
    · exact nodes_from_trans (nodes_from_builtin_entry g m _) (ih _ _)

theorem nodes_from_init_iterated_builtins
    (types : List (PostgresTypeEntity × NodeIndex))
    (enums : List (PostgresEnumEntity × NodeIndex)) :
    ∀ (l : List UsedTypeEntity) (g : Graph) (m : List (String × NodeIndex)),
      nodes_from g (init_iterated_builtins types enums g m l).1 is_builtin_node := by
  intro l
  induction l with
  | nil => intro g m; exact nodes_from_refl _ _
  | cons ty rest ih =>
    intro g m
    simp only [init_iterated_builtins]
    split
    · exact ih g m
    · exact nodes_from_trans (nodes_from_builtin_entry g m _) (ih _ _)

theorem nodes_from_init_return_builtins
    (types : List (PostgresTypeEntity × NodeIndex))
    (enums : List (PostgresEnumEntity × NodeIndex))
    (g : Graph) (m : List (String × NodeIndex)) (ret : PgExternReturnEntity) :
    nodes_from g (init_return_builtins types enums g m ret).1 is_builtin_node := by
  cases ret with
  | noneRet => exact nodes_from_refl _ _
  | trigger => exact nodes_from_refl _ _
  | type ty =>
    simp only [init_return_builtins]
    split
    · exact nodes_from_refl _ _
    · exact nodes_from_builtin_entry _ _ _
  | setOf ty =>
    simp only [init_return_builtins]
    split
    · exact nodes_from_refl _ _
    · exact nodes_from_builtin_entry _ _ _
  | iterated tys => exact nodes_from_init_iterated_builtins types enums tys g m

theorem nodes_from_initialize_schemas (bootstrap finalize : Option NodeIndex) :
    ∀ (l : List SchemaEntity) (g : Graph),
      nodes_from g (initialize_schemas g bootstrap finalize l).1
        (fun e => ∃ it, e = SqlGraphEntity.schema it) := by
  intro l
  induction l with
  | nil => intro g; exact nodes_from_refl _ _
  | cons item rest ih =>
    intro g
    simp only [initialize_schemas]
    refine nodes_from_trans ?_ (ih _)
    refine nodes_from_trans (nodes_from_add_node g _ _ ⟨item, rfl⟩)
      (nodes_from_nodes_eq ?_)
    cases bootstrap <;> cases finalize <;> rfl

theorem nodes_from_initialize_enums (root : NodeIndex)
    (bootstrap finalize : Option NodeIndex) :
    ∀ (l : List PostgresEnumEntity) (g : Graph),
      nodes_from g (initialize_enums g root bootstrap finalize l).1
        (fun e => ∃ it, e = SqlGraphEntity.enum it) := by
  intro l
  induction l with
  | nil => intro g; exact nodes_from_refl _ _
  | cons item rest ih =>
    intro g
    simp only [initialize_enums]
    refine nodes_from_trans ?_ (ih _)
    refine nodes_from_trans (nodes_from_add_node g _ _ ⟨item, rfl⟩)
      (nodes_from_nodes_eq ?_)
    exact build_base_edges_nodes _ _ _ _ _

theorem nodes_from_initialize_types (root : NodeIndex)
    (bootstrap finalize : Option NodeIndex) :
    ∀ (l : List PostgresTypeEntity) (g : Graph),
      nodes_from g (initialize_types g root bootstrap finalize l).1
        (fun e => ∃ it, e = SqlGraphEntity.type it) := by
  intro l
  induction l with
  | nil => intro g; exact nodes_from_refl _ _
  | cons item rest ih =>
    intro g
    simp only [initialize_types]
    refine nodes_from_trans ?_ (ih _)
    refine nodes_from_trans (nodes_from_add_node g _ _ ⟨item, rfl⟩)
      (nodes_from_nodes_eq ?_)
    exact build_base_edges_nodes _ _ _ _ _

theorem nodes_from_initialize_ords (root : NodeIndex)
    (bootstrap finalize : Option NodeIndex) :
    ∀ (l : List PostgresOrdEntity) (g : Graph),
      nodes_from g (initialize_ords g root bootstrap finalize l).1
        (fun e => ∃ it, e = SqlGraphEntity.ord it) := by
  intro l
  induction l with
  | nil => intro g; exact nodes_from_refl _ _
  | cons item rest ih =>
    intro g
    simp only [initialize_ords]
    refine nodes_from_trans ?_ (ih _)
    refine nodes_from_trans (nodes_from_add_node g _ _ ⟨item, rfl⟩)
      (nodes_from_nodes_eq ?_)
    exact build_base_edges_nodes _ _ _ _ _

theorem nodes_from_initialize_hashes (root : NodeIndex)
    (bootstrap finalize : Option NodeIndex) :
    ∀ (l : List PostgresHashEntity) (g : Graph),
      nodes_from g (initialize_hashes g root bootstrap finalize l).1
        (fun e => ∃ it, e = SqlGraphEntity.hash it) := by
  intro l
  induction l with
  | nil => intro g; exact nodes_from_refl _ _
  | cons item rest ih =>
    intro g
    simp only [initialize_hashes]
    refine nodes_from_trans ?_ (ih _)
    refine nodes_from_trans (nodes_from_add_node g _ _ ⟨item, rfl⟩)
      (nodes_from_nodes_eq ?_)
    exact build_base_edges_nodes _ _ _ _ _

theorem nodes_from_initialize_triggers (root : NodeIndex)
    (bootstrap finalize : Option NodeIndex) :
    ∀ (l : List PgTriggerEntity) (g : Graph),
      nodes_from g (initialize_triggers g root bootstrap finalize l).1
        (fun e => ∃ it, e = SqlGraphEntity.trigger it) := by
  intro l
  induction l with
  | nil => intro g; exact nodes_from_refl _ _
  | cons item rest ih =>
    intro g
    simp only [initialize_triggers]
    refine nodes_from_trans ?_ (ih _)
    refine nodes_from_trans (nodes_from_add_node g _ _ ⟨item, rfl⟩)
      (nodes_from_nodes_eq ?_)
    exact build_base_edges_nodes _ _ _ _ _

theorem nodes_from_initialize_externs_aux (root : NodeIndex)
    (bootstrap finalize : Option NodeIndex)
    (types : List (PostgresTypeEntity × NodeIndex))
    (enums : List (PostgresEnumEntity × NodeIndex)) :
    ∀ (l : List PgExternEntity) (g : Graph) (m : List (String × NodeIndex)),
      nodes_from g
        (initialize_externs_aux root bootstrap finalize types enums g m l).1
        (fun e => (∃ it, e = SqlGraphEntity.function it) ∨ is_builtin_node e) := by
  intro l
  induction l with
  | nil => intro g m; exact nodes_from_refl _ _
  | cons item rest ih =>
    intro g m
    simp only [initialize_externs_aux]
    refine nodes_from_trans ?_ (ih _ _)
    let gb := build_base_edges (g.add_node (SqlGraphEntity.function item)).1
      (g.add_node (SqlGraphEntity.function item)).2 root bootstrap finalize
    let qa := init_arg_builtins types enums gb m item.fn_args
    refine nodes_from_trans (nodes_from_add_node g _ _ (Or.inl ⟨item, rfl⟩)) ?_
    refine nodes_from_trans
      (nodes_from_nodes_eq
        (build_base_edges_nodes (g.add_node (SqlGraphEntity.function item)).1
          (g.add_node (SqlGraphEntity.function item)).2 root bootstrap finalize)) ?_
    refine nodes_from_trans
      (nodes_from_mono (fun e he => Or.inr he)
        (nodes_from_init_arg_builtins types enums item.fn_args gb m))
      ?_
    exact nodes_from_mono (fun e he => Or.inr he)
      (nodes_from_init_return_builtins types enums qa.1 qa.2 item.fn_return)

theorem nodes_from_initialize_aggregates_aux (root : NodeIndex)
    (bootstrap finalize : Option NodeIndex)
    (enums : List (PostgresEnumEntity × NodeIndex))
    (types : List (PostgresTypeEntity × NodeIndex)) :
    ∀ (l : List PgAggregateEntity) (g : Graph) (m : List (String × NodeIndex)),
      nodes_from g
        (initialize_aggregates_aux root bootstrap finalize enums types g m l).1
        (fun e => (∃ it, e = SqlGraphEntity.aggregate it) ∨ is_builtin_node e) := by
  intro l
  induction l with
  | nil => intro g m; exact nodes_from_refl _ _
  | cons item rest ih =>
    intro g m
    simp only [initialize_aggregates_aux]
    refine nodes_from_trans ?_ (ih _ _)
    let qa := init_arg_builtins types enums (g.add_node (SqlGraphEntity.aggregate item)).1
      m item.args
    refine nodes_from_trans (nodes_from_add_node g _ _ (Or.inl ⟨item, rfl⟩)) ?_
    refine nodes_from_trans
      (nodes_from_mono (fun e he => Or.inr he)
        (nodes_from_init_arg_builtins types enums item.args
          (g.add_node (SqlGraphEntity.aggregate item)).1 m))
      ?_
    exact nodes_from_nodes_eq
      (build_base_edges_nodes qa.1 (g.add_node (SqlGraphEntity.aggregate item)).2 root
        bootstrap finalize)

theorem initialize_extension_sqls_nodes_mapped_mono :
    ∀ (l : List ExtensionSqlEntity) (g : Graph) (b f : Option NodeIndex)
      (mapped : List (ExtensionSqlEntity × NodeIndex)) q,
      initialize_extension_sqls_nodes g b f mapped l = .ok q →
      ∀ x ∈ mapped, x ∈ q.2.2.2 := by
  intro l
  induction l with
  | nil =>
    intro g b f mapped q h x hx
    cases h
    exact hx
  | cons item rest ih =>
    intro g b f mapped q h x hx
    rw [initialize_extension_sqls_nodes.eq_def] at h
    simp only [] at h
    split at h
    · cases h
    · split at h
      · cases h
      · exact ih _ _ _ _ _ h x (List.mem_append_left _ hx)

theorem initialize_extension_sqls_nodes_shape :
    ∀ (l : List ExtensionSqlEntity) (g : Graph) (b f : Option NodeIndex)
      (mapped : List (ExtensionSqlEntity × NodeIndex)) q,
      initialize_extension_sqls_nodes g b f mapped l = .ok q →
      ∀ i e, q.1.nodes.get? i = some e →
        g.nodes.get? i = some e ∨
          ∃ item, e = SqlGraphEntity.customSql item ∧ (item, i) ∈ q.2.2.2 := by
  intro l
  induction l with
  | nil =>
    intro g b f mapped q h i e hi
    cases h
    exact Or.inl hi
  | cons item rest ih =>
    intro g b f mapped q h i e hi
    rw [initialize_extension_sqls_nodes.eq_def] at h
    simp only [] at h
    split at h
    · cases h
    · split at h
      · cases h
      · rcases ih _ _ _ _ _ h i e hi with hold | hnew
        · simp only [Graph.add_node] at hold
          rw [get?_append_singleton] at hold
          split at hold
          · exact Or.inl hold
          · split at hold
            case isTrue heq =>
              cases hold
              refine Or.inr ⟨item, rfl, ?_⟩
              subst heq
              exact initialize_extension_sqls_nodes_mapped_mono _ _ _ _ _ _ h _
                (List.mem_append_right _ (List.mem_singleton.mpr rfl))
            · cases hold
        · exact Or.inr hnew

theorem nodes_from_initialize_extension_sqls {g : Graph} {root : NodeIndex}
    {l : List ExtensionSqlEntity} {q}
    (h : initialize_extension_sqls g root l = .ok q) :
    nodes_from g q.1 (fun e => ∃ item, e = SqlGraphEntity.customSql item) := by
  rw [initialize_extension_sqls.eq_def] at h
  split at h
  · cases h
  case h_2 g1 b1 f1 m1 heq =>
    cases h
    intro i e hi
    rw [extension_sql_base_edges_nodes] at hi
    rcases initialize_extension_sqls_nodes_shape l g none none [] _ heq i e hi with
      hold | ⟨item, he, -⟩
    · exact Or.inl hold
    · exact Or.inr ⟨item, he⟩

end PgxSqlModel

namespace PgxSqlModel

theorem root_edge_inv_of_edgeExtends {root : NodeIndex} {g g' : Graph}
    (hx : g'.EdgeExtends g) (h : root_edge_inv root g) : root_edge_inv root g' := by
  intro i e hi hc hb hs
  rw [hx.1] at hi
  exact hx.toExtends.edge_stable (h i e hi hc hb hs)

theorem root_edge_inv_add_node_excluded {root : NodeIndex} {g : Graph}
    (h : root_edge_inv root g) (e : SqlGraphEntity)
    (he : (∀ c, e ≠ SqlGraphEntity.extensionRoot c) →
      (∀ p, e ≠ SqlGraphEntity.builtinType p) →
      (∀ s, e ≠ SqlGraphEntity.schema s) → False) :
    root_edge_inv root (g.add_node e).1 := by
  intro i e' hi hc hb hs
  simp only [Graph.add_node] at hi
  rw [get?_append_singleton] at hi
  split at hi
  · exact h i e' hi hc hb hs
  · split at hi
    · cases hi
      exact (he hc hb hs).elim
    · cases hi

theorem build_base_edges_root_edge (g : Graph) (index root : NodeIndex)
    (bootstrap finalize : Option NodeIndex) :
    (root, index, SqlGraphRelationship.requiredBy)
      ∈ (build_base_edges g index root bootstrap finalize).edges := by
  simp only [build_base_edges]
  refine (opt_finalize_edge_edgeExtends _ finalize _).toExtends.edge_stable ?_
  refine (opt_bootstrap_edge_edgeExtends _ bootstrap _).toExtends.edge_stable ?_
  simp [Graph.add_edge]

theorem root_edge_inv_add_node_base_edges {root : NodeIndex} {g : Graph}
    (h : root_edge_inv root g) (e : SqlGraphEntity)
    (bootstrap finalize : Option NodeIndex) :
    root_edge_inv root
      (build_base_edges (g.add_node e).1 (g.add_node e).2 root bootstrap finalize) := by
  intro i e' hi hc hb hs
  rw [build_base_edges_nodes] at hi
  simp only [Graph.add_node] at hi
  rw [get?_append_singleton] at hi
  split at hi
  · refine (build_base_edges_edgeExtends _ _ _ _ _).toExtends.edge_stable ?_
    exact h i e' hi hc hb hs
  · split at hi
    case isTrue heq =>
      cases hi
      subst heq
      exact build_base_edges_root_edge _ _ _ _ _
    · cases hi

theorem root_edge_inv_builtin_entry {root : NodeIndex} {g : Graph}
    {m : List (String × NodeIndex)} {key : String} (h : root_edge_inv root g) :
    root_edge_inv root (builtin_entry g m key).1 := by
  cases hf : m.find? (fun p => p.1 == key) with
  | some p =>
    simpa only [builtin_entry, hf] using h
  | none =>
    simp only [builtin_entry, hf]
    exact root_edge_inv_add_node_excluded h _ (fun _ hb _ => hb key rfl)

theorem root_edge_inv_init_arg_builtins {root : NodeIndex}
    (types : List (PostgresTypeEntity × NodeIndex))
    (enums : List (PostgresEnumEntity × NodeIndex)) :
    ∀ (l : List PgExternArgumentEntity) (g : Graph) (m : List (String × NodeIndex)),
      root_edge_inv root g →
      root_edge_inv root (init_arg_builtins types enums g m l).1 := by
  intro l
  induction l with
  | nil => intro g m h; exact h
  | cons arg rest ih =>
    intro g m h
    simp only [init_arg_builtins]
    split
    · exact ih g m h
    · exact ih _ _ (root_edge_inv_builtin_entry h)

theorem root_edge_inv_init_iterated_builtins {root : NodeIndex}
    (types : List (PostgresTypeEntity × NodeIndex))
    (enums : List (PostgresEnumEntity × NodeIndex)) :
    ∀ (l : List UsedTypeEntity) (g : Graph) (m : List (String × NodeIndex)),
      root_edge_inv root g →
      root_edge_inv root (init_iterated_builtins types enums g m l).1 := by
  intro l
  induction l with
  | nil => intro g m h; exact h
  | cons ty rest ih =>
    intro g m h
    simp only [init_iterated_builtins]
    split
    · exact ih g m h
    · exact ih _ _ (root_edge_inv_builtin_entry h)

theorem root_edge_inv_init_return_builtins {root : NodeIndex}
    (types : List (PostgresTypeEntity × NodeIndex))
    (enums : List (PostgresEnumEntity × NodeIndex))
    (g : Graph) (m : List (String × NodeIndex)) (ret : PgExternReturnEntity)
    (h : root_edge_inv root g) :
    root_edge_inv root (init_return_builtins types enums g m ret).1 := by
  cases ret with
  | noneRet => exact h
  | trigger => exact h
  | type ty =>
    simp only [init_return_builtins]
    split
    · exact h
    · exact root_edge_inv_builtin_entry h
  | setOf ty =>
    simp only [init_return_builtins]
    split
    · exact h
    · exact root_edge_inv_builtin_entry h
  | iterated tys => exact root_edge_inv_init_iterated_builtins types enums tys g m h

theorem root_edge_inv_initialize_schemas {root : NodeIndex}
    (bootstrap finalize : Option NodeIndex) :
    ∀ (l : List SchemaEntity) (g : Graph), root_edge_inv root g →
      root_edge_inv root (initialize_schemas g bootstrap finalize l).1 := by
  intro l
  induction l with
  | nil => intro g h; exact h
  | cons item rest ih =>
    intro g h
    simp only [initialize_schemas]
    refine ih _ ?_
    refine root_edge_inv_of_edgeExtends ?_
      (root_edge_inv_add_node_excluded h _ (fun _ _ hs => hs item rfl))
    refine (opt_finalize_edge_edgeExtends _ finalize _).trans_ee ?_
    exact opt_bootstrap_edge_edgeExtends _ bootstrap _

theorem root_edge_inv_initialize_enums {root : NodeIndex}
    (bootstrap finalize : Option NodeIndex) :
    ∀ (l : List PostgresEnumEntity) (g : Graph), root_edge_inv root g →
      root_edge_inv root (initialize_enums g root bootstrap finalize l).1 := by
  intro l
  induction l with
  | nil => intro g h; exact h
  | cons item rest ih =>
    intro g h
    simp only [initialize_enums]
    exact ih _ (root_edge_inv_add_node_base_edges h _ _ _)

theorem root_edge_inv_initialize_types {root : NodeIndex}
    (bootstrap finalize : Option NodeIndex) :
    ∀ (l : List PostgresTypeEntity) (g : Graph), root_edge_inv root g →
      root_edge_inv root (initialize_types g root bootstrap finalize l).1 := by
  intro l
  induction l with
  | nil => intro g h; exact h
  | cons item rest ih =>
    intro g h
    simp only [initialize_types]
    exact ih _ (root_edge_inv_add_node_base_edges h _ _ _)

theorem root_edge_inv_initialize_ords {root : NodeIndex}
    (bootstrap finalize : Option NodeIndex) :
    ∀ (l : List PostgresOrdEntity) (g : Graph), root_edge_inv root g →
      root_edge_inv root (initialize_ords g root bootstrap finalize l).1 := by
  intro l
  induction l with
  | nil => intro g h; exact h
  | cons item rest ih =>
    intro g h
    simp only [initialize_ords]
    exact ih _ (root_edge_inv_add_node_base_edges h _ _ _)

theorem root_edge_inv_initialize_hashes {root : NodeIndex}
    (bootstrap finalize : Option NodeIndex) :
    ∀ (l : List PostgresHashEntity) (g : Graph), root_edge_inv root g →
      root_edge_inv root (initialize_hashes g root bootstrap finalize l).1 := by
  intro l
  induction l with
  | nil => intro g h; exact h
  | cons item rest ih =>
    intro g h
    simp only [initialize_hashes]
    exact ih _ (root_edge_inv_add_node_base_edges h _ _ _)

theorem root_edge_inv_initialize_triggers {root : NodeIndex}
    (bootstrap finalize : Option NodeIndex) :
    ∀ (l : List PgTriggerEntity) (g : Graph), root_edge_inv root g →
      root_edge_inv root (initialize_triggers g root bootstrap finalize l).1 := by
  intro l
  induction l with
  | nil => intro g h; exact h
  | cons item rest ih =>
    intro g h
    simp only [initialize_triggers]
    exact ih _ (root_edge_inv_add_node_base_edges h _ _ _)

theorem root_edge_inv_initialize_externs_aux {root : NodeIndex}
    (bootstrap finalize : Option NodeIndex)
    (types : List (PostgresTypeEntity × NodeIndex))
    (enums : List (PostgresEnumEntity × NodeIndex)) :
    ∀ (l : List PgExternEntity) (g : Graph) (m : List (String × NodeIndex)),
      root_edge_inv root g →
      root_edge_inv root
        (initialize_externs_aux root bootstrap finalize types enums g m l).1 := by
  intro l
  induction l with
  | nil => intro g m h; exact h
  | cons item rest ih =>
    intro g m h
    simp only [initialize_externs_aux]
    refine ih _ _ ?_
    refine root_edge_inv_init_return_builtins _ _ _ _ _ ?_
    refine root_edge_inv_init_arg_builtins _ _ _ _ _ ?_
    exact root_edge_inv_add_node_base_edges h _ _ _

theorem root_edge_inv_aggregate_step {root : NodeIndex} {g : Graph}
    (h : root_edge_inv root g) (item : PgAggregateEntity)
    (types : List (PostgresTypeEntity × NodeIndex))
    (enums : List (PostgresEnumEntity × NodeIndex))
    (m : List (String × NodeIndex)) (args : List PgExternArgumentEntity)
    (bootstrap finalize : Option NodeIndex) :
    root_edge_inv root
      (build_base_edges
        (init_arg_builtins types enums (g.add_node (.aggregate item)).1 m args).1
        (g.add_node (.aggregate item)).2 root bootstrap finalize) := by
  intro i e' hi hc hb hs
  rw [build_base_edges_nodes] at hi
  rcases nodes_from_init_arg_builtins types enums args
      (g.add_node (.aggregate item)).1 m i e' hi with hold | hnew
  · simp only [Graph.add_node] at hold
    rw [get?_append_singleton] at hold
    split at hold
    · refine (build_base_edges_edgeExtends _ _ _ _ _).toExtends.edge_stable ?_
      refine (init_arg_builtins_extends _ _ _ _ _).edge_stable ?_
      exact h i e' hold hc hb hs
    · split at hold
      case isTrue heq =>
        cases hold
        subst heq
        exact build_base_edges_root_edge _ _ _ _ _
      · cases hold
  · obtain ⟨p, hp⟩ := hnew
    exact absurd hp (hb p)

theorem root_edge_inv_initialize_aggregates_aux {root : NodeIndex}
    (bootstrap finalize : Option NodeIndex)
    (enums : List (PostgresEnumEntity × NodeIndex))
    (types : List (PostgresTypeEntity × NodeIndex)) :
    ∀ (l : List PgAggregateEntity) (g : Graph) (m : List (String × NodeIndex)),
      root_edge_inv root g →
      root_edge_inv root
        (initialize_aggregates_aux root bootstrap finalize enums types g m l).1 := by
  intro l
  induction l with
  | nil => intro g m h; exact h
  | cons item rest ih =>
    intro g m h
    simp only [initialize_aggregates_aux]
    exact ih _ _ (root_edge_inv_aggregate_step h item types enums m item.args
      bootstrap finalize)

theorem extension_sql_base_edges_root_edge (root : NodeIndex)
    (bootstrap finalize : Option NodeIndex) :
    ∀ (l : List (ExtensionSqlEntity × NodeIndex)) (g : Graph)
      (x : ExtensionSqlEntity × NodeIndex), x ∈ l →
      (root, x.2, SqlGraphRelationship.requiredBy)
        ∈ (extension_sql_base_edges root bootstrap finalize g l).edges := by
  intro l
  induction l with
  | nil => intro g x hx; cases hx
  | cons p rest ih =>
    intro g x hx
    obtain ⟨item, index⟩ := p
    simp only [extension_sql_base_edges]
    rcases List.mem_cons.mp hx with rfl | hx'
    · refine (extension_sql_base_edges_edgeExtends _ _ _ _ _).toExtends.edge_stable ?_
      refine (Graph.EdgeExtends.ite_post _ (opt_finalize_edge_edgeExtends _ finalize _)
        (Graph.EdgeExtends.refl_ee _)).toExtends.edge_stable ?_
      refine (Graph.EdgeExtends.ite_post _ (opt_bootstrap_edge_edgeExtends _ bootstrap _)
        (Graph.EdgeExtends.refl_ee _)).toExtends.edge_stable ?_
      simp [Graph.add_edge]
    · exact ih _ _ hx'

theorem root_edge_inv_initialize_extension_sqls {root : NodeIndex} {g : Graph}
    {l : List ExtensionSqlEntity} {q}
    (h : initialize_extension_sqls g root l = .ok q)
    (hinv : root_edge_inv root g) : root_edge_inv root q.1 := by
  rw [initialize_extension_sqls.eq_def] at h
  split at h
  · cases h
  case h_2 g1 b1 f1 m1 heq =>
    cases h
    intro i e hi hc hb hs
    rw [extension_sql_base_edges_nodes] at hi
    rcases initialize_extension_sqls_nodes_shape l g none none [] _ heq i e hi with
      hold | ⟨item, rfl, hmem⟩
    · refine (extension_sql_base_edges_edgeExtends _ _ _ _ _).toExtends.edge_stable ?_
      refine (initialize_extension_sqls_nodes_extends l g none none [] _ heq).edge_stable
        ?_
      exact hinv i e hold hc hb hs
    · exact extension_sql_base_edges_root_edge root b1 f1 m1 g1 (item, i) hmem

end PgxSqlModel

namespace PgxSqlModel

theorem schema_complete_nodes_eq {nodes nodes' : List SqlGraphEntity}
    {m : List (SchemaEntity × NodeIndex)} (hn : nodes' = nodes)
    (h : schema_complete nodes m) : schema_complete nodes' m := hn ▸ h

theorem schema_complete_weaken {nodes : List SqlGraphEntity}
    {m m' : List (SchemaEntity × NodeIndex)} (hsub : ∀ x ∈ m, x ∈ m')
    (h : schema_complete nodes m) : schema_complete nodes m' :=
  fun i s hi => hsub _ (h i s hi)

theorem schema_complete_add_schema {g : Graph} {m : List (SchemaEntity × NodeIndex)}
    (h : schema_complete g.nodes m) (item : SchemaEntity) :
    schema_complete (g.nodes ++ [SqlGraphEntity.schema item])
      ((item, g.nodes.length) :: m) := by
  intro i s hi
  rw [get?_append_singleton] at hi
  split at hi
  · exact List.mem_cons_of_mem _ (h i s hi)
  · split at hi
    case isTrue heq =>
      cases hi
      subst heq
      exact List.mem_cons_self _ _
    · cases hi

theorem initialize_schemas_complete (bootstrap finalize : Option NodeIndex) :
    ∀ (l : List SchemaEntity) (g : Graph) (m : List (SchemaEntity × NodeIndex)),
      schema_complete g.nodes m →
      schema_complete (initialize_schemas g bootstrap finalize l).1.nodes
        ((initialize_schemas g bootstrap finalize l).2 ++ m) := by
  intro l
  induction l with
  | nil => intro g m h; exact h
  | cons item rest ih =>
    intro g m h
    simp only [initialize_schemas]
    refine schema_complete_weaken ?_
      (ih _ ((item, (g.add_node (SqlGraphEntity.schema item)).2) :: m)
        (schema_complete_nodes_eq ?_ (schema_complete_add_schema h item)))
    · intro x hx
      simp only [List.mem_append, List.mem_cons] at hx ⊢
      tauto
    · cases bootstrap <;> cases finalize <;> rfl

theorem root_unique_preserve {root : NodeIndex} {g g' : Graph}
    {P : SqlGraphEntity → Prop} (hf : nodes_from g g' P)
    (hP : ∀ c, ¬ P (SqlGraphEntity.extensionRoot c))
    (h : root_unique root g.nodes) : root_unique root g'.nodes := by
  intro i c hi
  rcases hf i _ hi with hold | hnew
  · exact h i c hold
  · exact absurd hnew (hP c)

theorem schema_complete_preserve {g g' : Graph} {m : List (SchemaEntity × NodeIndex)}
    {P : SqlGraphEntity → Prop} (hf : nodes_from g g' P)
    (hP : ∀ s, ¬ P (SqlGraphEntity.schema s))
    (h : schema_complete g.nodes m) : schema_complete g'.nodes m := by
  intro i s hi
  rcases hf i _ hi with hold | hnew
  · exact h i s hold
  · exact absurd hnew (hP s)

theorem init_phase_root_inv {control : ControlFile} {bs : Buckets} {st : InitState}
    (h : init_phase control bs = .ok st) :
    root_edge_inv st.root st.g ∧ schema_complete st.g.nodes st.schemas ∧
    root_unique st.root st.g.nodes ∧
    st.g.nodes.get? st.root = some (.extensionRoot control) := by
  have hrfinal := (init_phase_st_extends h).get?_stable
    (show (empty_graph.add_node (.extensionRoot control)).1.nodes.get?
      (empty_graph.add_node (.extensionRoot control)).2
        = some (.extensionRoot control) from rfl)
  obtain ⟨q, hq, hstrec⟩ := init_phase_ok_inv h
  subst hstrec
  let rt := (empty_graph.add_node (SqlGraphEntity.extensionRoot control)).2
  let g0 := (empty_graph.add_node (SqlGraphEntity.extensionRoot control)).1
  have hg0 : ∀ (i : Nat) (e : SqlGraphEntity), g0.nodes.get? i = some e →
      i = 0 ∧ e = SqlGraphEntity.extensionRoot control := by
    intro i e hi
    cases i with
    | zero =>
      cases hi
      exact ⟨rfl, rfl⟩
    | succ n => cases hi
  have re0 : root_edge_inv rt g0 := by
    intro i e hi hc hb hs
    exact absurd (hg0 i e hi).2 (hc control)
  have re1 := root_edge_inv_initialize_extension_sqls hq re0
  let b := q.2.2.1
  let f := q.2.2.2
  let ps := initialize_schemas q.1 b f bs.schemas
  let pe := initialize_enums ps.1 rt b f bs.enums
  let pt := initialize_types pe.1 rt b f bs.types
  have re2 := root_edge_inv_initialize_schemas b f bs.schemas q.1 re1
  have re3 := root_edge_inv_initialize_enums b f bs.enums ps.1 re2
  have re4 := root_edge_inv_initialize_types b f bs.types pe.1 re3
  have re5 := root_edge_inv_initialize_externs_aux b f pt.2 pe.2 bs.externs pt.1 [] re4
  let px := initialize_externs_aux rt b f pt.2 pe.2 pt.1 [] bs.externs
  have re6 := root_edge_inv_initialize_ords b f bs.ords px.1 re5
  let po := initialize_ords px.1 rt b f bs.ords
  have re7 := root_edge_inv_initialize_hashes b f bs.hashes po.1 re6
  let ph := initialize_hashes po.1 rt b f bs.hashes
  have re8 := root_edge_inv_initialize_aggregates_aux b f pe.2 pt.2 bs.aggregates
    ph.1 px.2.2 re7
  let pa := initialize_aggregates_aux rt b f pe.2 pt.2 ph.1 px.2.2 bs.aggregates
  have re9 := root_edge_inv_initialize_triggers b f bs.triggers pa.1 re8
  have sc0 : schema_complete q.1.nodes ([] : List (SchemaEntity × NodeIndex)) := by
    intro i s hi
    rcases nodes_from_initialize_extension_sqls hq i _ hi with hold | ⟨item, he⟩
    · have he2 := (hg0 i _ hold).2
      cases he2
    · cases he
  have sc1 := initialize_schemas_complete b f bs.schemas q.1 [] sc0
  rw [List.append_nil] at sc1
  have sc2 := schema_complete_preserve (nodes_from_initialize_enums rt b f bs.enums ps.1)
    (fun s hx => by obtain ⟨it, he⟩ := hx; cases he) sc1
  have sc3 := schema_complete_preserve (nodes_from_initialize_types rt b f bs.types pe.1)
    (fun s hx => by obtain ⟨it, he⟩ := hx; cases he) sc2
  have sc4 := schema_complete_preserve
    (nodes_from_initialize_externs_aux rt b f pt.2 pe.2 bs.externs pt.1 [])
    (fun s hx => by rcases hx with ⟨it, he⟩ | ⟨p, he⟩ <;> cases he) sc3
  have sc5 := schema_complete_preserve (nodes_from_initialize_ords rt b f bs.ords px.1)
    (fun s hx => by obtain ⟨it, he⟩ := hx; cases he) sc4
  have sc6 := schema_complete_preserve
    (nodes_from_initialize_hashes rt b f bs.hashes po.1)
    (fun s hx => by obtain ⟨it, he⟩ := hx; cases he) sc5
  have sc7 := schema_complete_preserve
    (nodes_from_initialize_aggregates_aux rt b f pe.2 pt.2 bs.aggregates ph.1 px.2.2)
    (fun s hx => by rcases hx with ⟨it, he⟩ | ⟨p, he⟩ <;> cases he) sc6
  have sc8 := schema_complete_preserve
    (nodes_from_initialize_triggers rt b f bs.triggers pa.1)
    (fun s hx => by obtain ⟨it, he⟩ := hx; cases he) sc7
  have ru0 : root_unique rt g0.nodes := by
    intro i c hi
    exact (hg0 i _ hi).1
  have ru1 := root_unique_preserve (nodes_from_initialize_extension_sqls hq)
    (fun c hx => by obtain ⟨it, he⟩ := hx; cases he) ru0
  have ru2 := root_unique_preserve (nodes_from_initialize_schemas b f bs.schemas q.1)
    (fun c hx => by obtain ⟨it, he⟩ := hx; cases he) ru1
  have ru3 := root_unique_preserve (nodes_from_initialize_enums rt b f bs.enums ps.1)
    (fun c hx => by obtain ⟨it, he⟩ := hx; cases he) ru2
  have ru4 := root_unique_preserve (nodes_from_initialize_types rt b f bs.types pe.1)
    (fun c hx => by obtain ⟨it, he⟩ := hx; cases he) ru3
  have ru5 := root_unique_preserve
    (nodes_from_initialize_externs_aux rt b f pt.2 pe.2 bs.externs pt.1 [])
    (fun c hx => by rcases hx with ⟨it, he⟩ | ⟨p, he⟩ <;> cases he) ru4
  have ru6 := root_unique_preserve (nodes_from_initialize_ords rt b f bs.ords px.1)
    (fun c hx => by obtain ⟨it, he⟩ := hx; cases he) ru5
  have ru7 := root_unique_preserve (nodes_from_initialize_hashes rt b f bs.hashes po.1)
    (fun c hx => by obtain ⟨it, he⟩ := hx; cases he) ru6
  have ru8 := root_unique_preserve
    (nodes_from_initialize_aggregates_aux rt b f pe.2 pt.2 bs.aggregates ph.1 px.2.2)
    (fun c hx => by rcases hx with ⟨it, he⟩ | ⟨p, he⟩ <;> cases he) ru7
  have ru9 := root_unique_preserve (nodes_from_initialize_triggers rt b f bs.triggers pa.1)
    (fun c hx => by obtain ⟨it, he⟩ := hx; cases he) ru8
  exact ⟨re9, sc8, ru9, hrfinal⟩

end PgxSqlModel

namespace PgxSqlModel

theorem connect_schemas_root_edge :
    ∀ (l : List (SchemaEntity × NodeIndex)) (g : Graph) (root : NodeIndex)
      (x : SchemaEntity × NodeIndex), x ∈ l →
      (root, x.2, SqlGraphRelationship.requiredBy)
        ∈ (connect_schemas g l root).edges := by
  intro l
  induction l with
  | nil => intro g root x hx; cases hx
  | cons p rest ih =>
    intro g root x hx
    obtain ⟨item, index⟩ := p
    simp only [connect_schemas]
    rcases List.mem_cons.mp hx with rfl | hx'
    · refine (connect_schemas_edgeExtends _ _ _).toExtends.edge_stable ?_
      simp [Graph.add_edge]
    · exact ih _ _ _ hx'

theorem connect_phase_post_schemas (st : InitState) (g : Graph)
    (h : connect_phase st = .ok g) :
    ∀ x ∈ (connect_schemas st.g st.schemas st.root).edges, x ∈ g.edges := by
  simp only [connect_phase, connect_extension_sqls, connect_externs, connect_ords,
    connect_hashes, connect_aggregates] at h
  split at h
  case h_1 e heq => cases h
  case h_2 g1 heq1 =>
    split at h
    case h_1 e heq => cases h
    case h_2 g2 heq2 =>
      split at h
      case h_1 e heq => cases h
      case h_2 g3 heq3 =>
        cases h
        intro x hx
        refine (connect_triggers_edgeExtends _ _ _).toExtends.edge_stable ?_
        refine (connect_aggregates_aux_edgeExtends _ _ _ _ _ _ _ _
          heq3).toExtends.edge_stable ?_
        refine (connect_hashes_aux_edgeExtends _ _ _ _ _ _).toExtends.edge_stable ?_
        refine (connect_ords_aux_edgeExtends _ _ _ _ _ _).toExtends.edge_stable ?_
        refine (connect_externs_aux_edgeExtends _ _ _ _ _ _ _ _ _ _ _
          heq2).toExtends.edge_stable ?_
        refine (connect_types_edgeExtends _ _ _).toExtends.edge_stable ?_
        refine (connect_enums_edgeExtends _ _ _).toExtends.edge_stable ?_
        exact (connect_extension_sqls_aux_edgeExtends _ _ _ _ _ _ _ _ _
          heq1).toExtends.edge_stable hx

/-- C6 (amended): every successful build has exactly one `ExtensionRoot` node
(it sits at the recorded root index, and any node holding an `ExtensionRoot`
payload is that index), and every node other than the root and the synthesized
`BuiltinType` placeholder nodes has an incoming `RequiredBy` edge from the
root; builtin placeholders receive no root edge. -/
theorem claim_c6_root_edges (entities : List SqlGraphEntity) (s : PgxSql)
    (h : build entities = .ok s) :
    (∃ c, s.graph.nodes.get? s.graph_root = some (.extensionRoot c)) ∧
    (∀ i c, s.graph.nodes.get? i = some (.extensionRoot c) → i = s.graph_root) ∧
    (∀ i e, s.graph.nodes.get? i = some e →
      (∀ c, e ≠ SqlGraphEntity.extensionRoot c) →
      (∀ p, e ≠ SqlGraphEntity.builtinType p) →
      (s.graph_root, i, SqlGraphRelationship.requiredBy) ∈ s.graph.edges) := by
  obtain ⟨control, st, g, hc, hst, hg, hrec⟩ := build_ok_inv h
  obtain ⟨hedge, hsc, hru, hr0⟩ := init_phase_root_inv hst
  have hnodes : g.nodes = st.g.nodes := (connect_phase_edgeExtends st g hg).1
  subst hrec
  refine ⟨?_, ?_, ?_⟩
  · show ∃ c, g.nodes.get? st.root = some (SqlGraphEntity.extensionRoot c)
    rw [hnodes]
    exact ⟨control, hr0⟩
  · show ∀ i c, g.nodes.get? i = some (SqlGraphEntity.extensionRoot c) → i = st.root
    intro i c hi
    rw [hnodes] at hi
    exact hru i c hi
  · show ∀ i e, g.nodes.get? i = some e →
      (∀ c, e ≠ SqlGraphEntity.extensionRoot c) →
      (∀ p, e ≠ SqlGraphEntity.builtinType p) →
      (st.root, i, SqlGraphRelationship.requiredBy) ∈ g.edges
    intro i e hi hcne hbne
    rw [hnodes] at hi
    cases e with
    | schema sc =>
      exact connect_phase_post_schemas st g hg _
        (connect_schemas_root_edge st.schemas st.g st.root (sc, i) (hsc i sc hi))
    | extensionRoot c => exact absurd rfl (hcne c)
    | builtinType p => exact absurd rfl (hbne p)
    | customSql item =>
      exact (connect_phase_edgeExtends st g hg).toExtends.edge_stable
        (hedge i _ hi hcne hbne (fun s hx => by cases hx))
    | function item =>
      exact (connect_phase_edgeExtends st g hg).toExtends.edge_stable
        (hedge i _ hi hcne hbne (fun s hx => by cases hx))
    | type item =>
      exact (connect_phase_edgeExtends st g hg).toExtends.edge_stable
        (hedge i _ hi hcne hbne (fun s hx => by cases hx))
    | enum item =>
      exact (connect_phase_edgeExtends st g hg).toExtends.edge_stable
        (hedge i _ hi hcne hbne (fun s hx => by cases hx))
    | ord item =>
      exact (connect_phase_edgeExtends st g hg).toExtends.edge_stable
        (hedge i _ hi hcne hbne (fun s hx => by cases hx))
    | hash item =>
      exact (connect_phase_edgeExtends st g hg).toExtends.edge_stable
        (hedge i _ hi hcne hbne (fun s hx => by cases hx))
    | aggregate item =>
      exact (connect_phase_edgeExtends st g hg).toExtends.edge_stable
        (hedge i _ hi hcne hbne (fun s hx => by cases hx))
    | trigger item =>
      exact (connect_phase_edgeExtends st g hg).toExtends.edge_stable
        (hedge i _ hi hcne hbne (fun s hx => by cases hx))

/-- A function taking an argument of an undeclared type (so the build
synthesizes a `BuiltinType` placeholder node). -/
def c6_fn : PgExternEntity :=
  { name := "f", unaliased_name := "f", module_path := "m", full_path := "m::f",
    extern_attrs := [],
    fn_args := [{ used_ty := { ty_id := 7, full_path := "u::T", ty_source := "u::T" } }],
    fn_return := .noneRet }

/-- The C6 counterexample input. -/
def c6_ce_input : List SqlGraphEntity :=
  [.extensionRoot example_control, .function c6_fn]

/-- The decidable check evaluated on the counterexample's build result. -/
def c6_check : Except BuildError PgxSql → Bool
  | .error _ => false
  | .ok s =>
    decide (s.graph.nodes.get? 2 = some (.builtinType "u::T")) &&
      !decide ((0, 2, SqlGraphRelationship.requiredBy) ∈ s.graph.edges)

/-- C6 counterexample: the original claim includes "nodes synthesized during
construction", but the synthesized `BuiltinType` placeholder (node 2 here) has
no incoming root edge in a successful build. -/
theorem claim_c6_counterexample :
    ∃ s, build c6_ce_input = .ok s ∧
      s.graph.nodes.get? 2 = some (.builtinType "u::T") ∧
      (0, 2, SqlGraphRelationship.requiredBy) ∉ s.graph.edges := by
  cases hb : build c6_ce_input with
  | error e =>
    have hok : (build c6_ce_input).isOk = true := by decide
    rw [hb] at hok
    cases hok
  | ok s =>
    have hcheck : c6_check (build c6_ce_input) = true := by decide
    rw [hb] at hcheck
    simp only [c6_check, Bool.and_eq_true, decide_eq_true_eq, Bool.not_eq_true',
      decide_eq_false_iff_not] at hcheck
    exact ⟨s, rfl, hcheck.1, hcheck.2⟩

/-- A schema declaration used by the C6 witness. -/
def c6_schema : SchemaEntity := { module_path := "m::sch", name := "sch" }

theorem claim_c6_witness :
    ∃ s, build [.extensionRoot example_control, .schema c6_schema, .function c5_fn]
        = .ok s ∧
      (∃ c, s.graph.nodes.get? s.graph_root = some (.extensionRoot c)) ∧
      (∀ i c, s.graph.nodes.get? i = some (.extensionRoot c) → i = s.graph_root) := by
  cases hb : build [.extensionRoot example_control, .schema c6_schema,
      .function c5_fn] with
  | error e =>
    have hok : (build [.extensionRoot example_control, .schema c6_schema,
        .function c5_fn]).isOk = true := by decide
    rw [hb] at hok
    cases hok
  | ok s =>
    have hres := claim_c6_root_edges _ s hb
    exact ⟨s, rfl, hres.1, hres.2.1⟩

end PgxSqlModel

namespace PgxSqlModel

/-- The name declared by the first `Schema` attribute, if any. -/
def first_schema_attr : List ExternArgs → Option String
  | [] => none
  | .schema d :: _ => some d
  | .requiresRefs _ :: rest => first_schema_attr rest
  | .other :: rest => first_schema_attr rest

theorem add_schema_name_edges_mem (index : NodeIndex) (declared : String) :
    ∀ (l : List (SchemaEntity × NodeIndex)) (g : Graph) (s : SchemaEntity × NodeIndex),
      s ∈ l → (s.1.name == declared) = true →
      (s.2, index, SqlGraphRelationship.requiredBy)
        ∈ (add_schema_name_edges index declared g l).edges := by
  intro l
  induction l with
  | nil => intro g s hs _; cases hs
  | cons p rest ih =>
    intro g s hs hname
    simp only [add_schema_name_edges]
    rcases List.mem_cons.mp hs with rfl | hs'
    · refine (add_schema_name_edges_edgeExtends _ _ _ _).toExtends.edge_stable ?_
      rw [if_pos hname]
      simp [Graph.add_edge]
    · exact ih _ s hs' hname

theorem connect_externs_attrs_schema_edges (ident : String) (index : NodeIndex)
    (types : List (PostgresTypeEntity × NodeIndex))
    (enums : List (PostgresEnumEntity × NodeIndex))
    (externs : List (PgExternEntity × NodeIndex))
    (schemas : List (SchemaEntity × NodeIndex))
    (extension_sqls : List (ExtensionSqlEntity × NodeIndex))
    (triggers : List (PgTriggerEntity × NodeIndex)) :
    ∀ (attrs : List ExternArgs) (g : Graph) (found : Bool) (q : Graph × Bool),
      connect_externs_attrs ident index types enums externs schemas extension_sqls
        triggers g found attrs = .ok q →
      ∀ d, ExternArgs.schema d ∈ attrs → ∀ s ∈ schemas, (s.1.name == d) = true →
        (s.2, index, SqlGraphRelationship.requiredBy) ∈ q.1.edges := by
  intro attrs
  induction attrs with
  | nil =>
    intro g found q h d hd
    cases hd
  | cons attr rest ih =>
    intro g found q h d hd s hsmem hname
    cases attr with
    | requiresRefs refs =>
      simp only [connect_externs_attrs] at h
      split at h
      case h_1 e heq => cases h
      case h_2 g2 heq =>
        rcases List.mem_cons.mp hd with hd0 | hd'
        · cases hd0
        · exact ih _ _ _ h d hd' s hsmem hname
    | schema declared =>
      simp only [connect_externs_attrs] at h
      split at h
      · cases h
      · rcases List.mem_cons.mp hd with hd0 | hd'
        · cases hd0
          refine (connect_externs_attrs_edgeExtends _ _ _ _ _ _ _ _ _ _ _ _
            h).toExtends.edge_stable ?_
          exact add_schema_name_edges_mem index d schemas g s hsmem hname
        · exact ih _ _ _ h d hd' s hsmem hname
    | other =>
      simp only [connect_externs_attrs] at h
      rcases List.mem_cons.mp hd with hd0 | hd'
      · cases hd0
      · exact ih _ _ _ h d hd' s hsmem hname

theorem connect_externs_attrs_found_mono (ident : String) (index : NodeIndex)
    (types : List (PostgresTypeEntity × NodeIndex))
    (enums : List (PostgresEnumEntity × NodeIndex))
    (externs : List (PgExternEntity × NodeIndex))
    (schemas : List (SchemaEntity × NodeIndex))
    (extension_sqls : List (ExtensionSqlEntity × NodeIndex))
    (triggers : List (PgTriggerEntity × NodeIndex)) :
    ∀ (attrs : List ExternArgs) (g : Graph) (q : Graph × Bool),
      connect_externs_attrs ident index types enums externs schemas extension_sqls
        triggers g true attrs = .ok q → q.2 = true := by
  intro attrs
  induction attrs with
  | nil =>
    intro g q h
    cases h
    rfl
  | cons attr rest ih =>
    intro g q h
    cases attr with
    | requiresRefs refs =>
      simp only [connect_externs_attrs] at h
      split at h
      case h_1 e heq => cases h
      case h_2 g2 heq => exact ih _ _ h
    | schema declared =>
      simp only [connect_externs_attrs, Bool.true_or, Bool.not_true] at h
      split at h
      case isTrue hcond => cases h
      case isFalse hcond => exact ih _ _ h
    | other =>
      simp only [connect_externs_attrs] at h
      exact ih _ _ h

theorem connect_externs_attrs_first_schema (ident : String) (index : NodeIndex)
    (types : List (PostgresTypeEntity × NodeIndex))
    (enums : List (PostgresEnumEntity × NodeIndex))
    (externs : List (PgExternEntity × NodeIndex))
    (schemas : List (SchemaEntity × NodeIndex))
    (extension_sqls : List (ExtensionSqlEntity × NodeIndex))
    (triggers : List (PgTriggerEntity × NodeIndex)) :
    ∀ (attrs : List ExternArgs) (g : Graph) (q : Graph × Bool),
      connect_externs_attrs ident index types enums externs schemas extension_sqls
        triggers g false attrs = .ok q →
      ∀ d, first_schema_attr attrs = some d →
        schemas.any (fun s => s.1.name == d) = true ∧ q.2 = true := by
  intro attrs
  induction attrs with
  | nil =>
    intro g q h d hd
    cases hd
  | cons attr rest ih =>
    intro g q h d hd
    cases attr with
    | requiresRefs refs =>
      simp only [connect_externs_attrs] at h
      simp only [first_schema_attr] at hd
      split at h
      case h_1 e heq => cases h
      case h_2 g2 heq => exact ih _ _ h d hd
    | schema declared =>
      simp only [first_schema_attr] at hd
      cases hd
      simp only [connect_externs_attrs, Bool.false_or] at h
      split at h
      case isTrue hcond => cases h
      case isFalse hcond =>
        have hany : schemas.any (fun s => s.1.name == d) = true := by
          simpa using hcond
        rw [hany] at h
        exact ⟨hany, connect_externs_attrs_found_mono _ _ _ _ _ _ _ _ rest _ _ h⟩
    | other =>
      simp only [connect_externs_attrs] at h
      simp only [first_schema_attr] at hd
      exact ih _ _ h d hd

end PgxSqlModel

namespace PgxSqlModel

theorem connect_extern_item_schema (g : Graph) (item : PgExternEntity)
    (index : NodeIndex)
    (hashes : List (PostgresHashEntity × NodeIndex))
    (schemas : List (SchemaEntity × NodeIndex))
    (types : List (PostgresTypeEntity × NodeIndex))
    (enums : List (PostgresEnumEntity × NodeIndex))
    (builtin_types : List (String × NodeIndex))
    (extension_sqls : List (ExtensionSqlEntity × NodeIndex))
    (triggers : List (PgTriggerEntity × NodeIndex))
    (externs : List (PgExternEntity × NodeIndex)) (g' : Graph)
    (h : connect_extern_item g item index hashes schemas types enums builtin_types
      extension_sqls triggers externs = .ok g') :
    (∀ d, ExternArgs.schema d ∈ item.extern_attrs → ∀ s ∈ schemas,
      (s.1.name == d) = true →
      (s.2, index, SqlGraphRelationship.requiredBy) ∈ g'.edges) ∧
    (∀ d, first_schema_attr item.extern_attrs = some d →
      schemas.any (fun s => s.1.name == d) = true) := by
  simp only [connect_extern_item] at h
  cases hattrs : connect_externs_attrs item.name index types enums externs schemas
      extension_sqls triggers g false item.extern_attrs with
  | error e =>
    simp only [hattrs] at h
    cases h
  | ok q =>
    simp only [hattrs] at h
    obtain ⟨g1, found⟩ := q
    split at h
    case h_1 e heq => cases h
    case h_2 g2 heq =>
      constructor
      · intro d hd s hsmem hname
        have hedge := connect_externs_attrs_schema_edges _ _ _ _ _ _ _ _ _ _ _ _
          hattrs d hd s hsmem hname
        refine (connect_extern_return_edgeExtends _ _ _ _ _ _ _ _
          h).toExtends.edge_stable ?_
        refine (connect_extern_args_edgeExtends _ _ _ _ _ _ _ _
          heq).toExtends.edge_stable ?_
        refine (connect_externs_hashes_edgeExtends item index hashes
          _).toExtends.edge_stable ?_
        split
        · exact (make_schema_connection_edgeExtends _ _ _ _).toExtends.edge_stable hedge
        · exact hedge
      · intro d hd
        exact (connect_externs_attrs_first_schema _ _ _ _ _ _ _ _ _ _ _ hattrs d hd).1

theorem connect_externs_aux_schema
    (hashes : List (PostgresHashEntity × NodeIndex))
    (schemas : List (SchemaEntity × NodeIndex))
    (types : List (PostgresTypeEntity × NodeIndex))
    (enums : List (PostgresEnumEntity × NodeIndex))
    (builtin_types : List (String × NodeIndex))
    (extension_sqls : List (ExtensionSqlEntity × NodeIndex))
    (triggers : List (PgTriggerEntity × NodeIndex))
    (externs : List (PgExternEntity × NodeIndex)) :
    ∀ (l : List (PgExternEntity × NodeIndex)) (g g' : Graph),
      connect_externs_aux hashes schemas types enums builtin_types extension_sqls
        triggers externs g l = .ok g' →
      ∀ p ∈ l,
        (∀ d, ExternArgs.schema d ∈ p.1.extern_attrs → ∀ s ∈ schemas,
          (s.1.name == d) = true →
          (s.2, p.2, SqlGraphRelationship.requiredBy) ∈ g'.edges) ∧
        (∀ d, first_schema_attr p.1.extern_attrs = some d →
          schemas.any (fun s => s.1.name == d) = true) := by
  intro l
  induction l with
  | nil =>
    intro g g' h p hp
    cases hp
  | cons q rest ih =>
    intro g g' h p hp
    obtain ⟨item, index⟩ := q
    simp only [connect_externs_aux] at h
    split at h
    case h_1 e heq => cases h
    case h_2 g2 heq =>
      rcases List.mem_cons.mp hp with rfl | hp'
      · obtain ⟨hedges, hfirst⟩ :=
          connect_extern_item_schema _ _ _ _ _ _ _ _ _ _ _ _ heq
        refine ⟨fun d hd s hsmem hname => ?_, hfirst⟩
        exact (connect_externs_aux_edgeExtends _ _ _ _ _ _ _ _ _ _ _
          h).toExtends.edge_stable (hedges d hd s hsmem hname)
      · exact ih _ _ h p hp'

theorem connect_phase_schema_attrs (st : InitState) (g : Graph)
    (h : connect_phase st = .ok g) :
    ∀ p ∈ st.externs,
      (∀ d, ExternArgs.schema d ∈ p.1.extern_attrs → ∀ s ∈ st.schemas,
        (s.1.name == d) = true →
        (s.2, p.2, SqlGraphRelationship.requiredBy) ∈ g.edges) ∧
      (∀ d, first_schema_attr p.1.extern_attrs = some d →
        st.schemas.any (fun s => s.1.name == d) = true) := by
  simp only [connect_phase, connect_extension_sqls, connect_externs, connect_ords,
    connect_hashes, connect_aggregates] at h
  split at h
  case h_1 e heq => cases h
  case h_2 g1 heq1 =>
    split at h
    case h_1 e heq => cases h
    case h_2 g2 heq2 =>
      split at h
      case h_1 e heq => cases h
      case h_2 g3 heq3 =>
        cases h
        intro p hp
        obtain ⟨hedges, hfirst⟩ :=
          connect_externs_aux_schema _ _ _ _ _ _ _ _ st.externs _ _ heq2 p hp
        refine ⟨fun d hd s hsmem hname => ?_, hfirst⟩
        refine (connect_triggers_edgeExtends _ _ _).toExtends.edge_stable ?_
        refine (connect_aggregates_aux_edgeExtends _ _ _ _ _ _ _ _
          heq3).toExtends.edge_stable ?_
        refine (connect_hashes_aux_edgeExtends _ _ _ _ _ _).toExtends.edge_stable ?_
        refine (connect_ords_aux_edgeExtends _ _ _ _ _ _).toExtends.edge_stable ?_
        exact hedges d hd s hsmem hname

theorem connect_extern_item_skips_path_schema (g : Graph) (item : PgExternEntity)
    (index : NodeIndex)
    (hashes : List (PostgresHashEntity × NodeIndex))
    (schemas : List (SchemaEntity × NodeIndex))
    (types : List (PostgresTypeEntity × NodeIndex))
    (enums : List (PostgresEnumEntity × NodeIndex))
    (builtin_types : List (String × NodeIndex))
    (extension_sqls : List (ExtensionSqlEntity × NodeIndex))
    (triggers : List (PgTriggerEntity × NodeIndex))
    (externs : List (PgExternEntity × NodeIndex)) (g1 : Graph)
    (h : connect_externs_attrs item.name index types enums externs schemas
      extension_sqls triggers g false item.extern_attrs = .ok (g1, true)) :
    connect_extern_item g item index hashes schemas types enums builtin_types
        extension_sqls triggers externs =
      (match connect_extern_args index types enums builtin_types extension_sqls
          (connect_externs_hashes item index g1 hashes) item.fn_args with
        | .error e => .error e
        | .ok g2 => connect_extern_return index types enums builtin_types
            extension_sqls g2 item.fn_return) := by
  simp only [connect_extern_item, h, Bool.not_true, Bool.false_eq_true, if_false]

end PgxSqlModel

namespace PgxSqlModel

/-- C7 (amended): for functions with explicit `Schema` attributes, every
declared schema whose name matches any `Schema` attribute precedes the
function with a `RequiredBy` edge, and schema-membership-by-module-path is
skipped once a `Schema` attribute has matched; but only the FIRST `Schema`
attribute is required to match a declared schema (a later unmatched attribute
does not fail the build, because the found flag is never reset). -/
theorem claim_c7_schema_attrs (entities : List SqlGraphEntity) (s : PgxSql)
    (h : build entities = .ok s) :
    (∀ p ∈ s.externs,
      (∀ d, ExternArgs.schema d ∈ p.1.extern_attrs → ∀ sch ∈ s.schemas,
        (sch.1.name == d) = true →
        (sch.2, p.2, SqlGraphRelationship.requiredBy) ∈ s.graph.edges) ∧
      (∀ d, first_schema_attr p.1.extern_attrs = some d →
        s.schemas.any (fun sch => sch.1.name == d) = true)) ∧
    (∀ (g g1 : Graph) (item : PgExternEntity) (index : NodeIndex)
      (hashes : List (PostgresHashEntity × NodeIndex))
      (schemas : List (SchemaEntity × NodeIndex))
      (types : List (PostgresTypeEntity × NodeIndex))
      (enums : List (PostgresEnumEntity × NodeIndex))
      (builtin_types : List (String × NodeIndex))
      (extension_sqls : List (ExtensionSqlEntity × NodeIndex))
      (triggers : List (PgTriggerEntity × NodeIndex))
      (externs : List (PgExternEntity × NodeIndex)),
      connect_externs_attrs item.name index types enums externs schemas extension_sqls
        triggers g false item.extern_attrs = .ok (g1, true) →
      connect_extern_item g item index hashes schemas types enums builtin_types
          extension_sqls triggers externs =
        (match connect_extern_args index types enums builtin_types extension_sqls
            (connect_externs_hashes item index g1 hashes) item.fn_args with
          | .error e => .error e
          | .ok g2 => connect_extern_return index types enums builtin_types
              extension_sqls g2 item.fn_return)) := by
  obtain ⟨control, st, g, hc, hst, hg, hrec⟩ := build_ok_inv h
  subst hrec
  refine ⟨connect_phase_schema_attrs st g hg, ?_⟩
  intro g0 g1 item index hashes schemas types enums builtin_types extension_sqls
    triggers externs hattrs
  exact connect_extern_item_skips_path_schema g0 item index hashes schemas types enums
    builtin_types extension_sqls triggers externs g1 hattrs

/-- A declared schema named `a`. -/
def c7_schema_a : SchemaEntity := { module_path := "m::a", name := "a" }

/-- A function declaring schema `a` (which exists) and then schema `b` (which
does not). -/
def c7_fn : PgExternEntity :=
  { name := "g7", unaliased_name := "g7", module_path := "m", full_path := "m::g7",
    extern_attrs := [.schema "a", .schema "b"], fn_args := [], fn_return := .noneRet }

/-- The C7 counterexample input. -/
def c7_ce_input : List SqlGraphEntity :=
  [.extensionRoot example_control, .schema c7_schema_a, .function c7_fn]

/-- The decidable check evaluated on the C7 counterexample's build result. -/
def c7_check : Except BuildError PgxSql → Bool
  | .error _ => false
  | .ok s => s.schemas.all (fun sch => !(sch.1.name == "b"))

/-- C7 counterexample: the claim says an unmatched explicit schema name fails
the build, but a function whose second `Schema` attribute names a nonexistent
schema still builds, because the found flag set by the first matching
attribute is never reset. -/
theorem claim_c7_counterexample :
    ∃ s, build c7_ce_input = .ok s ∧
      ExternArgs.schema "b" ∈ c7_fn.extern_attrs ∧
      s.schemas.all (fun sch => !(sch.1.name == "b")) = true := by
  cases hb : build c7_ce_input with
  | error e =>
    have hok : (build c7_ce_input).isOk = true := by decide
    rw [hb] at hok
    cases hok
  | ok s =>
    have hcheck : c7_check (build c7_ce_input) = true := by decide
    rw [hb] at hcheck
    exact ⟨s, rfl, by decide, hcheck⟩

/-- A function declaring only the existing schema `a`. -/
def c7_w_fn : PgExternEntity :=
  { name := "w7", unaliased_name := "w7", module_path := "m", full_path := "m::w7",
    extern_attrs := [.schema "a"], fn_args := [], fn_return := .noneRet }

theorem claim_c7_witness :
    ∃ s, build [.extensionRoot example_control, .schema c7_schema_a, .function c7_w_fn]
        = .ok s ∧
      ∀ p ∈ s.externs, ∀ d, first_schema_attr p.1.extern_attrs = some d →
        s.schemas.any (fun sch => sch.1.name == d) = true := by
  cases hb : build [.extensionRoot example_control, .schema c7_schema_a,
      .function c7_w_fn] with
  | error e =>
    have hok : (build [.extensionRoot example_control, .schema c7_schema_a,
        .function c7_w_fn]).isOk = true := by decide
    rw [hb] at hok
    cases hok
  | ok s =>
    exact ⟨s, rfl, fun p hp d hd => ((claim_c7_schema_attrs _ s hb).1 p hp).2 d hd⟩

end PgxSqlModel

namespace PgxSqlModel

theorem connect_externs_hashes_mem (item : PgExternEntity) (index : NodeIndex) :
    ∀ (l : List (PostgresHashEntity × NodeIndex)) (g : Graph)
      (q : PostgresHashEntity × NodeIndex), q ∈ l →
      (item.module_path == q.1.module_path
        && item.name == str_to_lower q.1.name ++ "_eq") = true →
      (index, q.2, SqlGraphRelationship.requiredBy)
        ∈ (connect_externs_hashes item index g l).edges := by
  intro l
  induction l with
  | nil => intro g q hq _; cases hq
  | cons p rest ih =>
    intro g q hq hguard
    obtain ⟨hash_item, hash_index⟩ := p
    simp only [connect_externs_hashes]
    rcases List.mem_cons.mp hq with rfl | hq'
    · refine (connect_externs_hashes_edgeExtends _ _ _ _).toExtends.edge_stable ?_
      rw [if_pos hguard]
      simp [Graph.add_edge]
    · exact ih _ q hq' hguard

theorem connect_externs_hashes_no_match (item : PgExternEntity) (index : NodeIndex) :
    ∀ (l : List (PostgresHashEntity × NodeIndex)) (g : Graph),
      (∀ q ∈ l,
        (item.module_path == q.1.module_path
          && item.name == str_to_lower q.1.name ++ "_eq") = false) →
      connect_externs_hashes item index g l = g := by
  intro l
  induction l with
  | nil => intro g _; rfl
  | cons p rest ih =>
    intro g hall
    obtain ⟨hash_item, hash_index⟩ := p
    have h0 := hall (hash_item, hash_index) (List.mem_cons_self _ _)
    simp only [connect_externs_hashes, h0, Bool.false_eq_true, if_false]
    exact ih g (fun q hq => hall q (List.mem_cons_of_mem _ hq))

theorem connect_extern_item_hash_edges (g : Graph) (item : PgExternEntity)
    (index : NodeIndex)
    (hashes : List (PostgresHashEntity × NodeIndex))
    (schemas : List (SchemaEntity × NodeIndex))
    (types : List (PostgresTypeEntity × NodeIndex))
    (enums : List (PostgresEnumEntity × NodeIndex))
    (builtin_types : List (String × NodeIndex))
    (extension_sqls : List (ExtensionSqlEntity × NodeIndex))
    (triggers : List (PgTriggerEntity × NodeIndex))
    (externs : List (PgExternEntity × NodeIndex)) (g' : Graph)
    (h : connect_extern_item g item index hashes schemas types enums builtin_types
      extension_sqls triggers externs = .ok g') :
    ∀ q ∈ hashes,
      (item.module_path == q.1.module_path
        && item.name == str_to_lower q.1.name ++ "_eq") = true →
      (index, q.2, SqlGraphRelationship.requiredBy) ∈ g'.edges := by
  intro q hq hguard
  simp only [connect_extern_item] at h
  cases hattrs : connect_externs_attrs item.name index types enums externs schemas
      extension_sqls triggers g false item.extern_attrs with
  | error e =>
    simp only [hattrs] at h
    cases h
  | ok r =>
    simp only [hattrs] at h
    obtain ⟨g1, found⟩ := r
    split at h
    case h_1 e heq => cases h
    case h_2 g2 heq =>
      refine (connect_extern_return_edgeExtends _ _ _ _ _ _ _ _
        h).toExtends.edge_stable ?_
      refine (connect_extern_args_edgeExtends _ _ _ _ _ _ _ _
        heq).toExtends.edge_stable ?_
      exact connect_externs_hashes_mem item index hashes _ q hq hguard

theorem connect_externs_aux_hash_edges
    (hashes : List (PostgresHashEntity × NodeIndex))
    (schemas : List (SchemaEntity × NodeIndex))
    (types : List (PostgresTypeEntity × NodeIndex))
    (enums : List (PostgresEnumEntity × NodeIndex))
    (builtin_types : List (String × NodeIndex))
    (extension_sqls : List (ExtensionSqlEntity × NodeIndex))
    (triggers : List (PgTriggerEntity × NodeIndex))
    (externs : List (PgExternEntity × NodeIndex)) :
    ∀ (l : List (PgExternEntity × NodeIndex)) (g g' : Graph),
      connect_externs_aux hashes schemas types enums builtin_types extension_sqls
        triggers externs g l = .ok g' →
      ∀ p ∈ l, ∀ q ∈ hashes,
        (p.1.module_path == q.1.module_path
          && p.1.name == str_to_lower q.1.name ++ "_eq") = true →
        (p.2, q.2, SqlGraphRelationship.requiredBy) ∈ g'.edges := by
  intro l
  induction l with
  | nil =>
    intro g g' h p hp
    cases hp
  | cons r rest ih =>
    intro g g' h p hp q hq hguard
    obtain ⟨item, index⟩ := r
    simp only [connect_externs_aux] at h
    split at h
    case h_1 e heq => cases h
    case h_2 g2 heq =>
      rcases List.mem_cons.mp hp with rfl | hp'
      · exact (connect_externs_aux_edgeExtends _ _ _ _ _ _ _ _ _ _ _
          h).toExtends.edge_stable
          (connect_extern_item_hash_edges _ _ _ _ _ _ _ _ _ _ _ _ heq q hq hguard)
      · exact ih _ _ h p hp' q hq hguard

theorem connect_phase_hash_edges (st : InitState) (g : Graph)
    (h : connect_phase st = .ok g) :
    ∀ p ∈ st.externs, ∀ q ∈ st.hashes,
      (p.1.module_path == q.1.module_path
        && p.1.name == str_to_lower q.1.name ++ "_eq") = true →
      (p.2, q.2, SqlGraphRelationship.requiredBy) ∈ g.edges := by
  simp only [connect_phase, connect_extension_sqls, connect_externs, connect_ords,
    connect_hashes, connect_aggregates] at h
  split at h
  case h_1 e heq => cases h
  case h_2 g1 heq1 =>
    split at h
    case h_1 e heq => cases h
    case h_2 g2 heq2 =>
      split at h
      case h_1 e heq => cases h
      case h_2 g3 heq3 =>
        cases h
        intro p hp q hq hguard
        refine (connect_triggers_edgeExtends _ _ _).toExtends.edge_stable ?_
        refine (connect_aggregates_aux_edgeExtends _ _ _ _ _ _ _ _
          heq3).toExtends.edge_stable ?_
        refine (connect_hashes_aux_edgeExtends _ _ _ _ _ _).toExtends.edge_stable ?_
        refine (connect_ords_aux_edgeExtends _ _ _ _ _ _).toExtends.edge_stable ?_
        exact connect_externs_aux_hash_edges _ _ _ _ _ _ _ _ st.externs _ _ heq2
          p hp q hq hguard

/-- Modelled from the spec: the claim's matching rule, a hash operator named
`{function_name}_eq` built from the function's name lower-cased. The code's
rule instead lower-cases the hash entity's name. -/
def c8_claimed_match (item : PgExternEntity) (hash_item : PostgresHashEntity) : Bool :=
  item.module_path == hash_item.module_path
    && hash_item.name == str_to_lower item.name ++ "_eq"

/-- C8 (amended): in every successful build, each function/hash pair in the
same module where the function's name equals the hash entity's name
lower-cased with `_eq` appended gets a function-before-hash `RequiredBy`
edge; when no hash matches that rule for a function, the hash-wiring pass
returns the graph unchanged (best effort, never an error). The spec's rule
lower-cases the wrong side: the code compares the function's name verbatim
against the lower-cased hash name plus `_eq`. -/
theorem claim_c8_hash_edges (entities : List SqlGraphEntity) (s : PgxSql)
    (h : build entities = .ok s) :
    (∀ p ∈ s.externs, ∀ q ∈ s.hashes,
      (p.1.module_path == q.1.module_path
        && p.1.name == str_to_lower q.1.name ++ "_eq") = true →
      (p.2, q.2, SqlGraphRelationship.requiredBy) ∈ s.graph.edges) ∧
    (∀ (item : PgExternEntity) (index : NodeIndex) (g : Graph),
      (∀ q ∈ s.hashes,
        (item.module_path == q.1.module_path
          && item.name == str_to_lower q.1.name ++ "_eq") = false) →
      connect_externs_hashes item index g s.hashes = g) := by
  obtain ⟨control, st, g, hc, hst, hg, hrec⟩ := build_ok_inv h
  subst hrec
  exact ⟨connect_phase_hash_edges st g hg,
    fun item index g0 hall => connect_externs_hashes_no_match item index st.hashes g0
      hall⟩

/-- A function named after the claimed pattern target. -/
def c8_fn : PgExternEntity :=
  { name := "Foo", unaliased_name := "Foo", module_path := "m", full_path := "m::Foo",
    extern_attrs := [], fn_args := [], fn_return := .noneRet }

/-- A hash operator named `foo_eq` (the claimed pattern for function `Foo`). -/
def c8_hash : PostgresHashEntity :=
  { name := "foo_eq", module_path := "m", full_path := "m::foo_eq", id := 11 }

/-- The C8 counterexample input: nodes 0 (root), 1 (function), 2 (hash). -/
def c8_ce_input : List SqlGraphEntity :=
  [.extensionRoot example_control, .function c8_fn, .hash c8_hash]

/-- The decidable check evaluated on the C8 counterexample's build result. -/
def c8_check : Except BuildError PgxSql → Bool
  | .error _ => false
  | .ok s =>
    decide (s.graph.nodes.get? 1 = some (.function c8_fn)) &&
      decide (s.graph.nodes.get? 2 = some (.hash c8_hash)) &&
      !decide ((1, 2, SqlGraphRelationship.requiredBy) ∈ s.graph.edges)

/-- C8 counterexample: function `Foo` and hash `foo_eq` satisfy the claim's
rule (hash named from the lower-cased function name), yet the build adds no
function-before-hash edge, because the code's rule lower-cases the hash name
instead and compares it against the function's name verbatim. -/
theorem claim_c8_counterexample :
    c8_claimed_match c8_fn c8_hash = true ∧
    ∃ s, build c8_ce_input = .ok s ∧
      s.graph.nodes.get? 1 = some (.function c8_fn) ∧
      s.graph.nodes.get? 2 = some (.hash c8_hash) ∧
      (1, 2, SqlGraphRelationship.requiredBy) ∉ s.graph.edges := by
  refine ⟨by decide, ?_⟩
  cases hb : build c8_ce_input with
  | error e =>
    have hok : (build c8_ce_input).isOk = true := by decide
    rw [hb] at hok
    cases hok
  | ok s =>
    have hcheck : c8_check (build c8_ce_input) = true := by decide
    rw [hb] at hcheck
    simp only [c8_check, Bool.and_eq_true, decide_eq_true_eq, Bool.not_eq_true',
      decide_eq_false_iff_not] at hcheck
    exact ⟨s, rfl, hcheck.1.1, hcheck.1.2, hcheck.2⟩

/-- A function matching the code's rule for hash `Foo8`. -/
def c8_w_fn : PgExternEntity :=
  { name := "foo8_eq", unaliased_name := "foo8_eq", module_path := "m",
    full_path := "m::foo8_eq", extern_attrs := [], fn_args := [],
    fn_return := .noneRet }

/-- A hash operator whose lower-cased name plus `_eq` is `foo8_eq`. -/
def c8_w_hash : PostgresHashEntity :=
  { name := "Foo8", module_path := "m", full_path := "m::Foo8", id := 12 }

theorem claim_c8_witness :
    ∃ s, build [.extensionRoot example_control, .function c8_w_fn, .hash c8_w_hash]
        = .ok s ∧
      ∀ p ∈ s.externs, ∀ q ∈ s.hashes,
        (p.1.module_path == q.1.module_path
          && p.1.name == str_to_lower q.1.name ++ "_eq") = true →
        (p.2, q.2, SqlGraphRelationship.requiredBy) ∈ s.graph.edges := by
  cases hb : build [.extensionRoot example_control, .function c8_w_fn,
      .hash c8_w_hash] with
  | error e =>
    have hok : (build [.extensionRoot example_control, .function c8_w_fn,
        .hash c8_w_hash]).isOk = true := by decide
    rw [hb] at hok
    cases hok
  | ok s =>
    exact ⟨s, rfl, (claim_c8_hash_edges _ s hb).1⟩

end PgxSqlModel

namespace PgxSqlModel

theorem initialize_extension_sqls_nodes_success :
    ∀ (l : List ExtensionSqlEntity) (g : Graph) (b f : Option NodeIndex)
      (mapped : List (ExtensionSqlEntity × NodeIndex)),
      (b.isSome = true → l.countP (fun i => i.bootstrap) = 0) →
      l.countP (fun i => i.bootstrap) ≤ 1 →
      (f.isSome = true → l.countP (fun i => i.finalize) = 0) →
      l.countP (fun i => i.finalize) ≤ 1 →
      ∃ q, initialize_extension_sqls_nodes g b f mapped l = .ok q := by
  intro l
  induction l with
  | nil =>
    intro g b f mapped _ _ _ _
    exact ⟨_, rfl⟩
  | cons item rest ih =>
    intro g b f mapped hb1 hb2 hf1 hf2
    rw [initialize_extension_sqls_nodes.eq_def]
    simp only []
    have hg1 : (item.bootstrap && b.isSome) = false := by
      cases hbo : item.bootstrap
      · simp
      · cases hbs : b.isSome
        · simp
        · exfalso
          have h0 := hb1 hbs
          simp [List.countP_cons, hbo] at h0
    have hg2 : (item.finalize && f.isSome) = false := by
      cases hfo : item.finalize
      · simp
      · cases hfs : f.isSome
        · simp
        · exfalso
          have h0 := hf1 hfs
          simp [List.countP_cons, hfo] at h0
    simp only [hg1, hg2, Bool.false_eq_true, if_false]
    refine ih _ _ _ _ ?_ ?_ ?_ ?_
    · intro hbs
      cases hbo : item.bootstrap
      · rw [hbo] at hbs
        simp only [if_false, Bool.false_eq_true] at hbs
        have h0 := hb1 hbs
        rw [List.countP_cons] at h0
        omega
      · have h1 := hb2
        rw [List.countP_cons] at h1
        have hpos : (if (fun i => i.bootstrap) item = true then 1 else 0) = 1 := by
          simp [hbo]
        rw [hpos] at h1
        omega
    · have h1 := hb2
      rw [List.countP_cons] at h1
      omega
    · intro hfs
      cases hfo : item.finalize
      · rw [hfo] at hfs
        simp only [if_false, Bool.false_eq_true] at hfs
        have h0 := hf1 hfs
        rw [List.countP_cons] at h0
        omega
      · have h1 := hf2
        rw [List.countP_cons] at h1
        have hpos : (if (fun i => i.finalize) item = true then 1 else 0) = 1 := by
          simp [hfo]
        rw [hpos] at h1
        omega
    · have h1 := hf2
      rw [List.countP_cons] at h1
      omega

theorem initialize_extension_sqls_success (g : Graph) (root : NodeIndex)
    (l : List ExtensionSqlEntity)
    (hb : l.countP (fun i => i.bootstrap) ≤ 1)
    (hf : l.countP (fun i => i.finalize) ≤ 1) :
    ∃ q, initialize_extension_sqls g root l = .ok q := by
  obtain ⟨⟨g1, b1, f1, m1⟩, hq0⟩ := initialize_extension_sqls_nodes_success l g
    none none [] (fun h => by cases h) hb (fun h => by cases h) hf
  exact ⟨_, by rw [initialize_extension_sqls.eq_def, hq0]⟩

theorem extension_sql_base_edges_skip_anchor (root : NodeIndex)
    (b f : Option NodeIndex) (g : Graph) (item : ExtensionSqlEntity)
    (index : NodeIndex) (rest : List (ExtensionSqlEntity × NodeIndex))
    (hb : item.bootstrap = true) (hf : item.finalize = true) :
    extension_sql_base_edges root b f g ((item, index) :: rest)
      = extension_sql_base_edges root b f (g.add_edge root index .requiredBy) rest := by
  simp only [extension_sql_base_edges, hb, hf, Bool.not_true, Bool.false_eq_true,
    if_false]

/-- C10 (amended): a single `ExtensionSql` entity marked both bootstrap and
finalize is not an anchor-uniqueness violation — the node phase succeeds
whenever each anchor kind is claimed at most once — and the anchor wiring
itself skips both the bootstrap-before-node and the node-before-finalize edge
for an entity so marked (only its root edge is added), so that wiring creates
no self-loop; but a self-loop can still arise elsewhere (a fragment that
`requires` itself), and overall build success is not implied (other
construction errors still apply). -/
theorem claim_c10_anchor (g : Graph) (root : NodeIndex)
    (l : List ExtensionSqlEntity)
    (hb : l.countP (fun i => i.bootstrap) ≤ 1)
    (hf : l.countP (fun i => i.finalize) ≤ 1) :
    (∃ q, initialize_extension_sqls g root l = .ok q) ∧
    (∀ (b f : Option NodeIndex) (g2 : Graph) (item : ExtensionSqlEntity)
      (index : NodeIndex) (rest : List (ExtensionSqlEntity × NodeIndex)),
      item.bootstrap = true → item.finalize = true →
      extension_sql_base_edges root b f g2 ((item, index) :: rest)
        = extension_sql_base_edges root b f (g2.add_edge root index .requiredBy) rest) := by
  refine ⟨initialize_extension_sqls_success g root l hb hf, ?_⟩
  intro b f g2 item index rest hib hif
  exact extension_sql_base_edges_skip_anchor root b f g2 item index rest hib hif

/-- A fragment marked both bootstrap and finalize that requires itself. -/
def c10_sql : ExtensionSqlEntity :=
  { name := "boot", module_path := "m", bootstrap := true, finalize := true,
    requires := [.name "boot"], creates := [] }

/-- The decidable check evaluated on the C10 counterexample's build result. -/
def c10_check : Except BuildError PgxSql → Bool
  | .error _ => false
  | .ok s =>
    decide (s.graph.nodes.get? 1 = some (.customSql c10_sql)) &&
      decide ((1, 1, SqlGraphRelationship.requiredBy) ∈ s.graph.edges)

/-- C10 counterexample: a single both-marked anchor alone does not make build
succeed (no control entity is still fatal), and the anchor node is not free of
self-loops in general: a fragment requiring itself by name gets the self-loop
edge (1, 1, RequiredBy) from the requires wiring. -/
theorem claim_c10_counterexample :
    build [.customSql c10_sql] = .error .noControlFile ∧
    ∃ s, build [.extensionRoot example_control, .customSql c10_sql] = .ok s ∧
      s.graph.nodes.get? 1 = some (.customSql c10_sql) ∧
      (1, 1, SqlGraphRelationship.requiredBy) ∈ s.graph.edges := by
  refine ⟨rfl, ?_⟩
  cases hb : build [.extensionRoot example_control, .customSql c10_sql] with
  | error e =>
    have hok : (build [.extensionRoot example_control, .customSql c10_sql]).isOk
        = true := by decide
    rw [hb] at hok
    cases hok
  | ok s =>
    have hcheck : c10_check (build [.extensionRoot example_control,
        .customSql c10_sql]) = true := by decide
    rw [hb] at hcheck
    simp only [c10_check, Bool.and_eq_true, decide_eq_true_eq] at hcheck
    exact ⟨s, rfl, hcheck.1, hcheck.2⟩

/-- A both-marked fragment without self-requires, for the witness. -/
def c10_w_sql : ExtensionSqlEntity :=
  { name := "w10", module_path := "m", bootstrap := true, finalize := true,
    requires := [], creates := [] }

theorem claim_c10_witness :
    ([c10_w_sql].countP (fun i => i.bootstrap) ≤ 1 ∧
      [c10_w_sql].countP (fun i => i.finalize) ≤ 1) ∧
    ∃ q, initialize_extension_sqls empty_graph 0 [c10_w_sql] = .ok q := by
  refine ⟨⟨by decide, by decide⟩, ?_⟩
  exact (claim_c10_anchor empty_graph 0 [c10_w_sql] (by decide) (by decide)).1

end PgxSqlModel
